import Mathlib

/-!
Shallow embedding of the meta-ads analyzer data pipeline.

The development models the three modules the claims concern:
`data_processor.py` (DataProcessor), `kpi_calculator.py` (KPICalculator),
`validators.py` (ExcelValidator) and the action-value extractor of
`meta_client.py` (MetaAdsClient._extract_action_value).

A pandas DataFrame is modelled as a rectangular `Table`: a list of column
names plus rows, each row being its pandas index label paired with a list
of cells aligned positionally with the column list.  Machine floats are
modelled as rationals; NaN/NaT is the distinguished cell `Cell.na`.
Python exceptions are modelled by the `Except PErr` monad.
-/

namespace MetaAds

/-- Python exceptions that the modelled code can raise. -/
inductive PErr
  | keyError (c : String)
  | attributeError
  | valueError
  | typeError
  | jsonDecodeError
deriving DecidableEq, Repr

/-- One pandas cell: missing (NaN/NaT), a number, a string, or a datetime
(encoded as an integer ordinal). -/
inductive Cell
  | na
  | num (q : ℚ)
  | str (s : String)
  | date (d : ℤ)
deriving DecidableEq, Repr

/-! ### Python string primitives (`str.lower`, `str.strip`) -/

/-- ASCII uppercase-to-lowercase table used to model `str.lower`. -/
def upperLower : List (Char × Char) :=
  [('A', 'a'), ('B', 'b'), ('C', 'c'), ('D', 'd'), ('E', 'e'), ('F', 'f'),
   ('G', 'g'), ('H', 'h'), ('I', 'i'), ('J', 'j'), ('K', 'k'), ('L', 'l'),
   ('M', 'm'), ('N', 'n'), ('O', 'o'), ('P', 'p'), ('Q', 'q'), ('R', 'r'),
   ('S', 's'), ('T', 't'), ('U', 'u'), ('V', 'v'), ('W', 'w'), ('X', 'x'),
   ('Y', 'y'), ('Z', 'z')]

/-- First-match association-list lookup. -/
def alFind : List (Char × Char) → Char → Option Char
  | [], _ => none
  | p :: r, c => if p.1 = c then some p.2 else alFind r c

/-- Lower-case one character (ASCII model of Python `str.lower`). -/
def pyLowerChar (c : Char) : Char := (alFind upperLower c).getD c

/-- Whitespace characters removed by Python `str.strip`. -/
def pyWS : List Char := [' ', '\t', '\n', '\r', '\x0b', '\x0c']

/-- Whitespace test for `str.strip`. -/
def isWS (c : Char) : Bool := pyWS.contains c

/-- Model of Python `str.strip` on the character list: drop whitespace from
both ends. -/
def pyStripList (l : List Char) : List Char :=
  List.rdropWhile isWS (List.dropWhile isWS l)

/-- Model of Python `str.lower`. -/
def pyLower (s : String) : String := ⟨s.data.map pyLowerChar⟩

/-- Model of Python `str.strip`. -/
def pyStrip (s : String) : String := ⟨pyStripList s.data⟩

/-! ### Numeric and date parsing (models of `pd.to_numeric` / `pd.to_datetime` /
Python `float`) -/

/-- Value of a decimal digit. -/
def digitVal (c : Char) : Option ℕ :=
  if c.isDigit then some (c.toNat - 48) else none

/-- Value of a nonempty all-digit string. -/
def digitsVal (l : List Char) : Option ℕ :=
  if l.isEmpty then none
  else l.foldl (fun acc c => do
    let a ← acc
    let d ← digitVal c
    pure (a * 10 + d)) (some 0)

/-- Parse an unsigned decimal literal (`"12"`, `"12.5"`, `"12."`, `".5"`).
Scientific notation and locale forms are outside the modelled domain. -/
def parseUnsigned (l : List Char) : Option ℚ :=
  let ip := l.takeWhile (fun c => c ≠ '.')
  let rest := l.dropWhile (fun c => c ≠ '.')
  match rest with
  | [] => (digitsVal ip).map (fun n => (n : ℚ))
  | _ :: fp =>
    if ip.isEmpty && fp.isEmpty then none
    else if fp.any (fun c => !c.isDigit) then none
    else do
      let ipv ← if ip.isEmpty then some 0 else digitsVal ip
      let fpv ← if fp.isEmpty then some 0 else digitsVal fp
      some ((ipv : ℚ) + (fpv : ℚ) / ((10 : ℚ) ^ fp.length))

/-- Parse a signed decimal literal after stripping surrounding whitespace;
this models the common core of `pd.to_numeric` string handling and Python
`float(str)`. -/
def parseNumStr (s : String) : Option ℚ :=
  match pyStripList s.data with
  | [] => none
  | '+' :: rest => parseUnsigned rest
  | '-' :: rest => (parseUnsigned rest).map Neg.neg
  | l => parseUnsigned l

/-- Model of `pd.to_numeric(col, errors="coerce")` on one cell: numbers kept,
parseable strings converted, everything else coerced to missing. -/
def toNumericCell : Cell → Cell
  | .num q => .num q
  | .na => .na
  | .str s => match parseNumStr s with
    | some q => .num q
    | none => .na
  | .date _ => .na

/-- Parse an ISO `YYYY-MM-DD` date string into the ordinal encoding
`y*10000 + m*100 + d`; other layouts are outside the modelled domain. -/
def parseDateStr (s : String) : Option ℤ :=
  match (pyStripList s.data).splitOn '-' with
  | [y, m, d] => do
    let yv ← digitsVal y
    let mv ← digitsVal m
    let dv ← digitsVal d
    if 1 ≤ mv ∧ mv ≤ 12 ∧ 1 ≤ dv ∧ dv ≤ 31 then
      some ((yv * 10000 + mv * 100 + dv : ℕ) : ℤ)
    else none
  | _ => none

/-- Model of `pd.to_datetime(col, errors="coerce")` on one cell: dates kept,
missing stays missing, numbers are epoch-interpreted (abstracted as their
floor), unparseable strings coerced to missing. -/
def toDatetimeCoerce : Cell → Cell
  | .date d => .date d
  | .na => .na
  | .num q => .date ⌊q⌋
  | .str s => match parseDateStr s with
    | some d => .date d
    | none => .na

/-- Cell accepted by `pd.to_datetime(col, errors="raise")` without raising. -/
def dateParseOk : Cell → Bool
  | .date _ => true
  | .na => true
  | .num _ => true
  | .str s => (parseDateStr s).isSome

/-! ### Cell-level pandas operations -/

/-- Series comparison `cell > q`; NaN and non-numeric cells compare false,
matching pandas NaN semantics. -/
def cellGtNum (a : Cell) (q : ℚ) : Bool :=
  match a with
  | .num x => q < x
  | _ => false

/-- Series comparison `cell < q`; NaN and non-numeric cells compare false. -/
def cellLtNum (a : Cell) (q : ℚ) : Bool :=
  match a with
  | .num x => x < q
  | _ => false

/-- Series comparison `a > b` between two cells of the same row. -/
def cellGtCell (a b : Cell) : Bool :=
  match a, b with
  | .num x, .num y => y < x
  | _, _ => false

/-- Cell division with NaN propagation.  All modelled uses guard the
denominator away from zero beforehand (by a `> 0` test or a
`replace(0, nan)`), so the zero branch is never reached; it is mapped to
missing. -/
def cellDiv (a b : Cell) : Cell :=
  match a, b with
  | .num x, .num y => if y = 0 then .na else .num (x / y)
  | _, _ => .na

/-- Model of `Series.replace(0, np.nan)` on one cell. -/
def replaceZeroNa (c : Cell) : Cell :=
  if c = .num 0 then .na else c

/-- Model of `Series.clip(lower=0)` on one cell; NaN passes through. -/
def clipLower0 : Cell → Cell
  | .num q => .num (if q < 0 then 0 else q)
  | c => c

/-- Model of `Series.fillna(v)` on one cell. -/
def fillNaCell (v : Cell) (c : Cell) : Cell :=
  if c = .na then v else c

/-- Null test (`isnull`). -/
def isNaCell (c : Cell) : Bool := c = .na

/-- Model of `Series.astype(str)` on one cell.  The exact Python rendering of
numbers and dates is abstracted by an injective printer; `NaN` renders as
`"nan"` as in pandas. -/
def cellAstypeStr : Cell → Cell
  | .na => .str "nan"
  | .num q => .str (toString q)
  | .str s => .str s
  | .date d => .str (toString d)

/-! ### Tables -/

/-- A pandas DataFrame: column names plus rows.  Each row is its pandas
index label together with cells aligned positionally with `cols`. -/
structure Table where
  cols : List String
  rows : List (ℕ × List Cell)
deriving DecidableEq, Repr

/-- Rectangularity: every row has exactly one cell per column. -/
def WF (t : Table) : Prop :=
  ∀ r ∈ t.rows, (r.2 : List Cell).length = t.cols.length

/-- Index of the first column with the given name (`df.columns.get_loc`). -/
def colIdx : List String → String → Option ℕ
  | [], _ => none
  | c0 :: cs, c =>
    if c0 = c then some 0
    else
      match colIdx cs c with
      | some i => some (i + 1)
      | none => none

/-- Cell of a row at a position, defaulting to missing. -/
def getAt (cells : List Cell) (i : ℕ) : Cell := cells.getD i .na

/-- Value of the named column in one row of the table. -/
def cellVal (cols : List String) (c : String) (cells : List Cell) : Cell :=
  match colIdx cols c with
  | some i => getAt cells i
  | none => .na

/-- Column assignment `df[c] = f(row)`: overwrite the column in place when it
exists, append a new column otherwise. -/
def assignCol (t : Table) (c : String) (f : ℕ × List Cell → Cell) : Table :=
  match colIdx t.cols c with
  | some i => { t with rows := t.rows.map (fun r => (r.1, r.2.set i (f r))) }
  | none =>
    { cols := t.cols ++ [c],
      rows := t.rows.map (fun r => (r.1, r.2 ++ [f r])) }

/-- Cell-wise transformation of one column when it is present
(`if col in df.columns: df[col] = g(df[col])`). -/
def mapColIfPresent (t : Table) (c : String) (g : Cell → Cell) : Table :=
  match colIdx t.cols c with
  | some i => { t with rows := t.rows.map (fun r => (r.1, r.2.set i (g (getAt r.2 i)))) }
  | none => t

/-- Row filter `df.dropna(subset=[c])` (on a present column). -/
def dropNaRows (t : Table) (c : String) : Table :=
  match colIdx t.cols c with
  | some i => { t with rows := t.rows.filter (fun r => !isNaCell (getAt r.2 i)) }
  | none => t

/-- Append a constant new column. -/
def addConstCol (t : Table) (c : String) (v : Cell) : Table :=
  { cols := t.cols ++ [c], rows := t.rows.map (fun r => (r.1, r.2 ++ [v])) }

/-! ## DataProcessor (`src/data_processor.py`) -/

/-- Static synonym table `DataProcessor.column_mapping`, in source order. -/
def column_mapping : List (String × String) :=
  [("campaign name", "campaign_name"),
   ("reporting starts", "date"),
   ("amount spent (inr)", "spend"),
   ("impressions", "impressions"),
   ("link clicks", "clicks"),
   ("results", "purchases"),
   ("reach", "reach"),
   ("frequency", "frequency"),
   ("cpm (cost per 1,000 impressions) (inr)", "cpm_original"),
   ("cpc (cost per link click) (inr)", "cpc_original"),
   ("ctr (link click-through rate)", "ctr_original"),
   ("clicks (all)", "clicks_all"),
   ("ctr (all)", "ctr_all"),
   ("cpc (all) (inr)", "cpc_all"),
   ("shop_clicks", "shop_clicks"),
   ("cost per results", "cost_per_results"),
   ("result indicator", "result_indicator"),
   ("campaign delivery", "campaign_delivery")]

/-- The `column_mapping_lower` dictionary (`{k.lower(): v}`). -/
def columnMappingLower : List (String × String) :=
  column_mapping.map (fun p => (pyLower p.1, p.2))

/-- Rename one (already lowered and stripped) column name through the synonym
table; unmapped names pass through. -/
def renameCol (c : String) : String :=
  (columnMappingLower.lookup c).getD c

/-- One column name through `_normalize_column_names`: lower, strip, then the
synonym rename. -/
def normStep (c : String) : String :=
  renameCol (pyStrip (pyLower c))

/-- Model of `DataProcessor._normalize_column_names`. -/
def normalize_column_names (t : Table) : Table :=
  { t with cols := (t.cols.map (fun c => pyStrip (pyLower c))).map renameCol }

/-- Numeric columns coerced by `_clean_data_types`. -/
def numericColsClean : List String :=
  ["spend", "impressions", "clicks", "purchases", "revenue", "results",
   "reach", "frequency"]

/-- Mixed-type columns forced to string by `_clean_data_types`. -/
def stringColsClean : List String :=
  ["ad set budget", "ad set budget type", "campaign delivery",
   "attribution setting", "result indicator"]

/-- Identifier columns forced to string by `_clean_data_types`. -/
def idColsClean : List String :=
  ["account_id", "campaign_id", "ad_id", "creative_id"]

/-- One iteration of the numeric-column loop in `_clean_data_types`:
coerce to numeric, then clip negatives for `impressions`/`clicks`. -/
def cleanNumStep (acc : Table) (col : String) : Table :=
  let acc1 := mapColIfPresent acc col toNumericCell
  if col = "impressions" ∨ col = "clicks" then
    mapColIfPresent acc1 col clipLower0
  else acc1

/-- Model of `DataProcessor._clean_data_types`. -/
def clean_data_types (t : Table) : Table :=
  let t1 := mapColIfPresent t "date" toDatetimeCoerce
  let t2 := numericColsClean.foldl cleanNumStep t1
  let t3 := stringColsClean.foldl (fun acc col =>
    mapColIfPresent acc col cellAstypeStr) t2
  idColsClean.foldl (fun acc col => mapColIfPresent acc col cellAstypeStr) t3

/-- Model of `DataProcessor._handle_missing_values`. -/
def handle_missing_values (t : Table) : Table :=
  let t1 := ["spend", "impressions", "clicks", "purchases", "revenue"].foldl
    (fun acc col => mapColIfPresent acc col (fillNaCell (.num 0))) t
  let t2 := ["campaign_name", "date"].foldl (fun acc col => dropNaRows acc col) t1
  ["ad_name", "campaign_name", "objective"].foldl
    (fun acc col => mapColIfPresent acc col (fillNaCell (.str "Unknown"))) t2

/-- Key of a row for duplicate detection: the cells at the given columns. -/
def rowKey (cols : List String) (ks : List String) (cells : List Cell) : List Cell :=
  ks.map (fun c => cellVal cols c cells)

/-- Keep-first deduplication by key, with the set of already-seen keys. -/
def dedupByKey (k : List Cell → List Cell) :
    List (ℕ × List Cell) → List (List Cell) → List (ℕ × List Cell)
  | [], _ => []
  | r :: rs, seen =>
    if k r.2 ∈ seen then dedupByKey k rs seen
    else r :: dedupByKey k rs (k r.2 :: seen)

/-- Model of `DataProcessor._remove_duplicates`: deduplicate on
`(campaign_name, date)` extended with `ad_id` when that column is present,
keeping the first occurrence.  `drop_duplicates` raises `KeyError` when a
subset column is missing. -/
def dupColumns (t : Table) : List String :=
  ["campaign_name", "date"] ++
    (if (colIdx t.cols "ad_id").isSome then ["ad_id"] else [])

def remove_duplicates (t : Table) : Except PErr Table :=
  match (dupColumns t).find? (fun c => !(colIdx t.cols c).isSome) with
  | some c => .error (.keyError c)
  | none => .ok { t with rows := dedupByKey (rowKey t.cols (dupColumns t)) t.rows [] }

/-- First repair rule of `_validate_data_consistency`: where
`clicks > impressions`, set `clicks := impressions` (when both columns
exist and some row is invalid). -/
def fixClicksImpressions (t : Table) : Table :=
  if (colIdx t.cols "clicks").isSome ∧ (colIdx t.cols "impressions").isSome then
    if t.rows.any (fun r =>
        cellGtCell (cellVal t.cols "clicks" r.2) (cellVal t.cols "impressions" r.2)) then
      assignCol t "clicks" (fun r =>
        if cellGtCell (cellVal t.cols "clicks" r.2) (cellVal t.cols "impressions" r.2) then
          cellVal t.cols "impressions" r.2
        else cellVal t.cols "clicks" r.2)
    else t
  else t

/-- Second repair rule of `_validate_data_consistency`: clip negative
`spend` to 0 (when the column exists and some row is negative). -/
def fixNegativeSpend (t : Table) : Table :=
  if (colIdx t.cols "spend").isSome then
    if t.rows.any (fun r => cellLtNum (cellVal t.cols "spend" r.2) 0) then
      mapColIfPresent t "spend" clipLower0
    else t
  else t

/-- Third repair rule of `_validate_data_consistency`: set `purchases := 1`
where `revenue > 0` and `purchases == 0` (when both columns exist and some
row matches). -/
def fixRevenuePurchases (t : Table) : Table :=
  if (colIdx t.cols "purchases").isSome ∧ (colIdx t.cols "revenue").isSome then
    if t.rows.any (fun r =>
        cellGtNum (cellVal t.cols "revenue" r.2) 0 ∧
          cellVal t.cols "purchases" r.2 = .num 0) then
      assignCol t "purchases" (fun r =>
        if cellGtNum (cellVal t.cols "revenue" r.2) 0 ∧
            cellVal t.cols "purchases" r.2 = .num 0 then .num 1
        else cellVal t.cols "purchases" r.2)
    else t
  else t

/-- Model of `DataProcessor._validate_data_consistency`: the three repair
rules in source order. -/
def validate_data_consistency (t : Table) : Table :=
  fixRevenuePurchases (fixNegativeSpend (fixClicksImpressions t))

/-- Synthesis of `campaign_id` from `campaign_name`
(`str.replace(" ", "_").str.lower() + "_" + index`); non-string names
propagate as missing, as the pandas `.str` accessor does. -/
def synthCampaignId (idx : ℕ) (nameCell : Cell) : Cell :=
  match nameCell with
  | .str s => .str (pyLower ⟨s.data.map (fun c => if c = ' ' then '_' else c)⟩ ++
      "_" ++ toString idx)
  | _ => .na

/-- Synthesis of `ad_id` from `campaign_id` (`campaign_id + "_ad_" + index`). -/
def synthAdId (idx : ℕ) (cidCell : Cell) : Cell :=
  match cidCell with
  | .str s => .str (s ++ "_ad_" ++ toString idx)
  | _ => .na

/-- Synthesis of `ad_name` from `campaign_name` (`campaign_name + " - Ad"`). -/
def synthAdName (nameCell : Cell) : Cell :=
  match nameCell with
  | .str s => .str (s ++ " - Ad")
  | _ => .na

/-- Synthesis block for `account_id`: default constant when absent. -/
def genAccountId (t : Table) : Table :=
  if (colIdx t.cols "account_id").isSome then t
  else addConstCol t "account_id" (.str "desky_account_001")

/-- Synthesis block for `campaign_id` from `campaign_name` and the row
index. -/
def genCampaignId (t : Table) : Table :=
  if !(colIdx t.cols "campaign_id").isSome ∧ (colIdx t.cols "campaign_name").isSome then
    assignCol t "campaign_id"
      (fun r => synthCampaignId r.1 (cellVal t.cols "campaign_name" r.2))
  else t

/-- Synthesis block for `purchases`: copy `results` when available, else 0. -/
def genPurchases (t : Table) : Table :=
  if (colIdx t.cols "purchases").isSome then t
  else if (colIdx t.cols "results").isSome then
    assignCol t "purchases" (fun r => cellVal t.cols "results" r.2)
  else addConstCol t "purchases" (.num 0)

/-- Synthesis block for `revenue`: 0 when absent. -/
def genRevenue (t : Table) : Table :=
  if (colIdx t.cols "revenue").isSome then t
  else addConstCol t "revenue" (.num 0)

/-- Synthesis block for `ad_id`: `campaign_id + "_ad_" + index`; reading a
missing `campaign_id` raises `KeyError`. -/
def genAdId (t : Table) : Except PErr Table :=
  if (colIdx t.cols "ad_id").isSome then pure t
  else if (colIdx t.cols "campaign_id").isSome then
    pure (assignCol t "ad_id"
      (fun r => synthAdId r.1 (cellVal t.cols "campaign_id" r.2)))
  else throw (.keyError "campaign_id")

/-- Synthesis block for `ad_name`: `campaign_name + " - Ad"`; reading a
missing `campaign_name` raises `KeyError`. -/
def genAdName (t : Table) : Except PErr Table :=
  if (colIdx t.cols "ad_name").isSome then pure t
  else if (colIdx t.cols "campaign_name").isSome then
    pure (assignCol t "ad_name"
      (fun r => synthAdName (cellVal t.cols "campaign_name" r.2)))
  else throw (.keyError "campaign_name")

/-- Model of `DataProcessor._generate_missing_fields`: the six synthesis
blocks in source order. -/
def generate_missing_fields (t : Table) : Except PErr Table := do
  let t5 ← genAdId (genRevenue (genPurchases (genCampaignId (genAccountId t))))
  genAdName t5

/-- Linear preorder on cells used to model the sort comparator: numbers,
strings and dates compare within their kind; missing sorts last
(`na_position="last"`).  Cross-kind order is abstracted — only the multiset
of rows matters to the verified properties. -/
def cellLe (a b : Cell) : Bool :=
  match a, b with
  | .num x, .num y => x ≤ y
  | .str x, .str y => x ≤ y
  | .date x, .date y => x ≤ y
  | .na, _ => false
  | _, .na => true
  | .num _, _ => true
  | _, .num _ => false
  | .str _, .date _ => true
  | .date _, .str _ => false

/-- Lexicographic comparator on the `(date, campaign_name)` sort key. -/
def sortKeyLe (cols : List String) (a b : ℕ × List Cell) : Bool :=
  let ka := cellVal cols "date" a.2
  let kb := cellVal cols "date" b.2
  if ka = kb then
    cellLe (cellVal cols "campaign_name" a.2) (cellVal cols "campaign_name" b.2)
  else cellLe ka kb

/-- Model of `df.sort_values(["date", "campaign_name"]).reset_index(drop=True)`;
`sort_values` raises `KeyError` on a missing sort column. -/
def sort_and_reset (t : Table) : Except PErr Table :=
  if !(colIdx t.cols "date").isSome then .error (.keyError "date")
  else if !(colIdx t.cols "campaign_name").isSome then .error (.keyError "campaign_name")
  else .ok { cols := t.cols,
             rows := ((t.rows.mergeSort (sortKeyLe t.cols)).map Prod.snd).enum }

/-- Model of `DataProcessor.clean_and_normalize`: normalize column names,
coerce types, handle missing values, deduplicate, repair consistency,
synthesize missing fields, then sort and reset the index. -/
def clean_and_normalize (t : Table) : Except PErr Table := do
  let p4 ← remove_duplicates
    (handle_missing_values (clean_data_types (normalize_column_names t)))
  let p6 ← generate_missing_fields (validate_data_consistency p4)
  sort_and_reset p6

/-! ## KPICalculator (`src/kpi_calculator.py`) -/

/-- Check that the column exists, returning its position; `df[c]` on a missing
column raises `KeyError(c)`. -/
def getColE (t : Table) (c : String) : Except PErr ℕ :=
  match colIdx t.cols c with
  | some i => .ok i
  | none => .error (.keyError c)

/-- One cell of `np.where(den > 0, num / den * scale, 0)`: the zero-guarded
ratio.  A NaN denominator compares false and yields the `0` branch; a NaN
numerator with a positive denominator propagates as NaN. -/
def kpiCell (numC denC : Cell) (scale : ℚ) : Cell :=
  match denC with
  | .num d =>
    if 0 < d then
      match numC with
      | .num n => .num (n / d * scale)
      | _ => .na
    else .num 0
  | _ => .num 0

/-- Shared shape of `_calculate_cpc` / `_calculate_cpm` / `_calculate_ctr` /
`_calculate_cpa` / `_calculate_roas` / `_calculate_cvr` and the derived
metrics: `df[target] = np.where(df[den] > 0, df[num] / df[den] * scale, 0)`.
The condition column (`den`) is read first, as `np.where` evaluates its
arguments in order. -/
def calcRatio (t : Table) (target num den : String) (scale : ℚ) :
    Except PErr Table := do
  let di ← getColE t den
  let _ ← getColE t num
  pure (assignCol t target (fun r =>
    kpiCell (cellVal t.cols num r.2) (getAt r.2 di) scale))

/-- One cell of the frequency formula
`np.where(clicks > 0, impressions / clicks, impressions / 1)`. -/
def freqCell (clicksC impC : Cell) : Cell :=
  match clicksC with
  | .num c =>
    if 0 < c then cellDiv impC (.num c)
    else
      match impC with
      | .num i => .num (i / 1)
      | _ => .na
  | _ =>
    match impC with
    | .num i => .num (i / 1)
    | _ => .na

/-- Model of `KPICalculator._calculate_frequency`. -/
def calc_frequency (t : Table) : Except PErr Table := do
  let _ ← getColE t "clicks"
  let _ ← getColE t "impressions"
  pure (assignCol t "frequency" (fun r =>
    freqCell (cellVal t.cols "clicks" r.2) (cellVal t.cols "impressions" r.2)))

/-- The conversion-KPI block of `calculate_all_kpis`: `_calculate_cpa`
then `_calculate_cvr`, run only when the `purchases` column is present
(the methods repeat the same check internally, so one guard suffices). -/
def kpiStepConv (t : Table) : Except PErr Table :=
  if (colIdx t.cols "purchases").isSome then do
    let u ← calcRatio t "cpa" "spend" "purchases" 1
    calcRatio u "cvr" "purchases" "clicks" 1
  else pure t

/-- The `_calculate_roas` block, run only when `revenue` is present. -/
def kpiStepRoas (t : Table) : Except PErr Table :=
  if (colIdx t.cols "revenue").isSome then
    calcRatio t "roas" "revenue" "spend" 1
  else pure t

/-- The two revenue-derived metrics of `_calculate_derived_metrics`. -/
def kpiStepRpiRpc (t : Table) : Except PErr Table :=
  if (colIdx t.cols "revenue").isSome then do
    let u ← calcRatio t "revenue_per_impression" "revenue" "impressions" 1
    calcRatio u "revenue_per_click" "revenue" "clicks" 1
  else pure t

/-- The purchase-rate metric of `_calculate_derived_metrics`. -/
def kpiStepPurchaseRate (t : Table) : Except PErr Table :=
  if (colIdx t.cols "purchases").isSome then
    calcRatio t "purchase_rate" "purchases" "impressions" 1
  else pure t

/-- The average-order-value metric of `_calculate_derived_metrics`,
guarded on both `revenue` and `purchases`. -/
def kpiStepAov (t : Table) : Except PErr Table :=
  if (colIdx t.cols "revenue").isSome ∧ (colIdx t.cols "purchases").isSome then
    calcRatio t "aov" "revenue" "purchases" 1
  else pure t

/-- Model of `KPICalculator.calculate_all_kpis`, in source order.  The
`_log_kpi_summary` call only writes to the UI and has no effect on the
table. -/
def calculate_all_kpis (t : Table) : Except PErr Table := do
  let t1 ← calcRatio t "cpc" "spend" "clicks" 1
  let t2 ← calcRatio t1 "cpm" "spend" "impressions" 1000
  let t3 ← calcRatio t2 "ctr" "clicks" "impressions" 1
  let t4 ← kpiStepConv t3
  let t5 ← kpiStepRoas t4
  let t6 ← calc_frequency t5
  let t7 ← calcRatio t6 "cost_per_impression" "spend" "impressions" 1
  let t8 ← kpiStepRpiRpc t7
  let t9 ← kpiStepPurchaseRate t8
  kpiStepAov t9

/-- Numeric value of a cell with missing treated as 0, as in a pandas
`sum` with default `skipna=True`. -/
def cellNumOr0 : Cell → ℚ
  | .num q => q
  | _ => 0

/-- Group sum of a column (`agg("sum")`). -/
def sumColAt (rows : List (ℕ × List Cell)) (i : ℕ) : Cell :=
  .num (rows.foldl (fun a r => a + cellNumOr0 (getAt r.2 i)) 0)

/-- Group minimum of a column (`agg("min")`, skipping missing). -/
def minColAt (rows : List (ℕ × List Cell)) (i : ℕ) : Cell :=
  match rows.filterMap (fun r =>
      if isNaCell (getAt r.2 i) then none else some (getAt r.2 i)) with
  | [] => .na
  | v :: rest => rest.foldl (fun a c => if cellLe c a then c else a) v

/-- Group maximum of a column (`agg("max")`, skipping missing). -/
def maxColAt (rows : List (ℕ × List Cell)) (i : ℕ) : Cell :=
  match rows.filterMap (fun r =>
      if isNaCell (getAt r.2 i) then none else some (getAt r.2 i)) with
  | [] => .na
  | v :: rest => rest.foldl (fun a c => if cellLe a c then c else a) v

/-- Distinct group keys of a column in sorted order (`groupby` sorts keys by
default). -/
def groupKeys (rows : List (ℕ × List Cell)) (i : ℕ) : List Cell :=
  ((rows.map (fun r => getAt r.2 i)).dedup).mergeSort cellLe

/-- Model of `KPICalculator.get_campaign_summary`: group by `campaign_id`,
sum the base fields (plus the date min/max), flatten the resulting
MultiIndex column names by joining with `"_"` (giving `spend_sum`,
`impressions_sum`, `clicks_sum`, `date_min`, `date_max`, ...), and re-run
`calculate_all_kpis` on the aggregate. -/
def get_campaign_summary (t : Table) : Except PErr Table := do
  let gi ← getColE t "campaign_id"
  let si ← getColE t "spend"
  let ii ← getColE t "impressions"
  let ci ← getColE t "clicks"
  let di ← getColE t "date"
  let hasP := (colIdx t.cols "purchases").isSome
  let hasR := (colIdx t.cols "revenue").isSome
  let pIdx := (colIdx t.cols "purchases").getD 0
  let rIdx := (colIdx t.cols "revenue").getD 0
  let summary : Table :=
    { cols := ["campaign_id", "spend_sum", "impressions_sum", "clicks_sum",
               "date_min", "date_max"] ++
        (if hasP then ["purchases_sum"] else []) ++
        (if hasR then ["revenue_sum"] else []),
      rows := ((groupKeys t.rows gi).map (fun k =>
        let grp := t.rows.filter (fun r => getAt r.2 gi = k)
        [k, sumColAt grp si, sumColAt grp ii, sumColAt grp ci,
         minColAt grp di, maxColAt grp di] ++
          (if hasP then [sumColAt grp pIdx] else []) ++
          (if hasR then [sumColAt grp rIdx] else []))).enum }
  calculate_all_kpis summary

/-! ## ExcelValidator (`src/validators.py`) -/

/-- `ExcelValidator.REQUIRED_COLUMNS`. -/
def REQUIRED_COLUMNS : List String :=
  ["account_id", "campaign_id", "date", "spend", "impressions", "clicks"]

/-- Result of `validate_excel_file`: the returned acceptance flag and
message, together with the validator's `self.errors` / `self.warnings`
accumulators. -/
structure ValidationResult where
  accept : Bool
  message : String
  errors : List String
  warnings : List String
deriving DecidableEq, Repr

/-- Model of `ExcelValidator._validate_structure`; returns the error message
on failure. -/
def validateStructure (t : Table) : Option String :=
  if t.rows.isEmpty ∨ t.cols.isEmpty then some "Excel file is empty"
  else if t.cols.length < REQUIRED_COLUMNS.length then
    some ("Insufficient columns. Found " ++ toString t.cols.length ++
      ", need at least " ++ toString REQUIRED_COLUMNS.length)
  else none

/-- Model of `ExcelValidator._validate_columns`. -/
def validateColumns (t : Table) : Option String :=
  let dfColumns := t.cols.map (fun c => pyStrip (pyLower c))
  let missing := REQUIRED_COLUMNS.filter (fun rc => !(dfColumns.contains (pyLower rc)))
  if missing.isEmpty then none
  else some ("Missing required columns: " ++ String.intercalate ", " missing)

/-- Numeric pandas dtype test for a column, modelled as: every cell is a
number or missing. -/
def isNumericDtypeCol (tn : Table) (i : ℕ) : Bool :=
  tn.rows.all (fun r =>
    match getAt r.2 i with
    | .num _ => true
    | .na => true
    | _ => false)

/-- Numeric-column loop of `_validate_data_content`: coerce each listed
column that is not already numeric, and fail on the first of
`spend`/`impressions`/`clicks` holding a negative value. -/
def contentNumericLoop (tn : Table) : List String → Option String × Table
  | [] => (none, tn)
  | col :: rest =>
    match colIdx tn.cols col with
    | none => contentNumericLoop tn rest
    | some i =>
      let tn1 := if isNumericDtypeCol tn i then tn
        else { tn with
               rows := tn.rows.map (fun r => (r.1, r.2.set i (toNumericCell (getAt r.2 i)))) }
      if (col = "spend" ∨ col = "impressions" ∨ col = "clicks") ∧
          tn1.rows.any (fun r => cellLtNum (getAt r.2 i) 0) then
        (some ("Negative values found in " ++ col ++ " column"), tn1)
      else contentNumericLoop tn1 rest

/-- Model of `ExcelValidator._validate_data_content`: empty-row warning,
numeric coercion with hard failure on negatives, strict date parsing, and
non-null identifier checks. -/
def validateDataContent (t : Table) : Option String × List String :=
  let tn : Table := { t with cols := t.cols.map (fun c => pyStrip (pyLower c)) }
  let emptyRows := tn.rows.countP (fun r => r.2.all isNaCell)
  let warns := if emptyRows > 0 then
    [toString emptyRows ++ " completely empty rows found"] else []
  let numericCols := ["spend", "impressions", "clicks"] ++
    (if (colIdx tn.cols "purchases").isSome then ["purchases"] else []) ++
    (if (colIdx tn.cols "revenue").isSome then ["revenue"] else [])
  match contentNumericLoop tn numericCols with
  | (some e, _) => (some e, warns)
  | (none, tn1) =>
    let dateErr : Option String :=
      match colIdx tn1.cols "date" with
      | some di =>
        if tn1.rows.all (fun r => dateParseOk (getAt r.2 di)) then none
        else some "Date column contains invalid date formats"
      | none => none
    match dateErr with
    | some e => (some e, warns)
    | none =>
      let idErr := (["account_id", "campaign_id"].filterMap (fun col =>
        match colIdx tn1.cols col with
        | some i =>
          if tn1.rows.any (fun r => isNaCell (getAt r.2 i)) then
            some (col ++ " column contains empty values")
          else none
        | none => none)).head?
      (idErr, warns)

/-- Model of `ExcelValidator._check_warnings`.  Its first component is what
the method appends to `self.errors` — note that `validate_excel_file` never
consults `self.errors` after this call.  Message number formatting is
abstracted where Python uses percentage formatting. -/
def check_warnings (t : Table) : List String × List String :=
  let tn : Table := { t with cols := t.cols.map (fun c => pyStrip (pyLower c)) }
  let n := tn.rows.length
  let missWarns := (List.range tn.cols.length).filterMap (fun i =>
    if (tn.rows.countP (fun r => isNaCell (getAt r.2 i)) : ℚ) / (n : ℚ) > 1 / 10 then
      some ((tn.cols.getD i "") ++ " has more than 10% missing values")
    else none)
  let dupCount := n - (dedupByKey (fun cells => cells) tn.rows []).length
  let dupWarns := if dupCount > 0 then
    [toString dupCount ++ " duplicate rows found"] else []
  let cpcWarns :=
    match colIdx tn.cols "spend", colIdx tn.cols "clicks" with
    | some si, some ci =>
      let highCpc := tn.rows.countP (fun r =>
        cellGtNum (cellDiv (getAt r.2 si) (replaceZeroNa (getAt r.2 ci))) 100)
      if highCpc > 0 then
        [toString highCpc ++ " records with CPC > $100 (potential data quality issue)"]
      else []
    | _, _ => []
  let ctrErrs :=
    match colIdx tn.cols "impressions", colIdx tn.cols "clicks" with
    | some ii, some ci =>
      let impossibleCtr := tn.rows.countP (fun r =>
        cellGtNum (cellDiv (getAt r.2 ci) (replaceZeroNa (getAt r.2 ii))) 1)
      if impossibleCtr > 0 then
        [toString impossibleCtr ++ " records with clicks > impressions (impossible)"]
      else []
    | _, _ => []
  (ctrErrs, missWarns ++ dupWarns ++ cpcWarns)

/-- Model of `ExcelValidator.validate_excel_file` on an already-read table.
The three validation stages short-circuit with `accept = false`; the final
`_check_warnings` stage appends to `self.errors` but the method returns
`True, "Validation successful"` regardless. -/
def validate_excel_file (t : Table) : ValidationResult :=
  match validateStructure t with
  | some e => ⟨false, e, [e], []⟩
  | none =>
    match validateColumns t with
    | some e => ⟨false, e, [e], []⟩
    | none =>
      match validateDataContent t with
      | (some e, ws) => ⟨false, e, [e], ws⟩
      | (none, ws) =>
        let (errs, ws2) := check_warnings t
        let warnings := ws ++ ws2
        { accept := true,
          message := "Validation successful" ++
            (if warnings.isEmpty then "" else
              " (Warnings: " ++ String.intercalate "; " warnings ++ ")"),
          errors := errs,
          warnings := warnings }

/-! ## MetaAdsClient._extract_action_value (`src/meta_client.py`) -/

/-- A decoded Python/JSON value, as held in the Meta `actions` field. -/
inductive JVal
  | null
  | bool (b : Bool)
  | num (q : ℚ)
  | str (s : String)
  | list (xs : List JVal)
  | dict (kvs : List (String × JVal))

/-- Argument of `_extract_action_value`: either a string — represented by
the outcome of `json.loads`, which is library code external to the
repository — or an already-decoded value passed through unchanged. -/
inductive ActionsData
  | fromStr (parsed : Except Unit JVal)
  | direct (v : JVal)

/-- Python dict lookup `d.get(k)` (keys are unique in a Python dict; the
first binding wins). -/
def dictGet : List (String × JVal) → String → Option JVal
  | [], _ => none
  | p :: r, k => if p.1 = k then some p.2 else dictGet r k

/-- Python `float(v)`: numbers and booleans convert, numeric strings parse
(raising `ValueError` otherwise), and other values raise `TypeError`. -/
def pyFloat : JVal → Except PErr ℚ
  | .num q => .ok q
  | .bool b => .ok (if b then 1 else 0)
  | .str s =>
    match parseNumStr s with
    | some q => .ok q
    | none => .error .valueError
  | .null => .error .typeError
  | .list _ => .error .typeError
  | .dict _ => .error .typeError

/-- Equality test `action.get("action_type") == action_type` between an
optional decoded value and a Python string. -/
def jvalEqStr : Option JVal → String → Bool
  | some (.str s), target => s = target
  | _, _ => false

/-- The `for action in actions` loop: return `float(action.get("value", 0))`
for the first entry whose `action_type` matches, `0` when none does.
Calling `.get` on a non-dict entry raises `AttributeError`. -/
def extractLoop (target : String) : List JVal → Except PErr ℚ
  | [] => .ok 0
  | .dict kvs :: rest =>
    if jvalEqStr (dictGet kvs "action_type") target then
      pyFloat ((dictGet kvs "value").getD (.num 0))
    else extractLoop target rest
  | _ :: _ => .error .attributeError

/-- Body of `_extract_action_value` after JSON decoding: non-list data
returns 0, list data runs the matching loop. -/
def extractBody (v : JVal) (target : String) : Except PErr ℚ :=
  match v with
  | .list xs => extractLoop target xs
  | _ => .ok 0

/-- Model of `MetaAdsClient._extract_action_value`.  The surrounding
`try/except (json.JSONDecodeError, TypeError, ValueError)` converts those
three exceptions to the 0 default; any other exception (notably the
`AttributeError` from `.get` on a non-dict list entry) propagates. -/
def extract_action_value (actionsData : ActionsData) (actionType : String) :
    Except PErr ℚ :=
  let body : Except PErr ℚ :=
    match actionsData with
    | .fromStr (.error _) => .error .jsonDecodeError
    | .fromStr (.ok v) => extractBody v actionType
    | .direct v => extractBody v actionType
  match body with
  | .ok q => .ok q
  | .error .jsonDecodeError => .ok 0
  | .error .typeError => .ok 0
  | .error .valueError => .ok 0
  | .error e => .error e

/-! ### Auxiliary predicates and shapes used by the verification -/

/-- Row transform performed by `assignCol`. -/
def assignRow (t : Table) (c : String) (f : ℕ × List Cell → Cell)
    (r : ℕ × List Cell) : ℕ × List Cell :=
  match colIdx t.cols c with
  | some i => (r.1, r.2.set i (f r))
  | none => (r.1, r.2 ++ [f r])

/-- The predicate holds of the named column's cell in every row. -/
def ColProp (t : Table) (c : String) (P : Cell → Prop) : Prop :=
  ∀ r ∈ t.rows, P (cellVal t.cols c r.2)

/-- The binary variant of `ColProp`: a relation between two named columns
holds in every row. -/
def Col2Prop (t : Table) (c1 c2 : String) (P : Cell → Cell → Prop) : Prop :=
  ∀ r ∈ t.rows, P (cellVal t.cols c1 r.2) (cellVal t.cols c2 r.2)

/-- The cell is a (rational) number. -/
def IsNum (x : Cell) : Prop := ∃ q : ℚ, x = .num q

/-- The cell is a nonnegative number. -/
def IsNumNN (x : Cell) : Prop := ∃ q : ℚ, x = .num q ∧ 0 ≤ q

/-- The cell is a natural number. -/
def NatNum (x : Cell) : Prop := ∃ n : ℕ, x = .num n

/-- Numeric or missing: what `pd.to_numeric(errors="coerce")` leaves behind. -/
def NumNa (x : Cell) : Prop := IsNum x ∨ x = .na

/-- Common shape of every synthesis block: identity, or one column
assignment with a known target. -/
def GenShape (x y : Table) (w : String) : Prop :=
  y = x ∨ ∃ f, y = assignCol x w f

/-- Columns not written by any synthesis block. -/
def genWritten : List String :=
  ["account_id", "campaign_id", "purchases", "revenue", "ad_id", "ad_name"]

/-- The columns written by `calculate_all_kpis` (unconditionally or
conditionally). -/
def kpiTargets : List String :=
  ["cpc", "cpm", "ctr", "cpa", "cvr", "roas", "frequency",
   "cost_per_impression", "revenue_per_impression", "revenue_per_click",
   "purchase_rate", "aov"]

/-- A table transformation that acts row-wise and only writes columns in
`ws`: positions and cell values of all other columns are unchanged. -/
def PreservesOutside (t u : Table) (ws : List String) : Prop :=
  ∃ Φ : (ℕ × List Cell) → (ℕ × List Cell),
    u.rows = t.rows.map Φ ∧
    (∀ c : String, c ∉ ws → colIdx u.cols c = colIdx t.cols c) ∧
    ∀ r ∈ t.rows, ∀ c : String, c ∉ ws →
      cellVal u.cols c (Φ r).2 = cellVal t.cols c r.2

/-- The ternary variant of `ColProp`: a relation between three named
columns holds in every row. -/
def Col3Prop (t : Table) (c1 c2 c3 : String) (P : Cell → Cell → Cell → Prop) :
    Prop :=
  ∀ r ∈ t.rows, P (cellVal t.cols c1 r.2) (cellVal t.cols c2 r.2)
    (cellVal t.cols c3 r.2)

/-! ### Concrete tables used as counterexamples and witnesses -/

/-- A structurally valid upload whose single record has
`clicks = 5 > impressions = 2`. -/
def exC1 : Table :=
  { cols := ["account_id", "campaign_id", "date", "spend", "impressions", "clicks"],
    rows := [(0, [.str "a1", .str "c1", .date 20240101, .num 10, .num 2, .num 5])] }

/-- A small KPI table with one campaign over two days. -/
def exC2 : Table :=
  { cols := ["campaign_id", "date", "spend", "impressions", "clicks"],
    rows := [(0, [.str "c1", .date 1, .num 10, .num 100, .num 5]),
             (1, [.str "c1", .date 2, .num 20, .num 300, .num 15])] }

/-- A raw table whose `revenue` column is present while `purchases` is
absent, with `revenue > 0`. -/
def exC3 : Table :=
  { cols := ["campaign_name", "date", "revenue"],
    rows := [(0, [.str "A", .date 20240101, .num 5])] }

/-- A raw table with both `revenue` and `purchases` columns, one row having
revenue without purchases. -/
def exC3b : Table :=
  { cols := ["campaign_name", "date", "purchases", "revenue"],
    rows := [(0, [.str "A", .date 20240101, .num 0, .num 7])] }

/-- Two rows identical in `(account_id, campaign_id, date)` but differing in
`campaign_name`. -/
def exC4 : Table :=
  { cols := ["account_id", "campaign_id", "date", "campaign_name"],
    rows := [(0, [.str "a", .str "c", .date 1, .str "X"]),
             (1, [.str "a", .str "c", .date 1, .str "Y"])] }

/-- Two rows identical in `(campaign_name, date)`. -/
def exC4b : Table :=
  { cols := ["campaign_name", "date"],
    rows := [(0, [.str "X", .date 1]), (1, [.str "X", .date 1])] }

/-- The deduplicated form of `exC4b`: only the first row survives. -/
def exC4bOut : Table :=
  { cols := ["campaign_name", "date"],
    rows := [(0, [.str "X", .date 1])] }

/-- A KPI table exercising the zero guards: one row with
`impressions = 0` and `clicks = 0`, one ordinary row. -/
def exC5 : Table :=
  { cols := ["spend", "impressions", "clicks"],
    rows := [(0, [.num 10, .num 0, .num 0]),
             (1, [.num 6, .num 4, .num 2])] }

/-- The repair scenario row: `clicks = 120`, `impressions = 100`,
`spend = 50`. -/
def exC6 : Table :=
  { cols := ["campaign_name", "date", "clicks", "impressions", "spend"],
    rows := [(0, [.str "A", .date 20240101, .num 120, .num 100, .num 50])] }

/-- A table already using canonical column names. -/
def exC7 : Table :=
  { cols := ["campaign_name", "date", "spend", "impressions", "clicks"],
    rows := [(0, [.str "A", .date 1, .num 3, .num 10, .num 2])] }

/-- A KPI table that already contains a `frequency` column (value 99). -/
def exC9 : Table :=
  { cols := ["spend", "impressions", "clicks", "frequency"],
    rows := [(0, [.num 5, .num 10, .num 2, .num 99])] }

/-! ### Decoded-value helpers for the extractor claims -/

/-- Entries of the actions list reached by the extractor loop. -/
def entriesOf : ActionsData → List JVal
  | .fromStr (.ok (.list xs)) => xs
  | .direct (.list xs) => xs
  | _ => []

/-- Whether a decoded value is a dict (has an `.get` method). -/
def isDictEntry : JVal → Bool
  | .dict _ => true
  | _ => false

/-- Whether an entry matches the target action type. -/
def matchesTarget (target : String) : JVal → Bool
  | .dict kvs => jvalEqStr (dictGet kvs "action_type") target
  | _ => false

/-- The numeric value `float(v)` would produce, with conversion errors
collapsed to the 0 default (as the surrounding `except` clause does). -/
def floatOr0 (v : JVal) : ℚ :=
  match pyFloat v with
  | .ok q => q
  | .error _ => 0

/-- Pipeline output for `exC3`: revenue is positive while purchases was
synthesized as 0 after the consistency repair had already run. -/
def exC3out : Table :=
  { cols := ["campaign_name", "date", "revenue", "account_id", "campaign_id",
             "purchases", "ad_id", "ad_name"],
    rows := [(0, [.str "A", .date 20240101, .num 5, .str "desky_account_001",
                  .str "a_0", .num 0, .str "a_0_ad_0", .str "A - Ad"])] }

/-- The single row of `exC3out`. -/
def exC3row : List Cell :=
  [.str "A", .date 20240101, .num 5, .str "desky_account_001",
   .str "a_0", .num 0, .str "a_0_ad_0", .str "A - Ad"]

/-- The single row of `exC3bOut`. -/
def exC3bRow : List Cell :=
  [.str "A", .date 20240101, .num 1, .num 7, .str "desky_account_001",
   .str "a_0", .str "a_0_ad_0", .str "A - Ad"]

/-- Pipeline output for `exC3b`: with both columns present the repair sets
purchases to 1. -/
def exC3bOut : Table :=
  { cols := ["campaign_name", "date", "purchases", "revenue", "account_id",
             "campaign_id", "ad_id", "ad_name"],
    rows := [(0, [.str "A", .date 20240101, .num 1, .num 7,
                  .str "desky_account_001", .str "a_0", .str "a_0_ad_0",
                  .str "A - Ad"])] }

/-- Pipeline output for `exC6`: clicks repaired from 120 down to 100. -/
def exC6out : Table :=
  { cols := ["campaign_name", "date", "clicks", "impressions", "spend",
             "account_id", "campaign_id", "purchases", "revenue", "ad_id",
             "ad_name"],
    rows := [(0, [.str "A", .date 20240101, .num 100, .num 100, .num 50,
                  .str "desky_account_001", .str "a_0", .num 0, .num 0,
                  .str "a_0_ad_0", .str "A - Ad"])] }

/-- The single row of `exC6out`. -/
def exC6row : List Cell :=
  [.str "A", .date 20240101, .num 100, .num 100, .num 50,
   .str "desky_account_001", .str "a_0", .num 0, .num 0,
   .str "a_0_ad_0", .str "A - Ad"]

/-- The single row of `exC6kpi`. -/
def exC6krow : List Cell :=
  [.str "A", .date 20240101, .num 100, .num 100, .num 50,
   .str "desky_account_001", .str "a_0", .num 0, .num 0,
   .str "a_0_ad_0", .str "A - Ad",
   .num (1/2), .num 500, .num 1, .num 0, .num 0, .num 0,
   .num 1, .num (1/2), .num 0, .num 0, .num 0, .num 0]

/-- KPI table derived from `exC6out`: `ctr = 1`, `cpc = 1/2`. -/
def exC6kpi : Table :=
  { cols := ["campaign_name", "date", "clicks", "impressions", "spend",
             "account_id", "campaign_id", "purchases", "revenue", "ad_id",
             "ad_name", "cpc", "cpm", "ctr", "cpa", "cvr", "roas",
             "frequency", "cost_per_impression", "revenue_per_impression",
             "revenue_per_click", "purchase_rate", "aov"],
    rows := [(0, [.str "A", .date 20240101, .num 100, .num 100, .num 50,
                  .str "desky_account_001", .str "a_0", .num 0, .num 0,
                  .str "a_0_ad_0", .str "A - Ad",
                  .num (1/2), .num 500, .num 1, .num 0, .num 0, .num 0,
                  .num 1, .num (1/2), .num 0, .num 0, .num 0, .num 0])] }

/-- A well-formed actions payload: one non-matching dict entry. -/
def adW : ActionsData :=
  .direct (.list [.dict [("action_type", .str "view"), ("value", .num 3)]])

/-- A non-matching well-formed entry preceding the matches. -/
def adC10pre : List JVal := [.dict [("action_type", .str "view"), ("value", .num 1)]]

/-- The first matching entry (value 7). -/
def adC10kvs : List (String × JVal) := [("action_type", .str "purchase"), ("value", .num 7)]

/-- A later matching entry (value 100) that must be ignored. -/
def adC10post : List JVal := [.dict [("action_type", .str "purchase"), ("value", .num 100)]]

/-! ## Basic lemmas: positions and cells -/

theorem getAt_set_self (l : List Cell) (i : ℕ) (v : Cell) (h : i < l.length) :
    getAt (l.set i v) i = v := by
  induction l generalizing i with
  | nil => simp at h
  | cons a l ih =>
    cases i with
    | zero => rfl
    | succ n =>
      simp only [List.set, getAt, List.getD_cons_succ] at *
      exact ih n (by simpa using h)

theorem getAt_set_ne (l : List Cell) (i j : ℕ) (v : Cell) (h : i ≠ j) :
    getAt (l.set i v) j = getAt l j := by
  induction l generalizing i j with
  | nil => rfl
  | cons a l ih =>
    cases i with
    | zero =>
      cases j with
      | zero => exact absurd rfl h
      | succ m => rfl
    | succ n =>
      cases j with
      | zero => rfl
      | succ m =>
        simp only [List.set, getAt, List.getD_cons_succ] at *
        exact ih n m (fun e => h (by omega))

theorem getAt_append_left (l l2 : List Cell) (i : ℕ) (h : i < l.length) :
    getAt (l ++ l2) i = getAt l i := by
  induction l generalizing i with
  | nil => simp at h
  | cons a l ih =>
    cases i with
    | zero => rfl
    | succ n =>
      simp only [List.cons_append, getAt, List.getD_cons_succ] at *
      exact ih n (by simpa using h)

theorem getAt_append_length (l : List Cell) (v : Cell) :
    getAt (l ++ [v]) l.length = v := by
  induction l with
  | nil => rfl
  | cons a l ih =>
    simp only [List.cons_append, List.length_cons, getAt, List.getD_cons_succ]
    exact ih

theorem colIdx_lt_length {cols : List String} {c : String} {i : ℕ}
    (h : colIdx cols c = some i) : i < cols.length := by
  induction cols generalizing i with
  | nil => simp [colIdx] at h
  | cons c0 cs ih =>
    rw [colIdx] at h
    by_cases h0 : c0 = c
    · rw [if_pos h0] at h
      cases h
      simp
    · rw [if_neg h0] at h
      cases hr : colIdx cs c with
      | none => rw [hr] at h; cases h
      | some j =>
        rw [hr] at h
        cases h
        have := ih hr
        simp only [List.length_cons]
        omega

theorem colIdx_isSome_iff_mem {cols : List String} {c : String} :
    (colIdx cols c).isSome ↔ c ∈ cols := by
  induction cols with
  | nil => simp [colIdx]
  | cons c0 cs ih =>
    rw [colIdx]
    by_cases h0 : c0 = c
    · simp [h0]
    · rw [if_neg h0]
      cases hr : colIdx cs c with
      | none =>
        simp only [Option.isSome_none, List.mem_cons]
        rw [hr] at ih
        simp only [Option.isSome_none] at ih
        constructor
        · intro h; cases h
        · intro h
          rcases h with h | h
          · exact absurd h.symm h0
          · exact absurd (ih.mpr h) (fun e => by cases e)
      | some j =>
        rw [hr] at ih
        simp only [Option.isSome_some, true_iff] at ih
        simp [ih]

theorem colIdx_getD {cols : List String} {c : String} {i : ℕ}
    (h : colIdx cols c = some i) : cols.getD i "" = c := by
  induction cols generalizing i with
  | nil => simp [colIdx] at h
  | cons c0 cs ih =>
    rw [colIdx] at h
    by_cases h0 : c0 = c
    · rw [if_pos h0] at h
      cases h
      simpa using h0
    · rw [if_neg h0] at h
      cases hr : colIdx cs c with
      | none => rw [hr] at h; cases h
      | some j =>
        rw [hr] at h
        cases h
        simpa [List.getD_cons_succ] using ih hr

theorem colIdx_inj_ne {cols : List String} {c c2 : String} {i j : ℕ}
    (hc : colIdx cols c = some i) (hc2 : colIdx cols c2 = some j)
    (hne : c ≠ c2) : i ≠ j := by
  intro e
  apply hne
  rw [← colIdx_getD hc, ← colIdx_getD hc2, e]

theorem colIdx_append_of_isSome {cols : List String} (ext : List String)
    {c : String} (h : (colIdx cols c).isSome) :
    colIdx (cols ++ ext) c = colIdx cols c := by
  induction cols with
  | nil => simp [colIdx] at h
  | cons c0 cs ih =>
    rw [List.cons_append, colIdx, colIdx]
    by_cases h0 : c0 = c
    · rw [if_pos h0, if_pos h0]
    · rw [if_neg h0, if_neg h0]
      rw [colIdx, if_neg h0] at h
      cases hr : colIdx cs c with
      | none => rw [hr] at h; cases h
      | some j => rw [ih (by rw [hr]; rfl), hr]

theorem colIdx_append_singleton_self {cols : List String} {c : String}
    (h : colIdx cols c = none) : colIdx (cols ++ [c]) c = some cols.length := by
  induction cols with
  | nil => simp [colIdx]
  | cons c0 cs ih =>
    rw [colIdx] at h
    by_cases h0 : c0 = c
    · rw [if_pos h0] at h
      cases h
    · rw [if_neg h0] at h
      cases hr : colIdx cs c with
      | none =>
        rw [List.cons_append, colIdx, if_neg h0, ih hr]
        simp
      | some j => rw [hr] at h; cases h

theorem colIdx_append_singleton_ne {cols : List String} {c c2 : String}
    (hne : c2 ≠ c) (h : colIdx cols c2 = none) :
    colIdx (cols ++ [c]) c2 = none := by
  induction cols with
  | nil =>
    simp only [List.nil_append, colIdx]
    rw [if_neg (fun e => hne e.symm)]
  | cons c0 cs ih =>
    rw [colIdx] at h
    by_cases h0 : c0 = c2
    · rw [if_pos h0] at h; cases h
    · rw [if_neg h0] at h
      rw [List.cons_append, colIdx, if_neg h0]
      cases hr : colIdx cs c2 with
      | none => rw [ih hr]
      | some j => rw [hr] at h; cases h

/-! ## Characterization of the table operations -/

theorem assignCol_rows (t : Table) (c : String) (f : ℕ × List Cell → Cell) :
    (assignCol t c f).rows = t.rows.map (assignRow t c f) := by
  unfold assignCol assignRow
  cases colIdx t.cols c <;> rfl

theorem assignCol_cols (t : Table) (c : String) (f : ℕ × List Cell → Cell) :
    (assignCol t c f).cols =
      if (colIdx t.cols c).isSome then t.cols else t.cols ++ [c] := by
  unfold assignCol
  cases colIdx t.cols c <;> rfl

theorem assignRow_fst (t : Table) (c : String) (f : ℕ × List Cell → Cell)
    (r : ℕ × List Cell) : (assignRow t c f r).1 = r.1 := by
  unfold assignRow
  cases colIdx t.cols c <;> rfl

theorem WF_assignCol {t : Table} (c : String) (f : ℕ × List Cell → Cell)
    (hwf : WF t) : WF (assignCol t c f) := by
  intro r hr
  rw [assignCol_rows] at hr
  obtain ⟨r0, hr0, rfl⟩ := List.mem_map.mp hr
  rw [assignCol_cols]
  unfold assignRow
  cases h : colIdx t.cols c with
  | some i => simpa [h] using hwf r0 hr0
  | none => simp [h, hwf r0 hr0]

theorem colIdx_assignCol_ne (t : Table) (c : String) (f : ℕ × List Cell → Cell)
    {c2 : String} (hne : c2 ≠ c) :
    colIdx (assignCol t c f).cols c2 = colIdx t.cols c2 := by
  rw [assignCol_cols]
  cases h : colIdx t.cols c with
  | some i => simp [h]
  | none =>
    simp only [h, Option.isSome_none, Bool.false_eq_true, if_false]
    cases h2 : colIdx t.cols c2 with
    | some j => rw [colIdx_append_of_isSome [c] (by rw [h2]; rfl), h2]
    | none => rw [colIdx_append_singleton_ne hne h2]

theorem cellVal_assignRow_ne {t : Table} {c : String} {f : ℕ × List Cell → Cell}
    {c2 : String} (hne : c2 ≠ c) {r : ℕ × List Cell}
    (hlen : r.2.length = t.cols.length) :
    cellVal (assignCol t c f).cols c2 (assignRow t c f r).2 =
      cellVal t.cols c2 r.2 := by
  unfold cellVal
  rw [colIdx_assignCol_ne t c f hne]
  cases h2 : colIdx t.cols c2 with
  | none => rfl
  | some j =>
    unfold assignRow
    cases h : colIdx t.cols c with
    | some i => exact getAt_set_ne _ _ _ _ (colIdx_inj_ne h h2 (fun e => hne e.symm))
    | none => exact getAt_append_left _ _ _ (hlen ▸ colIdx_lt_length h2)

theorem cellVal_assignRow_self {t : Table} {c : String} {f : ℕ × List Cell → Cell}
    {r : ℕ × List Cell} (hlen : r.2.length = t.cols.length) :
    cellVal (assignCol t c f).cols c (assignRow t c f r).2 = f r := by
  unfold cellVal
  rw [assignCol_cols]
  unfold assignRow
  cases h : colIdx t.cols c with
  | some i =>
    simp only [h, Option.isSome_some, if_true]
    exact getAt_set_self _ _ _ (hlen ▸ colIdx_lt_length h)
  | none =>
    simp only [h, Option.isSome_none, Bool.false_eq_true, if_false]
    rw [colIdx_append_singleton_self h]
    rw [← hlen]
    exact getAt_append_length _ _

theorem mapColIfPresent_eq_assignCol {t : Table} {c : String} (g : Cell → Cell)
    (h : (colIdx t.cols c).isSome) :
    mapColIfPresent t c g = assignCol t c (fun r => g (cellVal t.cols c r.2)) := by
  obtain ⟨i, hi⟩ := Option.isSome_iff_exists.mp h
  unfold mapColIfPresent assignCol cellVal
  rw [hi]

theorem mapColIfPresent_none {t : Table} {c : String} (g : Cell → Cell)
    (h : colIdx t.cols c = none) : mapColIfPresent t c g = t := by
  unfold mapColIfPresent
  rw [h]

theorem mapColIfPresent_cols (t : Table) (c : String) (g : Cell → Cell) :
    (mapColIfPresent t c g).cols = t.cols := by
  unfold mapColIfPresent
  cases colIdx t.cols c <;> rfl

theorem WF_mapColIfPresent {t : Table} (c : String) (g : Cell → Cell)
    (hwf : WF t) : WF (mapColIfPresent t c g) := by
  cases h : colIdx t.cols c with
  | some i =>
    rw [mapColIfPresent_eq_assignCol g (by rw [h]; rfl)]
    exact WF_assignCol _ _ hwf
  | none => rw [mapColIfPresent_none g h]; exact hwf

theorem addConstCol_eq_assignCol {t : Table} {c : String} (v : Cell)
    (h : colIdx t.cols c = none) :
    addConstCol t c v = assignCol t c (fun _ => v) := by
  unfold addConstCol assignCol
  rw [h]

/-! ## Column-wise invariant transport -/

theorem ColProp_mono {t : Table} {c : String} {P Q : Cell → Prop}
    (h : ∀ x, P x → Q x) (hp : ColProp t c P) : ColProp t c Q :=
  fun r hr => h _ (hp r hr)

theorem ColProp_of_subset {t2 t : Table} {c : String} {P : Cell → Prop}
    (hcols : t2.cols = t.cols) (hsub : ∀ r ∈ t2.rows, r ∈ t.rows)
    (hp : ColProp t c P) : ColProp t2 c P := by
  intro r hr
  rw [hcols]
  exact hp r (hsub r hr)

theorem ColProp_assignCol_ne {t : Table} {c2 : String} {P : Cell → Prop}
    (c : String) (f : ℕ × List Cell → Cell) (hwf : WF t) (hne : c2 ≠ c)
    (hp : ColProp t c2 P) : ColProp (assignCol t c f) c2 P := by
  intro r hr
  rw [assignCol_rows] at hr
  obtain ⟨r0, h0, rfl⟩ := List.mem_map.mp hr
  rw [cellVal_assignRow_ne hne (hwf r0 h0)]
  exact hp r0 h0

theorem ColProp_assignCol_self {t : Table} {c : String} {P : Cell → Prop}
    {f : ℕ × List Cell → Cell} (hwf : WF t)
    (h : ∀ r ∈ t.rows, P (f r)) : ColProp (assignCol t c f) c P := by
  intro r hr
  rw [assignCol_rows] at hr
  obtain ⟨r0, h0, rfl⟩ := List.mem_map.mp hr
  rw [cellVal_assignRow_self (hwf r0 h0)]
  exact h r0 h0

theorem ColProp_mapColIfPresent_ne {t : Table} {c2 : String} {P : Cell → Prop}
    (c : String) (g : Cell → Cell) (hwf : WF t) (hne : c2 ≠ c)
    (hp : ColProp t c2 P) : ColProp (mapColIfPresent t c g) c2 P := by
  cases h : colIdx t.cols c with
  | some i =>
    rw [mapColIfPresent_eq_assignCol g (by rw [h]; rfl)]
    exact ColProp_assignCol_ne c _ hwf hne hp
  | none => rw [mapColIfPresent_none g h]; exact hp

theorem ColProp_mapColIfPresent_self {t : Table} {c : String}
    {P Q : Cell → Prop} (g : Cell → Cell) (hwf : WF t)
    (h : ∀ x, P x → Q (g x)) (hq : ∀ x, P x → Q x)
    (hp : ColProp t c P) : ColProp (mapColIfPresent t c g) c Q := by
  cases hc : colIdx t.cols c with
  | some i =>
    rw [mapColIfPresent_eq_assignCol g (by rw [hc]; rfl)]
    exact ColProp_assignCol_self hwf (fun r hr => h _ (hp r hr))
  | none =>
    rw [mapColIfPresent_none g hc]
    exact ColProp_mono hq hp

theorem dropNaRows_cols (t : Table) (c : String) :
    (dropNaRows t c).cols = t.cols := by
  unfold dropNaRows
  cases colIdx t.cols c <;> rfl

theorem dropNaRows_subset (t : Table) (c : String) :
    ∀ r ∈ (dropNaRows t c).rows, r ∈ t.rows := by
  unfold dropNaRows
  cases colIdx t.cols c with
  | some i => exact fun r hr => (List.mem_filter.mp hr).1
  | none => exact fun r hr => hr

theorem WF_of_subset {t2 t : Table} (hcols : t2.cols = t.cols)
    (hsub : ∀ r ∈ t2.rows, r ∈ t.rows) (hwf : WF t) : WF t2 := by
  intro r hr
  rw [hcols]
  exact hwf r (hsub r hr)

theorem WF_dropNaRows {t : Table} (c : String) (hwf : WF t) :
    WF (dropNaRows t c) :=
  WF_of_subset (dropNaRows_cols t c) (dropNaRows_subset t c) hwf

theorem ColProp_dropNaRows {t : Table} {c2 : String} {P : Cell → Prop}
    (c : String) (hp : ColProp t c2 P) : ColProp (dropNaRows t c) c2 P :=
  ColProp_of_subset (dropNaRows_cols t c) (dropNaRows_subset t c) hp

theorem dedupByKey_sublist (k : List Cell → List Cell)
    (rs : List (ℕ × List Cell)) (seen : List (List Cell)) :
    List.Sublist (dedupByKey k rs seen) rs := by
  induction rs generalizing seen with
  | nil => exact List.Sublist.refl _
  | cons r rs ih =>
    rw [dedupByKey]
    by_cases h : k r.2 ∈ seen
    · rw [if_pos h]
      exact (ih seen).cons r
    · rw [if_neg h]
      exact (ih (k r.2 :: seen)).cons₂ r

theorem remove_duplicates_ok {t out : Table}
    (h : remove_duplicates t = .ok out) :
    out.cols = t.cols ∧ List.Sublist out.rows t.rows := by
  unfold remove_duplicates at h
  cases hf : (dupColumns t).find? (fun c => !(colIdx t.cols c).isSome) with
  | some c => rw [hf] at h; cases h
  | none =>
    rw [hf] at h
    cases h
    exact ⟨rfl, dedupByKey_sublist _ _ _⟩

theorem ColProp_remove_duplicates {t out : Table} {c : String} {P : Cell → Prop}
    (h : remove_duplicates t = .ok out) (hp : ColProp t c P) :
    ColProp out c P :=
  ColProp_of_subset (remove_duplicates_ok h).1
    (fun r hr => (remove_duplicates_ok h).2.subset hr) hp

theorem WF_remove_duplicates {t out : Table}
    (h : remove_duplicates t = .ok out) (hwf : WF t) : WF out :=
  WF_of_subset (remove_duplicates_ok h).1
    (fun r hr => (remove_duplicates_ok h).2.subset hr) hwf

theorem Col2Prop_of_cells_subset {t2 t : Table} {c1 c2 : String}
    {P : Cell → Cell → Prop} (hcols : t2.cols = t.cols)
    (hsub : ∀ r ∈ t2.rows, ∃ r0 ∈ t.rows, r.2 = r0.2)
    (hp : Col2Prop t c1 c2 P) : Col2Prop t2 c1 c2 P := by
  intro r hr
  obtain ⟨r0, h0, he⟩ := hsub r hr
  rw [hcols, he]
  exact hp r0 h0

theorem ColProp_of_cells_subset {t2 t : Table} {c : String} {P : Cell → Prop}
    (hcols : t2.cols = t.cols)
    (hsub : ∀ r ∈ t2.rows, ∃ r0 ∈ t.rows, r.2 = r0.2)
    (hp : ColProp t c P) : ColProp t2 c P := by
  intro r hr
  obtain ⟨r0, h0, he⟩ := hsub r hr
  rw [hcols, he]
  exact hp r0 h0

theorem Col2Prop_assignCol_ne {t : Table} {c1 c2 : String}
    {P : Cell → Cell → Prop} (c : String) (f : ℕ × List Cell → Cell)
    (hwf : WF t) (h1 : c1 ≠ c) (h2 : c2 ≠ c)
    (hp : Col2Prop t c1 c2 P) : Col2Prop (assignCol t c f) c1 c2 P := by
  intro r hr
  rw [assignCol_rows] at hr
  obtain ⟨r0, h0, rfl⟩ := List.mem_map.mp hr
  rw [cellVal_assignRow_ne h1 (hwf r0 h0), cellVal_assignRow_ne h2 (hwf r0 h0)]
  exact hp r0 h0

theorem Col2Prop_mapColIfPresent_ne {t : Table} {c1 c2 : String}
    {P : Cell → Cell → Prop} (c : String) (g : Cell → Cell) (hwf : WF t)
    (h1 : c1 ≠ c) (h2 : c2 ≠ c) (hp : Col2Prop t c1 c2 P) :
    Col2Prop (mapColIfPresent t c g) c1 c2 P := by
  cases h : colIdx t.cols c with
  | some i =>
    rw [mapColIfPresent_eq_assignCol g (by rw [h]; rfl)]
    exact Col2Prop_assignCol_ne c _ hwf h1 h2 hp
  | none => rw [mapColIfPresent_none g h]; exact hp

/-! ## Consistency-repair stage lemmas -/

theorem cellGtCell_self (x : Cell) : cellGtCell x x = false := by
  cases x <;> simp [cellGtCell]

theorem fixClicksImpressions_cols (t : Table) :
    (fixClicksImpressions t).cols = t.cols := by
  unfold fixClicksImpressions
  split_ifs with h1 h2
  · rw [assignCol_cols, if_pos h1.1]
  · rfl
  · rfl

theorem WF_fixClicksImpressions {t : Table} (hwf : WF t) :
    WF (fixClicksImpressions t) := by
  unfold fixClicksImpressions
  split_ifs with h1 h2
  · exact WF_assignCol _ _ hwf
  · exact hwf
  · exact hwf

theorem ColProp_fixClicksImpressions {t : Table} {c : String} {P : Cell → Prop}
    (hwf : WF t) (hne : c ≠ "clicks") (hp : ColProp t c P) :
    ColProp (fixClicksImpressions t) c P := by
  unfold fixClicksImpressions
  split_ifs with h1 h2
  · exact ColProp_assignCol_ne _ _ hwf hne hp
  · exact hp
  · exact hp

theorem fixNegativeSpend_cols (t : Table) :
    (fixNegativeSpend t).cols = t.cols := by
  unfold fixNegativeSpend
  split_ifs with h1 h2
  · rw [mapColIfPresent_cols]
  · rfl
  · rfl

theorem WF_fixNegativeSpend {t : Table} (hwf : WF t) :
    WF (fixNegativeSpend t) := by
  unfold fixNegativeSpend
  split_ifs with h1 h2
  · exact WF_mapColIfPresent _ _ hwf
  · exact hwf
  · exact hwf

theorem ColProp_fixNegativeSpend {t : Table} {c : String} {P : Cell → Prop}
    (hwf : WF t) (hne : c ≠ "spend") (hp : ColProp t c P) :
    ColProp (fixNegativeSpend t) c P := by
  unfold fixNegativeSpend
  split_ifs with h1 h2
  · exact ColProp_mapColIfPresent_ne _ _ hwf hne hp
  · exact hp
  · exact hp

theorem Col2Prop_fixNegativeSpend {t : Table} {c1 c2 : String}
    {P : Cell → Cell → Prop} (hwf : WF t) (h1 : c1 ≠ "spend")
    (h2 : c2 ≠ "spend") (hp : Col2Prop t c1 c2 P) :
    Col2Prop (fixNegativeSpend t) c1 c2 P := by
  unfold fixNegativeSpend
  split_ifs with ha hb
  · exact Col2Prop_mapColIfPresent_ne _ _ hwf h1 h2 hp
  · exact hp
  · exact hp

theorem fixRevenuePurchases_cols (t : Table) :
    (fixRevenuePurchases t).cols = t.cols := by
  unfold fixRevenuePurchases
  split_ifs with h1 h2
  · rw [assignCol_cols, if_pos h1.1]
  · rfl
  · rfl

theorem WF_fixRevenuePurchases {t : Table} (hwf : WF t) :
    WF (fixRevenuePurchases t) := by
  unfold fixRevenuePurchases
  split_ifs with h1 h2
  · exact WF_assignCol _ _ hwf
  · exact hwf
  · exact hwf

theorem ColProp_fixRevenuePurchases {t : Table} {c : String} {P : Cell → Prop}
    (hwf : WF t) (hne : c ≠ "purchases") (hp : ColProp t c P) :
    ColProp (fixRevenuePurchases t) c P := by
  unfold fixRevenuePurchases
  split_ifs with h1 h2
  · exact ColProp_assignCol_ne _ _ hwf hne hp
  · exact hp
  · exact hp

theorem Col2Prop_fixRevenuePurchases {t : Table} {c1 c2 : String}
    {P : Cell → Cell → Prop} (hwf : WF t) (h1 : c1 ≠ "purchases")
    (h2 : c2 ≠ "purchases") (hp : Col2Prop t c1 c2 P) :
    Col2Prop (fixRevenuePurchases t) c1 c2 P := by
  unfold fixRevenuePurchases
  split_ifs with ha hb
  · exact Col2Prop_assignCol_ne _ _ hwf h1 h2 hp
  · exact hp
  · exact hp

theorem fixClicksImpressions_le {t : Table} (hwf : WF t)
    (hc : (colIdx t.cols "clicks").isSome)
    (hi : (colIdx t.cols "impressions").isSome)
    (hcn : ColProp t "clicks" IsNum) (hin : ColProp t "impressions" IsNum) :
    Col2Prop (fixClicksImpressions t) "clicks" "impressions"
      (fun cc ic => ∃ qc qi : ℚ, cc = .num qc ∧ ic = .num qi ∧ qc ≤ qi) := by
  unfold fixClicksImpressions
  rw [if_pos ⟨hc, hi⟩]
  by_cases hany : t.rows.any (fun r =>
      cellGtCell (cellVal t.cols "clicks" r.2) (cellVal t.cols "impressions" r.2))
  · rw [if_pos hany]
    intro r hr
    rw [assignCol_rows] at hr
    obtain ⟨r0, h0, rfl⟩ := List.mem_map.mp hr
    have hlen := hwf r0 h0
    rw [cellVal_assignRow_self hlen,
      cellVal_assignRow_ne (by decide : "impressions" ≠ "clicks") hlen]
    obtain ⟨qc, hqc⟩ := hcn r0 h0
    obtain ⟨qi, hqi⟩ := hin r0 h0
    by_cases hgt : cellGtCell (cellVal t.cols "clicks" r0.2)
        (cellVal t.cols "impressions" r0.2)
    · rw [if_pos hgt, hqi]
      exact ⟨qi, qi, rfl, rfl, le_refl qi⟩
    · rw [if_neg hgt, hqc, hqi]
      refine ⟨qc, qi, rfl, rfl, ?_⟩
      rw [hqc, hqi] at hgt
      simp only [cellGtCell, Bool.not_eq_true] at hgt
      exact not_lt.mp (by simpa using hgt)
  · rw [if_neg hany]
    simp only [List.any_eq_true, not_exists, not_and] at hany
    intro r hr
    obtain ⟨qc, hqc⟩ := hcn r hr
    obtain ⟨qi, hqi⟩ := hin r hr
    refine ⟨qc, qi, hqc, hqi, ?_⟩
    have := hany r hr
    rw [hqc, hqi] at this
    simp only [cellGtCell] at this
    exact not_lt.mp (by simpa using this)

theorem fixNegativeSpend_nonneg {t : Table} (hwf : WF t)
    (hs : (colIdx t.cols "spend").isSome) (hn : ColProp t "spend" IsNum) :
    ColProp (fixNegativeSpend t) "spend" IsNumNN := by
  unfold fixNegativeSpend
  rw [if_pos hs]
  by_cases hany : t.rows.any (fun r => cellLtNum (cellVal t.cols "spend" r.2) 0)
  · rw [if_pos hany]
    rw [mapColIfPresent_eq_assignCol clipLower0 hs]
    refine @ColProp_assignCol_self t "spend" IsNumNN _ hwf (fun r hr => ?_)
    obtain ⟨q, hq⟩ := hn r hr
    rw [hq]
    show IsNumNN (clipLower0 (Cell.num q))
    refine ⟨if q < 0 then 0 else q, rfl, ?_⟩
    split_ifs with h
    · exact le_refl 0
    · exact not_lt.mp h
  · rw [if_neg hany]
    simp only [List.any_eq_true, not_exists, not_and] at hany
    intro r hr
    obtain ⟨q, hq⟩ := hn r hr
    refine ⟨q, hq, ?_⟩
    have := hany r hr
    rw [hq] at this
    simp only [cellLtNum] at this
    exact not_lt.mp (by simpa using this)

theorem fixRevenuePurchases_inv {t : Table} (hwf : WF t)
    (hp : (colIdx t.cols "purchases").isSome)
    (hr : (colIdx t.cols "revenue").isSome)
    (hpn : ColProp t "purchases" NatNum) :
    Col2Prop (fixRevenuePurchases t) "revenue" "purchases"
      (fun rev p => cellGtNum rev 0 = true → ∃ n : ℕ, p = .num n ∧ 1 ≤ n) := by
  unfold fixRevenuePurchases
  rw [if_pos ⟨hp, hr⟩]
  by_cases hany : t.rows.any (fun r =>
      cellGtNum (cellVal t.cols "revenue" r.2) 0 ∧
        cellVal t.cols "purchases" r.2 = .num 0)
  · rw [if_pos hany]
    intro r hrm
    rw [assignCol_rows] at hrm
    obtain ⟨r0, h0, rfl⟩ := List.mem_map.mp hrm
    have hlen := hwf r0 h0
    rw [cellVal_assignRow_self hlen,
      cellVal_assignRow_ne (by decide : "revenue" ≠ "purchases") hlen]
    intro hgt
    by_cases hcond : cellGtNum (cellVal t.cols "revenue" r0.2) 0 = true ∧
        cellVal t.cols "purchases" r0.2 = Cell.num 0
    · rw [if_pos hcond]
      exact ⟨1, by norm_num, le_refl 1⟩
    · rw [if_neg hcond]
      obtain ⟨n, hn⟩ := hpn r0 h0
      refine ⟨n, hn, ?_⟩
      have hne : cellVal t.cols "purchases" r0.2 ≠ Cell.num 0 :=
        fun he => hcond ⟨hgt, he⟩
      rw [hn] at hne
      have : (n : ℚ) ≠ 0 := fun he => hne (by rw [he])
      have : n ≠ 0 := fun he => this (by rw [he]; norm_num)
      omega
  · rw [if_neg hany]
    simp only [List.any_eq_true, not_exists, not_and, decide_eq_true_eq] at hany
    intro r hrm hgt
    obtain ⟨n, hn⟩ := hpn r hrm
    refine ⟨n, hn, ?_⟩
    have hne := hany r hrm hgt
    rw [hn] at hne
    have h2 : (n : ℚ) ≠ 0 := fun he => hne (by rw [he])
    have : n ≠ 0 := fun he => h2 (by rw [he]; norm_num)
    omega

/-! ## Fold-level transport lemmas for the cleaning loops -/

theorem ColProp_mapColIfPresent_self_present {t : Table} {c : String}
    {P Q : Cell → Prop} (g : Cell → Cell) (hwf : WF t)
    (hpres : (colIdx t.cols c).isSome) (h : ∀ x, P x → Q (g x))
    (hp : ColProp t c P) : ColProp (mapColIfPresent t c g) c Q := by
  rw [mapColIfPresent_eq_assignCol g hpres]
  exact ColProp_assignCol_self hwf (fun r hr => h _ (hp r hr))

theorem mapColFold_cols (g : Cell → Cell) (l : List String) (u : Table) :
    (l.foldl (fun acc col => mapColIfPresent acc col g) u).cols = u.cols := by
  induction l generalizing u with
  | nil => rfl
  | cons a l ih => rw [List.foldl_cons, ih, mapColIfPresent_cols]

theorem WF_mapColFold (g : Cell → Cell) (l : List String) {u : Table}
    (hwf : WF u) : WF (l.foldl (fun acc col => mapColIfPresent acc col g) u) := by
  induction l generalizing u with
  | nil => exact hwf
  | cons a l ih => exact ih (WF_mapColIfPresent _ _ hwf)

theorem ColProp_mapColFold_ne (g : Cell → Cell) (l : List String) {u : Table}
    {c : String} {P : Cell → Prop} (hwf : WF u) (hnot : c ∉ l)
    (hp : ColProp u c P) :
    ColProp (l.foldl (fun acc col => mapColIfPresent acc col g) u) c P := by
  induction l generalizing u with
  | nil => exact hp
  | cons a l ih =>
    rw [List.foldl_cons]
    exact ih (WF_mapColIfPresent _ _ hwf) (fun h => hnot (List.mem_cons_of_mem a h))
      (ColProp_mapColIfPresent_ne a g hwf (fun e => hnot (e ▸ List.mem_cons_self a l)) hp)

theorem ColProp_mapColFold_estab (g : Cell → Cell) (l : List String) {u : Table}
    {c : String} {P Q : Cell → Prop} (hwf : WF u) (hmem : c ∈ l)
    (hnd : l.Nodup) (hpres : (colIdx u.cols c).isSome)
    (h : ∀ x, P x → Q (g x)) (hp : ColProp u c P) :
    ColProp (l.foldl (fun acc col => mapColIfPresent acc col g) u) c Q := by
  induction l generalizing u with
  | nil => cases hmem
  | cons a l ih =>
    rw [List.foldl_cons]
    by_cases hca : c = a
    · subst hca
      have hnot : c ∉ l := (List.nodup_cons.mp hnd).1
      exact ColProp_mapColFold_ne g l (WF_mapColIfPresent _ _ hwf) hnot
        (ColProp_mapColIfPresent_self_present g hwf hpres h hp)
    · have hmem2 : c ∈ l := (List.mem_cons.mp hmem).resolve_left hca
      exact ih (WF_mapColIfPresent _ _ hwf) hmem2 (List.nodup_cons.mp hnd).2
        (by rw [mapColIfPresent_cols]; exact hpres)
        (ColProp_mapColIfPresent_ne a g hwf hca hp)

theorem cleanNumStep_cols (acc : Table) (col : String) :
    (cleanNumStep acc col).cols = acc.cols := by
  unfold cleanNumStep
  split_ifs with h
  · rw [mapColIfPresent_cols, mapColIfPresent_cols]
  · rw [mapColIfPresent_cols]

theorem WF_cleanNumStep {acc : Table} (col : String) (hwf : WF acc) :
    WF (cleanNumStep acc col) := by
  unfold cleanNumStep
  split_ifs with h
  · exact WF_mapColIfPresent _ _ (WF_mapColIfPresent _ _ hwf)
  · exact WF_mapColIfPresent _ _ hwf

theorem ColProp_cleanNumStep_ne {acc : Table} {c : String} {P : Cell → Prop}
    (col : String) (hwf : WF acc) (hne : c ≠ col) (hp : ColProp acc c P) :
    ColProp (cleanNumStep acc col) c P := by
  unfold cleanNumStep
  split_ifs with h
  · exact ColProp_mapColIfPresent_ne _ _ (WF_mapColIfPresent _ _ hwf) hne
      (ColProp_mapColIfPresent_ne _ _ hwf hne hp)
  · exact ColProp_mapColIfPresent_ne _ _ hwf hne hp

theorem toNumericCell_numNa (x : Cell) : NumNa (toNumericCell x) := by
  cases x with
  | na => exact Or.inr rfl
  | num q => exact Or.inl ⟨q, rfl⟩
  | str s =>
    simp only [toNumericCell]
    cases h : parseNumStr s with
    | none => exact Or.inr rfl
    | some q => exact Or.inl ⟨q, rfl⟩
  | date d => exact Or.inr rfl

theorem clipLower0_numNa {x : Cell} (h : NumNa x) : NumNa (clipLower0 x) := by
  rcases h with ⟨q, rfl⟩ | rfl
  · exact Or.inl ⟨if q < 0 then 0 else q, rfl⟩
  · exact Or.inr rfl

theorem ColProp_cleanNumStep_estab {acc : Table} {c : String}
    (hwf : WF acc) (hpres : (colIdx acc.cols c).isSome) :
    ColProp (cleanNumStep acc c) c NumNa := by
  unfold cleanNumStep
  have base : ColProp (mapColIfPresent acc c toNumericCell) c NumNa :=
    @ColProp_mapColIfPresent_self_present acc c (fun _ => True) NumNa
      toNumericCell hwf hpres (fun x _ => toNumericCell_numNa x)
      (fun _ _ => trivial)
  split_ifs with h
  · exact ColProp_mapColIfPresent_self_present clipLower0
      (WF_mapColIfPresent _ _ hwf)
      (by rw [mapColIfPresent_cols]; exact hpres)
      (fun x hx => clipLower0_numNa hx) base
  · exact base

theorem cleanNumFold_cols (l : List String) (u : Table) :
    (l.foldl cleanNumStep u).cols = u.cols := by
  induction l generalizing u with
  | nil => rfl
  | cons a l ih => rw [List.foldl_cons, ih, cleanNumStep_cols]

theorem WF_cleanNumFold (l : List String) {u : Table} (hwf : WF u) :
    WF (l.foldl cleanNumStep u) := by
  induction l generalizing u with
  | nil => exact hwf
  | cons a l ih => exact ih (WF_cleanNumStep _ hwf)

theorem ColProp_cleanNumFold_ne (l : List String) {u : Table} {c : String}
    {P : Cell → Prop} (hwf : WF u) (hnot : c ∉ l) (hp : ColProp u c P) :
    ColProp (l.foldl cleanNumStep u) c P := by
  induction l generalizing u with
  | nil => exact hp
  | cons a l ih =>
    rw [List.foldl_cons]
    exact ih (WF_cleanNumStep _ hwf) (fun h => hnot (List.mem_cons_of_mem a h))
      (ColProp_cleanNumStep_ne a hwf (fun e => hnot (e ▸ List.mem_cons_self a l)) hp)

theorem ColProp_cleanNumFold_estab (l : List String) {u : Table} {c : String}
    (hwf : WF u) (hmem : c ∈ l) (hnd : l.Nodup)
    (hpres : (colIdx u.cols c).isSome) :
    ColProp (l.foldl cleanNumStep u) c NumNa := by
  induction l generalizing u with
  | nil => cases hmem
  | cons a l ih =>
    rw [List.foldl_cons]
    by_cases hca : c = a
    · subst hca
      exact ColProp_cleanNumFold_ne l (WF_cleanNumStep _ hwf)
        (List.nodup_cons.mp hnd).1 (ColProp_cleanNumStep_estab hwf hpres)
    · exact ih (WF_cleanNumStep _ hwf) ((List.mem_cons.mp hmem).resolve_left hca)
        (List.nodup_cons.mp hnd).2 (by rw [cleanNumStep_cols]; exact hpres)

theorem dropNaFold_cols (l : List String) (u : Table) :
    (l.foldl (fun acc col => dropNaRows acc col) u).cols = u.cols := by
  induction l generalizing u with
  | nil => rfl
  | cons a l ih => rw [List.foldl_cons, ih, dropNaRows_cols]

theorem dropNaFold_subset (l : List String) (u : Table) :
    ∀ r ∈ (l.foldl (fun acc col => dropNaRows acc col) u).rows, r ∈ u.rows := by
  induction l generalizing u with
  | nil => exact fun r hr => hr
  | cons a l ih =>
    rw [List.foldl_cons]
    exact fun r hr => dropNaRows_subset u a r (ih (dropNaRows u a) r hr)

theorem WF_dropNaFold (l : List String) {u : Table} (hwf : WF u) :
    WF (l.foldl (fun acc col => dropNaRows acc col) u) :=
  WF_of_subset (dropNaFold_cols l u) (dropNaFold_subset l u) hwf

theorem ColProp_dropNaFold (l : List String) {u : Table} {c : String}
    {P : Cell → Prop} (hp : ColProp u c P) :
    ColProp (l.foldl (fun acc col => dropNaRows acc col) u) c P :=
  ColProp_of_subset (dropNaFold_cols l u) (dropNaFold_subset l u) hp

/-! ## Field-synthesis stage lemmas -/

theorem genAccountId_char (t : Table) :
    genAccountId t = t ∨
      (colIdx t.cols "account_id" = none ∧
        genAccountId t = assignCol t "account_id" (fun _ => .str "desky_account_001")) := by
  unfold genAccountId
  split_ifs with h
  · exact Or.inl rfl
  · have hn := Option.not_isSome_iff_eq_none.mp h
    exact Or.inr ⟨hn, addConstCol_eq_assignCol _ hn⟩

theorem genCampaignId_char (t : Table) :
    genCampaignId t = t ∨
      genCampaignId t = assignCol t "campaign_id"
        (fun r => synthCampaignId r.1 (cellVal t.cols "campaign_name" r.2)) := by
  unfold genCampaignId
  split_ifs with h
  · exact Or.inr rfl
  · exact Or.inl rfl

theorem genPurchases_char (t : Table) :
    genPurchases t = t ∨
      genPurchases t = assignCol t "purchases"
        (fun r => cellVal t.cols "results" r.2) ∨
      (colIdx t.cols "purchases" = none ∧
        genPurchases t = assignCol t "purchases" (fun _ => .num 0)) := by
  unfold genPurchases
  split_ifs with h1 h2
  · exact Or.inl rfl
  · exact Or.inr (Or.inl rfl)
  · have hn := Option.not_isSome_iff_eq_none.mp h1
    exact Or.inr (Or.inr ⟨hn, addConstCol_eq_assignCol _ hn⟩)

theorem genRevenue_char (t : Table) :
    genRevenue t = t ∨
      (colIdx t.cols "revenue" = none ∧
        genRevenue t = assignCol t "revenue" (fun _ => .num 0)) := by
  unfold genRevenue
  split_ifs with h
  · exact Or.inl rfl
  · have hn := Option.not_isSome_iff_eq_none.mp h
    exact Or.inr ⟨hn, addConstCol_eq_assignCol _ hn⟩

theorem genAdId_ok_char {t out : Table} (h : genAdId t = .ok out) :
    out = t ∨
      out = assignCol t "ad_id"
        (fun r => synthAdId r.1 (cellVal t.cols "campaign_id" r.2)) := by
  unfold genAdId at h
  split_ifs at h with h1 h2
  · exact Or.inl (Except.ok.inj h).symm
  · exact Or.inr (Except.ok.inj h).symm

theorem genAdName_ok_char {t out : Table} (h : genAdName t = .ok out) :
    out = t ∨
      out = assignCol t "ad_name"
        (fun r => synthAdName (cellVal t.cols "campaign_name" r.2)) := by
  unfold genAdName at h
  split_ifs at h with h1 h2
  · exact Or.inl (Except.ok.inj h).symm
  · exact Or.inr (Except.ok.inj h).symm

theorem genPurchases_of_present {t : Table}
    (h : (colIdx t.cols "purchases").isSome) : genPurchases t = t := by
  unfold genPurchases
  rw [if_pos h]

theorem genRevenue_of_present {t : Table}
    (h : (colIdx t.cols "revenue").isSome) : genRevenue t = t := by
  unfold genRevenue
  rw [if_pos h]

theorem genAccountId_shape (t : Table) :
    GenShape t (genAccountId t) "account_id" := by
  rcases genAccountId_char t with h | ⟨_, h⟩
  · exact Or.inl h
  · exact Or.inr ⟨_, h⟩

theorem genCampaignId_shape (t : Table) :
    GenShape t (genCampaignId t) "campaign_id" := by
  rcases genCampaignId_char t with h | h
  · exact Or.inl h
  · exact Or.inr ⟨_, h⟩

theorem genPurchases_shape (t : Table) :
    GenShape t (genPurchases t) "purchases" := by
  rcases genPurchases_char t with h | h | ⟨_, h⟩
  · exact Or.inl h
  · exact Or.inr ⟨_, h⟩
  · exact Or.inr ⟨_, h⟩

theorem genRevenue_shape (t : Table) :
    GenShape t (genRevenue t) "revenue" := by
  rcases genRevenue_char t with h | ⟨_, h⟩
  · exact Or.inl h
  · exact Or.inr ⟨_, h⟩

theorem genAdId_shape {t out : Table} (h : genAdId t = .ok out) :
    GenShape t out "ad_id" := by
  rcases genAdId_ok_char h with h2 | h2
  · exact Or.inl h2
  · exact Or.inr ⟨_, h2⟩

theorem genAdName_shape {t out : Table} (h : genAdName t = .ok out) :
    GenShape t out "ad_name" := by
  rcases genAdName_ok_char h with h2 | h2
  · exact Or.inl h2
  · exact Or.inr ⟨_, h2⟩

theorem WF_of_shape {x y : Table} {w : String} (hs : GenShape x y w)
    (hwf : WF x) : WF y := by
  rcases hs with rfl | ⟨f, rfl⟩
  · exact hwf
  · exact WF_assignCol _ _ hwf

theorem colIdx_of_shape {x y : Table} {w : String} (hs : GenShape x y w)
    {c : String} (hne : c ≠ w) : colIdx y.cols c = colIdx x.cols c := by
  rcases hs with rfl | ⟨f, rfl⟩
  · rfl
  · exact colIdx_assignCol_ne x w f hne

theorem ColProp_of_shape {x y : Table} {w : String} (hs : GenShape x y w)
    (hwf : WF x) {c : String} {P : Cell → Prop} (hne : c ≠ w)
    (hp : ColProp x c P) : ColProp y c P := by
  rcases hs with rfl | ⟨f, rfl⟩
  · exact hp
  · exact ColProp_assignCol_ne _ _ hwf hne hp

theorem Col2Prop_of_shape {x y : Table} {w : String} (hs : GenShape x y w)
    (hwf : WF x) {c1 c2 : String} {P : Cell → Cell → Prop} (h1 : c1 ≠ w)
    (h2 : c2 ≠ w) (hp : Col2Prop x c1 c2 P) : Col2Prop y c1 c2 P := by
  rcases hs with rfl | ⟨f, rfl⟩
  · exact hp
  · exact Col2Prop_assignCol_ne _ _ hwf h1 h2 hp

/-- Split the `generate_missing_fields` do-block into its two fallible
steps. -/
theorem generate_decomp {t out : Table}
    (h : generate_missing_fields t = .ok out) :
    ∃ t5, genAdId (genRevenue (genPurchases (genCampaignId (genAccountId t)))) =
        .ok t5 ∧ genAdName t5 = .ok out := by
  unfold generate_missing_fields at h
  cases hx : genAdId (genRevenue (genPurchases (genCampaignId (genAccountId t)))) with
  | error e => rw [hx] at h; cases h
  | ok t5 =>
    rw [hx] at h
    exact ⟨t5, rfl, h⟩

theorem WF_generate {t out : Table} (hwf : WF t)
    (h : generate_missing_fields t = .ok out) : WF out := by
  obtain ⟨t5, h5, hn⟩ := generate_decomp h
  exact WF_of_shape (genAdName_shape hn)
    (WF_of_shape (genAdId_shape h5)
      (WF_of_shape (genRevenue_shape _)
        (WF_of_shape (genPurchases_shape _)
          (WF_of_shape (genCampaignId_shape _)
            (WF_of_shape (genAccountId_shape _) hwf)))))

theorem colIdx_generate_ne {t out : Table}
    (h : generate_missing_fields t = .ok out) {c : String}
    (hnot : c ∉ genWritten) : colIdx out.cols c = colIdx t.cols c := by
  obtain ⟨t5, h5, hn⟩ := generate_decomp h
  have hne : ∀ w ∈ genWritten, c ≠ w := fun w hw he => hnot (he ▸ hw)
  rw [colIdx_of_shape (genAdName_shape hn) (hne _ (by decide)),
    colIdx_of_shape (genAdId_shape h5) (hne _ (by decide)),
    colIdx_of_shape (genRevenue_shape _) (hne _ (by decide)),
    colIdx_of_shape (genPurchases_shape _) (hne _ (by decide)),
    colIdx_of_shape (genCampaignId_shape _) (hne _ (by decide)),
    colIdx_of_shape (genAccountId_shape _) (hne _ (by decide))]

theorem ColProp_generate_ne {t out : Table} (hwf : WF t)
    (h : generate_missing_fields t = .ok out) {c : String} {P : Cell → Prop}
    (hnot : c ∉ genWritten) (hp : ColProp t c P) : ColProp out c P := by
  obtain ⟨t5, h5, hn⟩ := generate_decomp h
  have hne : ∀ w ∈ genWritten, c ≠ w := fun w hw he => hnot (he ▸ hw)
  have w1 := WF_of_shape (genAccountId_shape t) hwf
  have w2 := WF_of_shape (genCampaignId_shape _) w1
  have w3 := WF_of_shape (genPurchases_shape _) w2
  have w4 := WF_of_shape (genRevenue_shape _) w3
  have w5 := WF_of_shape (genAdId_shape h5) w4
  exact ColProp_of_shape (genAdName_shape hn) w5 (hne _ (by decide))
    (ColProp_of_shape (genAdId_shape h5) w4 (hne _ (by decide))
      (ColProp_of_shape (genRevenue_shape _) w3 (hne _ (by decide))
        (ColProp_of_shape (genPurchases_shape _) w2 (hne _ (by decide))
          (ColProp_of_shape (genCampaignId_shape _) w1 (hne _ (by decide))
            (ColProp_of_shape (genAccountId_shape _) hwf (hne _ (by decide)) hp)))))

theorem Col2Prop_generate_ne {t out : Table} (hwf : WF t)
    (h : generate_missing_fields t = .ok out) {c1 c2 : String}
    {P : Cell → Cell → Prop} (h1 : c1 ∉ genWritten) (h2 : c2 ∉ genWritten)
    (hp : Col2Prop t c1 c2 P) : Col2Prop out c1 c2 P := by
  obtain ⟨t5, h5, hn⟩ := generate_decomp h
  have hne1 : ∀ w ∈ genWritten, c1 ≠ w := fun w hw he => h1 (he ▸ hw)
  have hne2 : ∀ w ∈ genWritten, c2 ≠ w := fun w hw he => h2 (he ▸ hw)
  have w1 := WF_of_shape (genAccountId_shape t) hwf
  have w2 := WF_of_shape (genCampaignId_shape _) w1
  have w3 := WF_of_shape (genPurchases_shape _) w2
  have w4 := WF_of_shape (genRevenue_shape _) w3
  have w5 := WF_of_shape (genAdId_shape h5) w4
  exact Col2Prop_of_shape (genAdName_shape hn) w5 (hne1 _ (by decide))
    (hne2 _ (by decide))
    (Col2Prop_of_shape (genAdId_shape h5) w4 (hne1 _ (by decide)) (hne2 _ (by decide))
      (Col2Prop_of_shape (genRevenue_shape _) w3 (hne1 _ (by decide)) (hne2 _ (by decide))
        (Col2Prop_of_shape (genPurchases_shape _) w2 (hne1 _ (by decide)) (hne2 _ (by decide))
          (Col2Prop_of_shape (genCampaignId_shape _) w1 (hne1 _ (by decide)) (hne2 _ (by decide))
            (Col2Prop_of_shape (genAccountId_shape _) hwf (hne1 _ (by decide))
              (hne2 _ (by decide)) hp)))))

/-! ## Sort stage lemmas -/

theorem sort_and_reset_ok_spec {t out : Table} (h : sort_and_reset t = .ok out) :
    out.cols = t.cols ∧ ∀ r ∈ out.rows, ∃ r0 ∈ t.rows, r.2 = r0.2 := by
  unfold sort_and_reset at h
  split_ifs at h with h1 h2
  have he := (Except.ok.inj h).symm
  subst he
  refine ⟨rfl, fun r hr => ?_⟩
  have hmem : ((t.rows.mergeSort (sortKeyLe t.cols)).map Prod.snd)[r.1]? = some r.2 :=
    List.mem_enum_iff_getElem?.mp hr
  have hr2 : r.2 ∈ (t.rows.mergeSort (sortKeyLe t.cols)).map Prod.snd :=
    List.getElem?_mem hmem
  obtain ⟨r0, h0, he0⟩ := List.mem_map.mp hr2
  exact ⟨r0, List.mem_mergeSort.mp h0, he0.symm⟩

theorem WF_sort_and_reset {t out : Table} (hwf : WF t)
    (h : sort_and_reset t = .ok out) : WF out := by
  obtain ⟨hc, hs⟩ := sort_and_reset_ok_spec h
  intro r hr
  obtain ⟨r0, h0, he⟩ := hs r hr
  rw [hc, he]
  exact hwf r0 h0

theorem ColProp_sort_and_reset {t out : Table} {c : String} {P : Cell → Prop}
    (h : sort_and_reset t = .ok out) (hp : ColProp t c P) : ColProp out c P :=
  ColProp_of_cells_subset (sort_and_reset_ok_spec h).1
    (sort_and_reset_ok_spec h).2 hp

theorem Col2Prop_sort_and_reset {t out : Table} {c1 c2 : String}
    {P : Cell → Cell → Prop} (h : sort_and_reset t = .ok out)
    (hp : Col2Prop t c1 c2 P) : Col2Prop out c1 c2 P :=
  Col2Prop_of_cells_subset (sort_and_reset_ok_spec h).1
    (sort_and_reset_ok_spec h).2 hp

/-! ## Composite stage lemmas -/

theorem normalize_rows (t : Table) :
    (normalize_column_names t).rows = t.rows := rfl

theorem normalize_cols_length (t : Table) :
    (normalize_column_names t).cols.length = t.cols.length := by
  unfold normalize_column_names
  simp

theorem WF_normalize {t : Table} (hwf : WF t) :
    WF (normalize_column_names t) := by
  intro r hr
  rw [normalize_cols_length]
  exact hwf r hr

theorem clean_data_types_cols (t : Table) :
    (clean_data_types t).cols = t.cols := by
  unfold clean_data_types
  rw [mapColFold_cols, mapColFold_cols, cleanNumFold_cols, mapColIfPresent_cols]

theorem WF_clean_data_types {t : Table} (hwf : WF t) :
    WF (clean_data_types t) := by
  unfold clean_data_types
  exact WF_mapColFold _ _ (WF_mapColFold _ _
    (WF_cleanNumFold _ (WF_mapColIfPresent _ _ hwf)))

/-- Numeric coercion result for the five base metric columns: present
columns hold only numbers or missing after `_clean_data_types`. -/
theorem ColProp_clean_data_types_numNa {t : Table} (hwf : WF t) {c : String}
    (hc : c ∈ ["spend", "impressions", "clicks", "purchases", "revenue"])
    (hpres : (colIdx t.cols c).isSome) :
    ColProp (clean_data_types t) c NumNa := by
  unfold clean_data_types
  have hc5 : c = "spend" ∨ c = "impressions" ∨ c = "clicks" ∨
      c = "purchases" ∨ c = "revenue" := by simpa using hc
  have hnum : ColProp (numericColsClean.foldl cleanNumStep
      (mapColIfPresent t "date" toDatetimeCoerce)) c NumNa := by
    refine ColProp_cleanNumFold_estab _ (WF_mapColIfPresent _ _ hwf) ?_
      (by decide) (by rw [mapColIfPresent_cols]; exact hpres)
    rcases hc5 with rfl | rfl | rfl | rfl | rfl
    all_goals decide
  have hstr : c ∉ stringColsClean := by
    rcases hc5 with rfl | rfl | rfl | rfl | rfl
    all_goals decide
  have hid : c ∉ idColsClean := by
    rcases hc5 with rfl | rfl | rfl | rfl | rfl
    all_goals decide
  exact ColProp_mapColFold_ne _ _
    (WF_mapColFold _ _ (WF_cleanNumFold _ (WF_mapColIfPresent _ _ hwf))) hid
    (ColProp_mapColFold_ne _ _
      (WF_cleanNumFold _ (WF_mapColIfPresent _ _ hwf)) hstr hnum)

theorem handle_missing_values_cols (t : Table) :
    (handle_missing_values t).cols = t.cols := by
  unfold handle_missing_values
  rw [mapColFold_cols, dropNaFold_cols, mapColFold_cols]

theorem WF_handle_missing_values {t : Table} (hwf : WF t) :
    WF (handle_missing_values t) := by
  unfold handle_missing_values
  exact WF_mapColFold _ _ (WF_dropNaFold _ (WF_mapColFold _ _ hwf))

/-- Null filling for the five base metric columns: present columns hold only
numbers after `_handle_missing_values` of a coerced table. -/
theorem ColProp_handle_missing_values_isNum {t : Table} (hwf : WF t)
    {c : String}
    (hc : c ∈ ["spend", "impressions", "clicks", "purchases", "revenue"])
    (hpres : (colIdx t.cols c).isSome) (hp : ColProp t c NumNa) :
    ColProp (handle_missing_values t) c IsNum := by
  unfold handle_missing_values
  have hfill : ColProp (["spend", "impressions", "clicks", "purchases",
      "revenue"].foldl (fun acc col =>
        mapColIfPresent acc col (fillNaCell (.num 0))) t) c IsNum := by
    refine ColProp_mapColFold_estab _ _ hwf hc (by decide) hpres ?_ hp
    intro x hx
    rcases hx with ⟨q, rfl⟩ | rfl
    · cases hq : fillNaCell (Cell.num 0) (Cell.num q) with
      | na => exact absurd hq (by unfold fillNaCell; simp)
      | num q2 => exact ⟨q2, rfl⟩
      | str s => exact absurd hq (by unfold fillNaCell; simp)
      | date d => exact absurd hq (by unfold fillNaCell; simp)
    · exact ⟨0, rfl⟩
  have hstr : c ∉ ["ad_name", "campaign_name", "objective"] := by
    have hc5 : c = "spend" ∨ c = "impressions" ∨ c = "clicks" ∨
        c = "purchases" ∨ c = "revenue" := by simpa using hc
    rcases hc5 with rfl | rfl | rfl | rfl | rfl
    all_goals decide
  exact ColProp_mapColFold_ne _ _
    (WF_dropNaFold _ (WF_mapColFold _ _ hwf)) hstr
    (ColProp_dropNaFold _ hfill)

theorem except_bind_ok {α β : Type} {x : Except PErr α} {f : α → Except PErr β}
    {b : β} (h : (x >>= f) = .ok b) : ∃ a, x = .ok a ∧ f a = .ok b := by
  cases x with
  | error e => exact absurd h (by simp [Bind.bind, Except.bind])
  | ok a =>
    refine ⟨a, rfl, ?_⟩
    simpa [Bind.bind, Except.bind] using h

/-- Split `clean_and_normalize` into its stages. -/
theorem clean_and_normalize_decomp {t out : Table}
    (h : clean_and_normalize t = .ok out) :
    ∃ p4 p6,
      remove_duplicates (handle_missing_values (clean_data_types
        (normalize_column_names t))) = .ok p4 ∧
      generate_missing_fields (validate_data_consistency p4) = .ok p6 ∧
      sort_and_reset p6 = .ok out := by
  unfold clean_and_normalize at h
  obtain ⟨p4, h4, h2⟩ := except_bind_ok h
  obtain ⟨p6, h6, h3⟩ := except_bind_ok h2
  exact ⟨p4, p6, h4, h6, h3⟩

/-! ## Keep-first deduplication characterization -/

theorem dedupByKey_not_seen (k : List Cell → List Cell)
    (rs : List (ℕ × List Cell)) (seen : List (List Cell)) :
    ∀ r ∈ dedupByKey k rs seen, k r.2 ∉ seen := by
  induction rs generalizing seen with
  | nil => intro r hr; cases hr
  | cons a rs ih =>
    intro r hr
    rw [dedupByKey] at hr
    by_cases h : k a.2 ∈ seen
    · rw [if_pos h] at hr
      exact ih seen r hr
    · rw [if_neg h] at hr
      rcases List.mem_cons.mp hr with rfl | hr2
      · exact h
      · have := ih (k a.2 :: seen) r hr2
        exact fun hs => this (List.mem_cons_of_mem _ hs)

theorem dedupByKey_keys_nodup (k : List Cell → List Cell)
    (rs : List (ℕ × List Cell)) (seen : List (List Cell)) :
    ((dedupByKey k rs seen).map (fun r => k r.2)).Nodup := by
  induction rs generalizing seen with
  | nil => exact List.nodup_nil
  | cons a rs ih =>
    rw [dedupByKey]
    by_cases h : k a.2 ∈ seen
    · rw [if_pos h]
      exact ih seen
    · rw [if_neg h]
      rw [List.map_cons, List.nodup_cons]
      refine ⟨?_, ih (k a.2 :: seen)⟩
      intro hmem
      obtain ⟨r, hr, he⟩ := List.mem_map.mp hmem
      have := dedupByKey_not_seen k rs (k a.2 :: seen) r hr
      exact this (he ▸ List.mem_cons_self _ _)

theorem dedupByKey_covers (k : List Cell → List Cell)
    (rs : List (ℕ × List Cell)) (seen : List (List Cell)) :
    ∀ r ∈ rs, k r.2 ∉ seen →
      ∃ r2 ∈ dedupByKey k rs seen, k r2.2 = k r.2 := by
  induction rs generalizing seen with
  | nil => intro r hr; cases hr
  | cons a rs ih =>
    intro r hr hns
    rw [dedupByKey]
    by_cases h : k a.2 ∈ seen
    · rw [if_pos h]
      rcases List.mem_cons.mp hr with rfl | hr2
      · exact absurd h hns
      · exact ih seen r hr2 hns
    · rw [if_neg h]
      rcases List.mem_cons.mp hr with rfl | hr2
      · exact ⟨r, List.mem_cons_self _ _, rfl⟩
      · by_cases he : k r.2 = k a.2
        · exact ⟨a, List.mem_cons_self _ _, he.symm⟩
        · obtain ⟨r2, h2, he2⟩ := ih (k a.2 :: seen) r hr2
            (fun hm => (List.mem_cons.mp hm).elim he hns)
          exact ⟨r2, List.mem_cons_of_mem _ h2, he2⟩

theorem dedupByKey_first (k : List Cell → List Cell)
    (rs : List (ℕ × List Cell)) (seen : List (List Cell)) :
    ∀ r2 ∈ dedupByKey k rs seen,
      ∃ pre post, rs = pre ++ r2 :: post ∧ ∀ p ∈ pre, k p.2 ≠ k r2.2 := by
  induction rs generalizing seen with
  | nil => intro r hr; cases hr
  | cons a rs ih =>
    intro r2 hr2
    rw [dedupByKey] at hr2
    by_cases h : k a.2 ∈ seen
    · rw [if_pos h] at hr2
      obtain ⟨pre, post, he, hpre⟩ := ih seen r2 hr2
      have hkr2 := dedupByKey_not_seen k rs seen r2 hr2
      refine ⟨a :: pre, post, by rw [he, List.cons_append], fun p hp => ?_⟩
      rcases List.mem_cons.mp hp with rfl | hp2
      · exact fun hk => hkr2 (hk ▸ h)
      · exact hpre p hp2
    · rw [if_neg h] at hr2
      rcases List.mem_cons.mp hr2 with rfl | hr3
      · exact ⟨[], rs, rfl, fun p hp => absurd hp (List.not_mem_nil p)⟩
      · obtain ⟨pre, post, he, hpre⟩ := ih (k a.2 :: seen) r2 hr3
        have hkr2 := dedupByKey_not_seen k rs (k a.2 :: seen) r2 hr3
        refine ⟨a :: pre, post, by rw [he, List.cons_append], fun p hp => ?_⟩
        rcases List.mem_cons.mp hp with rfl | hp2
        · exact fun hk => hkr2 (hk ▸ List.mem_cons_self _ _)
        · exact hpre p hp2

theorem remove_duplicates_rows {t out : Table}
    (h : remove_duplicates t = .ok out) :
    out.rows = dedupByKey (rowKey t.cols (dupColumns t)) t.rows [] := by
  unfold remove_duplicates at h
  cases hf : (dupColumns t).find? (fun c => !(colIdx t.cols c).isSome) with
  | some c => rw [hf] at h; cases h
  | none =>
    rw [hf] at h
    cases h
    rfl

/-! ## Claim theorems -/

/-- C1: the claim says a record with `clicks > impressions` makes the
Validation Gate reject (`accept = false`).  The code contradicts this: on a
structurally valid file whose single record has `clicks = 5 > impressions = 2`,
`_check_warnings` appends the `"... (impossible)"` message to `self.errors`,
but `validate_excel_file` never consults `self.errors` after that call and
returns acceptance.  This theorem evaluates the gate at that failing input:
the record violates the relation, the error is recorded, yet `accept = true`. -/
theorem C1_gate_accepts_clicks_gt_impressions :
    (∃ r ∈ exC1.rows, cellGtCell (cellVal exC1.cols "clicks" r.2)
      (cellVal exC1.cols "impressions" r.2) = true) ∧
    (validate_excel_file exC1).errors =
      ["1 records with clicks > impressions (impossible)"] ∧
    (validate_excel_file exC1).accept = true := by
  refine ⟨by with_unfolding_all decide, by with_unfolding_all rfl,
    by with_unfolding_all rfl⟩

/-- C2: the claim says `get_campaign_summary` group-sums the base fields and
then re-runs the KPI engine without error, so that campaign `ctr` equals
`sum(clicks)/sum(impressions)`.  The code instead flattens the aggregated
MultiIndex columns to `spend_sum`/`impressions_sum`/`clicks_sum`/..., after
which `calculate_all_kpis` reads `df["clicks"]` and raises `KeyError`.  On a
well-formed two-row KPI table the summary therefore fails instead of
producing aggregate KPIs. -/
theorem C2_campaign_summary_raises_key_error :
    get_campaign_summary exC2 = .error (.keyError "clicks") := by
  with_unfolding_all rfl

/-- C4 counterexample: the claim keys deduplication on
`(account_id, campaign_id, date)`, so a table with two rows identical in
that triple should keep exactly one of them.  On `exC4` — two rows equal in
`account_id`, `campaign_id` and `date` but with different `campaign_name` —
`_remove_duplicates` keeps both rows (it returns the table unchanged),
refuting the claim. -/
theorem C4_counterexample_account_key_not_used :
    (∃ r1 ∈ exC4.rows, ∃ r2 ∈ exC4.rows, r1 ≠ r2 ∧
      cellVal exC4.cols "account_id" r1.2 = cellVal exC4.cols "account_id" r2.2 ∧
      cellVal exC4.cols "campaign_id" r1.2 = cellVal exC4.cols "campaign_id" r2.2 ∧
      cellVal exC4.cols "date" r1.2 = cellVal exC4.cols "date" r2.2) ∧
    remove_duplicates exC4 = .ok exC4 ∧ exC4.rows.length = 2 := by
  refine ⟨by with_unfolding_all decide, by with_unfolding_all rfl, rfl⟩

/-- C4 amended: the Deduplicator keys rows on `(campaign_name, date)` — not
`(account_id, campaign_id, date)` — extended with `ad_id` when that column
is present (`dupColumns`), keeping the first occurrence in current row
order and dropping the rest: the output is a subsequence of the input, its
keys are pairwise distinct, every input key is still represented (so for
two rows identical in the key exactly one survives), and every surviving
row is the first row of the input carrying its key. -/
theorem C4_dedup_keeps_first_by_campaign_name_date (t out : Table)
    (h : remove_duplicates t = .ok out) :
    out.cols = t.cols ∧
    List.Sublist out.rows t.rows ∧
    ((out.rows.map (fun r => rowKey t.cols (dupColumns t) r.2)).Nodup) ∧
    (∀ r ∈ t.rows, ∃ r2 ∈ out.rows,
      rowKey t.cols (dupColumns t) r2.2 = rowKey t.cols (dupColumns t) r.2) ∧
    (∀ r2 ∈ out.rows, ∃ pre post, t.rows = pre ++ r2 :: post ∧
      ∀ p ∈ pre,
        rowKey t.cols (dupColumns t) p.2 ≠ rowKey t.cols (dupColumns t) r2.2) := by
  have hrows := remove_duplicates_rows h
  refine ⟨(remove_duplicates_ok h).1, (remove_duplicates_ok h).2, ?_, ?_, ?_⟩
  · rw [hrows]
    exact dedupByKey_keys_nodup _ _ _
  · intro r hr
    obtain ⟨r2, h2, he⟩ :=
      dedupByKey_covers (rowKey t.cols (dupColumns t)) t.rows [] r hr
        (List.not_mem_nil _)
    exact ⟨r2, hrows ▸ h2, he⟩
  · intro r2 hr2
    rw [hrows] at hr2
    exact dedupByKey_first _ _ _ r2 hr2

/-- C4 witness: on a concrete table with two rows identical in
`(campaign_name, date)`, deduplication keeps exactly the first row. -/
theorem C4_dedup_witness :
    remove_duplicates exC4b = .ok exC4bOut ∧
    List.Sublist exC4bOut.rows exC4b.rows ∧
    ((exC4bOut.rows.map (fun r => rowKey exC4b.cols (dupColumns exC4b) r.2)).Nodup) := by
  have h : remove_duplicates exC4b = .ok exC4bOut := by with_unfolding_all rfl
  have h2 := C4_dedup_keeps_first_by_campaign_name_date exC4b exC4bOut h
  exact ⟨h, h2.2.1, h2.2.2.1⟩

/-! ## String-operation lemmas for the Schema Normalizer -/

theorem alFind_mem {l : List (Char × Char)} {c d : Char}
    (h : alFind l c = some d) : (c, d) ∈ l := by
  induction l with
  | nil => cases h
  | cons p r ih =>
    rw [alFind] at h
    by_cases hp : p.1 = c
    · rw [if_pos hp] at h
      cases h
      simp only [List.mem_cons]
      left
      rw [← hp]
    · rw [if_neg hp] at h
      exact List.mem_cons_of_mem _ (ih h)

theorem pyLowerChar_idem (c : Char) :
    pyLowerChar (pyLowerChar c) = pyLowerChar c := by
  unfold pyLowerChar
  cases h : alFind upperLower c with
  | none => simp only [Option.getD_none]; rw [h]; rfl
  | some d =>
    have hd : alFind upperLower d = none := by
      have hall : ∀ p ∈ upperLower, alFind upperLower p.2 = none := by decide
      exact hall (c, d) (alFind_mem h)
    simp only [Option.getD_some]
    rw [hd]
    rfl

theorem isWS_pyLowerChar (c : Char) : isWS (pyLowerChar c) = isWS c := by
  unfold pyLowerChar
  cases h : alFind upperLower c with
  | none => simp only [Option.getD_none]
  | some d =>
    have hmem := alFind_mem h
    have h1 : isWS c = false := by
      have hall : ∀ p ∈ upperLower, isWS p.1 = false := by decide
      exact hall (c, d) hmem
    have h2 : isWS d = false := by
      have hall : ∀ p ∈ upperLower, isWS p.2 = false := by decide
      exact hall (c, d) hmem
    simp only [Option.getD_some]
    rw [h1, h2]

theorem dropWhile_map_lower (l : List Char) :
    List.dropWhile isWS (l.map pyLowerChar) =
      (List.dropWhile isWS l).map pyLowerChar := by
  induction l with
  | nil => rfl
  | cons a l ih =>
    simp only [List.map_cons, List.dropWhile_cons, isWS_pyLowerChar]
    split_ifs with h
    · exact ih
    · simp

theorem rdropWhile_map_lower (l : List Char) :
    List.rdropWhile isWS (l.map pyLowerChar) =
      (List.rdropWhile isWS l).map pyLowerChar := by
  unfold List.rdropWhile
  rw [← List.map_reverse, dropWhile_map_lower, List.map_reverse]

theorem pyStripList_map_lower (l : List Char) :
    pyStripList (l.map pyLowerChar) = (pyStripList l).map pyLowerChar := by
  unfold pyStripList
  rw [dropWhile_map_lower, rdropWhile_map_lower]

theorem dropWhile_eq_self_of_isPrefix {p : Char → Bool} {s x : List Char}
    (hpre : s <+: x) (hx : List.dropWhile p x = x) :
    List.dropWhile p s = s := by
  cases s with
  | nil => rfl
  | cons a s2 =>
    obtain ⟨rest, hrest⟩ := hpre
    rw [List.cons_append] at hrest
    subst hrest
    rw [List.dropWhile_cons] at hx ⊢
    by_cases hpa : p a = true
    · rw [if_pos hpa] at hx
      have hsub := List.dropWhile_sublist (l := s2 ++ rest) (p := p)
      rw [hx] at hsub
      have := hsub.length_le
      simp at this
    · rw [if_neg hpa]

theorem pyStripList_idem (l : List Char) :
    pyStripList (pyStripList l) = pyStripList l := by
  unfold pyStripList
  have hxfix := List.dropWhile_idempotent isWS l
  have hpre := List.rdropWhile_prefix isWS (List.dropWhile isWS l)
  rw [dropWhile_eq_self_of_isPrefix hpre hxfix]
  exact List.rdropWhile_idempotent isWS _

theorem pyLower_pyLower (s : String) : pyLower (pyLower s) = pyLower s := by
  show String.mk ((s.data.map pyLowerChar).map pyLowerChar) =
    String.mk (s.data.map pyLowerChar)
  rw [List.map_map]
  congr 1
  exact List.map_congr_left (fun a _ => pyLowerChar_idem a)

theorem pyStrip_pyStrip (s : String) : pyStrip (pyStrip s) = pyStrip s := by
  show String.mk (pyStripList (pyStripList s.data)) =
    String.mk (pyStripList s.data)
  rw [pyStripList_idem]

theorem pyLower_pyStrip_comm (s : String) :
    pyLower (pyStrip s) = pyStrip (pyLower s) := by
  show String.mk ((pyStripList s.data).map pyLowerChar) =
    String.mk (pyStripList (s.data.map pyLowerChar))
  rw [pyStripList_map_lower]

theorem lookup_val_mem :
    ∀ {l : List (String × String)} {k v : String},
      List.lookup k l = some v → v ∈ l.map Prod.snd := by
  intro l
  induction l with
  | nil => intro k v h; cases h
  | cons p r ih =>
    intro k v h
    rw [List.lookup] at h
    cases hkp : (k == p.1) with
    | true =>
      rw [hkp] at h
      cases h
      exact List.mem_cons_self _ _
    | false =>
      rw [hkp] at h
      exact List.mem_cons_of_mem _ (ih h)

theorem values_fixed :
    ∀ p ∈ column_mapping,
      pyStrip (pyLower p.2) = p.2 ∧
      List.lookup p.2 columnMappingLower = some p.2 ∨
      pyStrip (pyLower p.2) = p.2 ∧
      List.lookup p.2 columnMappingLower = none := by
  decide

theorem normStep_fix (c : String) :
    pyStrip (pyLower (normStep c)) = normStep c ∧
      renameCol (normStep c) = normStep c := by
  unfold normStep renameCol
  cases h : List.lookup (pyStrip (pyLower c)) columnMappingLower with
  | some v =>
    simp only [h, Option.getD_some]
    have hv2 : v ∈ column_mapping.map Prod.snd := by
      have hv := lookup_val_mem h
      simpa [columnMappingLower, List.map_map, Function.comp] using hv
    obtain ⟨p, hp, he⟩ := List.mem_map.mp hv2
    subst he
    rcases values_fixed p hp with ⟨h1, h2⟩ | ⟨h1, h2⟩
    · exact ⟨h1, by rw [h2]; rfl⟩
    · exact ⟨h1, by rw [h2]; rfl⟩
  | none =>
    simp only [h, Option.getD_none]
    constructor
    · rw [pyLower_pyStrip_comm, pyLower_pyLower, pyStrip_pyStrip]
    · trivial

/-- C7: the Schema Normalizer is idempotent — applying
`_normalize_column_names` twice equals applying it once; cell values are
never touched; the new column list is the pointwise image of the
lower-strip-rename step, under which unmapped names pass through (so no
column is dropped); and a table whose columns are all canonical field
names is left entirely unchanged. -/
theorem C7_normalizer_idempotent :
    ∀ t : Table,
      normalize_column_names (normalize_column_names t) =
        normalize_column_names t ∧
      (normalize_column_names t).rows = t.rows ∧
      (normalize_column_names t).cols = t.cols.map normStep ∧
      (∀ c : String,
        List.lookup (pyStrip (pyLower c)) columnMappingLower = none →
          normStep c = pyStrip (pyLower c)) ∧
      ((∀ c ∈ t.cols, c ∈ column_mapping.map Prod.snd) →
        normalize_column_names t = t) := by
  intro t
  have hcols : ∀ u : Table, (normalize_column_names u).cols = u.cols.map normStep := by
    intro u
    show (u.cols.map (fun c => pyStrip (pyLower c))).map renameCol = _
    rw [List.map_map]
    rfl
  have hstepstep : ∀ c, normStep (normStep c) = normStep c := by
    intro c
    show renameCol (pyStrip (pyLower (normStep c))) = normStep c
    rw [(normStep_fix c).1]
    exact (normStep_fix c).2
  have table_ext : ∀ a b : Table, a.cols = b.cols → a.rows = b.rows → a = b := by
    intro a b h1 h2
    cases a
    cases b
    cases h1
    cases h2
    rfl
  refine ⟨?_, rfl, hcols t, ?_, ?_⟩
  · refine table_ext _ _ ?_ rfl
    rw [hcols, hcols, List.map_map]
    exact List.map_congr_left (fun c _ => hstepstep c)
  · intro c h
    show renameCol (pyStrip (pyLower c)) = pyStrip (pyLower c)
    unfold renameCol
    rw [h]
    rfl
  · intro h
    refine table_ext _ _ ?_ rfl
    rw [hcols]
    have hmap : ∀ c ∈ t.cols, normStep c = c := by
      intro c hc
      obtain ⟨p, hp, he⟩ := List.mem_map.mp (h c hc)
      subst he
      show renameCol (pyStrip (pyLower p.2)) = p.2
      rcases values_fixed p hp with ⟨h1, h2⟩ | ⟨h1, h2⟩
      · unfold renameCol; rw [h1, h2]; rfl
      · unfold renameCol; rw [h1, h2]; rfl
    have hm := List.map_congr_left hmap
    simpa using hm

/-- C7 witness: on a concrete canonical table the normalizer is a no-op and
idempotent. -/
theorem C7_witness :
    normalize_column_names (normalize_column_names exC7) =
      normalize_column_names exC7 ∧
    normalize_column_names exC7 = exC7 := by
  refine ⟨(C7_normalizer_idempotent exC7).1, ?_⟩
  exact (C7_normalizer_idempotent exC7).2.2.2.2 (by decide)

/-! ## Extractor lemmas -/

theorem pyFloat_shape (v : JVal) :
    (∃ q : ℚ, pyFloat v = .ok q) ∨ pyFloat v = .error .valueError ∨
      pyFloat v = .error .typeError := by
  cases v with
  | num q => exact Or.inl ⟨q, rfl⟩
  | bool b => exact Or.inl ⟨if b then 1 else 0, rfl⟩
  | str s =>
    simp only [pyFloat]
    cases h : parseNumStr s with
    | some q => exact Or.inl ⟨q, rfl⟩
    | none => exact Or.inr (Or.inl rfl)
  | null => exact Or.inr (Or.inr rfl)
  | list xs => exact Or.inr (Or.inr rfl)
  | dict kvs => exact Or.inr (Or.inr rfl)

theorem extractLoop_shape (target : String) (xs : List JVal)
    (h : ∀ e ∈ xs, isDictEntry e = true) :
    (∃ q : ℚ, extractLoop target xs = .ok q) ∨
      extractLoop target xs = .error .valueError ∨
      extractLoop target xs = .error .typeError := by
  induction xs with
  | nil => exact Or.inl ⟨0, rfl⟩
  | cons e rest ih =>
    have he := h e (List.mem_cons_self _ _)
    cases e with
    | dict kvs =>
      rw [extractLoop]
      split_ifs with hm
      · exact pyFloat_shape _
      · exact ih (fun e2 he2 => h e2 (List.mem_cons_of_mem _ he2))
    | null => cases he
    | bool b => cases he
    | num q => cases he
    | str s => cases he
    | list ys => cases he

theorem extractLoop_no_match (target : String) (xs : List JVal)
    (hd : ∀ e ∈ xs, isDictEntry e = true)
    (hm : ∀ e ∈ xs, matchesTarget target e = false) :
    extractLoop target xs = .ok 0 := by
  induction xs with
  | nil => rfl
  | cons e rest ih =>
    have he := hd e (List.mem_cons_self _ _)
    cases e with
    | dict kvs =>
      rw [extractLoop]
      have hme := hm (JVal.dict kvs) (List.mem_cons_self _ _)
      rw [matchesTarget] at hme
      rw [if_neg (by rw [hme]; exact fun hc => Bool.noConfusion hc)]
      exact ih (fun e2 he2 => hd e2 (List.mem_cons_of_mem _ he2))
        (fun e2 he2 => hm e2 (List.mem_cons_of_mem _ he2))
    | null => cases he
    | bool b => cases he
    | num q => cases he
    | str s => cases he
    | list ys => cases he

/-- C8 counterexample: the claim says `_extract_action_value` never raises,
including on lists containing malformed entries.  On the decoded payload
`[1]` — a list whose entry is not a dict — the loop calls `.get` on an
`int`, raising `AttributeError`, which is not in the caught exception tuple
`(json.JSONDecodeError, TypeError, ValueError)` and propagates. -/
theorem C8_counterexample_non_dict_entry_raises :
    extract_action_value (.direct (.list [.num 1])) "purchase" =
      .error .attributeError := rfl

/-- C8 amended: the extractor is total and fails closed — returning a
number, and the 0 default when no entry of the target type is present —
for every input whose decoded actions list contains only dict entries
(including non-list data and malformed JSON, which also yield 0); a list
containing a non-dict entry can instead raise `AttributeError`. -/
theorem C8_fails_closed_on_dict_entries (ad : ActionsData) (target : String)
    (h : ∀ e ∈ entriesOf ad, isDictEntry e = true) :
    (∃ q : ℚ, extract_action_value ad target = .ok q) ∧
    ((∀ e ∈ entriesOf ad, matchesTarget target e = false) →
      extract_action_value ad target = .ok 0) := by
  have main : ∀ v : JVal, (∀ e ∈ entriesOf (.direct v), isDictEntry e = true) →
      ((∃ q : ℚ, extract_action_value (.direct v) target = .ok q) ∧
        ((∀ e ∈ entriesOf (.direct v), matchesTarget target e = false) →
          extract_action_value (.direct v) target = .ok 0)) ∧
      ((∃ q : ℚ, extract_action_value (.fromStr (.ok v)) target = .ok q) ∧
        ((∀ e ∈ entriesOf (.fromStr (.ok v)), matchesTarget target e = false) →
          extract_action_value (.fromStr (.ok v)) target = .ok 0)) := by
    intro v hv
    cases v with
    | list xs =>
      have hxs : ∀ e ∈ xs, isDictEntry e = true := hv
      have hshape := extractLoop_shape target xs hxs
      constructor <;> constructor
      · show ∃ q : ℚ, (match extractLoop target xs with
          | .ok q => Except.ok q
          | .error PErr.jsonDecodeError => Except.ok 0
          | .error PErr.typeError => Except.ok 0
          | .error PErr.valueError => Except.ok 0
          | .error e => Except.error e) = .ok q
        rcases hshape with ⟨q, hq⟩ | hq | hq
        · exact ⟨q, by rw [hq]⟩
        · exact ⟨0, by rw [hq]⟩
        · exact ⟨0, by rw [hq]⟩
      · intro hnm
        have hloop := extractLoop_no_match target xs hxs hnm
        show (match extractLoop target xs with
          | .ok q => Except.ok q
          | .error PErr.jsonDecodeError => Except.ok 0
          | .error PErr.typeError => Except.ok 0
          | .error PErr.valueError => Except.ok 0
          | .error e => Except.error e) = .ok 0
        rw [hloop]
      · show ∃ q : ℚ, (match extractLoop target xs with
          | .ok q => Except.ok q
          | .error PErr.jsonDecodeError => Except.ok 0
          | .error PErr.typeError => Except.ok 0
          | .error PErr.valueError => Except.ok 0
          | .error e => Except.error e) = .ok q
        rcases hshape with ⟨q, hq⟩ | hq | hq
        · exact ⟨q, by rw [hq]⟩
        · exact ⟨0, by rw [hq]⟩
        · exact ⟨0, by rw [hq]⟩
      · intro hnm
        have hloop := extractLoop_no_match target xs hxs hnm
        show (match extractLoop target xs with
          | .ok q => Except.ok q
          | .error PErr.jsonDecodeError => Except.ok 0
          | .error PErr.typeError => Except.ok 0
          | .error PErr.valueError => Except.ok 0
          | .error e => Except.error e) = .ok 0
        rw [hloop]
    | null => exact ⟨⟨⟨0, rfl⟩, fun _ => rfl⟩, ⟨0, rfl⟩, fun _ => rfl⟩
    | bool b => exact ⟨⟨⟨0, rfl⟩, fun _ => rfl⟩, ⟨0, rfl⟩, fun _ => rfl⟩
    | num q => exact ⟨⟨⟨0, rfl⟩, fun _ => rfl⟩, ⟨0, rfl⟩, fun _ => rfl⟩
    | str s => exact ⟨⟨⟨0, rfl⟩, fun _ => rfl⟩, ⟨0, rfl⟩, fun _ => rfl⟩
    | dict kvs => exact ⟨⟨⟨0, rfl⟩, fun _ => rfl⟩, ⟨0, rfl⟩, fun _ => rfl⟩
  have hent : ∀ v : JVal, entriesOf (.fromStr (.ok v)) = entriesOf (.direct v) := by
    intro v
    cases v <;> rfl
  cases ad with
  | direct v => exact (main v h).1
  | fromStr parsed =>
    cases parsed with
    | ok v => exact (main v (by rw [hent] at h; exact h)).2
    | error e => exact ⟨⟨0, rfl⟩, fun _ => rfl⟩

/-- C8 witness: on a concrete single-entry dict payload of a non-matching
type, extraction succeeds and returns the 0 default. -/
theorem C8_witness :
    (∃ q : ℚ, extract_action_value adW "purchase" = .ok q) ∧
    extract_action_value adW "purchase" = .ok 0 := by
  have h := C8_fails_closed_on_dict_entries adW "purchase" (by decide)
  exact ⟨h.1, h.2 (by decide)⟩

theorem extractLoop_first_match (target : String) (pre : List JVal)
    (kvs : List (String × JVal)) (post : List JVal)
    (hpre : ∀ e ∈ pre, isDictEntry e = true ∧ matchesTarget target e = false)
    (hmatch : jvalEqStr (dictGet kvs "action_type") target = true) :
    extractLoop target (pre ++ .dict kvs :: post) =
      pyFloat ((dictGet kvs "value").getD (.num 0)) := by
  induction pre with
  | nil =>
    rw [List.nil_append, extractLoop, if_pos hmatch]
  | cons e pre2 ih =>
    have he := hpre e (List.mem_cons_self _ _)
    cases e with
    | dict kvs2 =>
      rw [List.cons_append, extractLoop]
      have hm2 := he.2
      rw [matchesTarget] at hm2
      rw [if_neg (by rw [hm2]; exact fun hc => Bool.noConfusion hc)]
      exact ih (fun e2 he2 => hpre e2 (List.mem_cons_of_mem _ he2))
    | null => cases he.1
    | bool b => cases he.1
    | num q => cases he.1
    | str s => cases he.1
    | list ys => cases he.1

/-- C10: when several entries of the actions list match the target action
type, `_extract_action_value` returns the converted value of the first
matching entry only — all later entries (matching or not) are ignored and
never summed — and a matching entry without a `value` key contributes the
`0` default of `action.get("value", 0)`. -/
theorem C10_first_match_wins (target : String) (pre : List JVal)
    (kvs : List (String × JVal)) (post : List JVal)
    (hpre : ∀ e ∈ pre, isDictEntry e = true ∧ matchesTarget target e = false)
    (hmatch : jvalEqStr (dictGet kvs "action_type") target = true) :
    extract_action_value (.direct (.list (pre ++ .dict kvs :: post))) target =
      .ok (floatOr0 ((dictGet kvs "value").getD (.num 0))) ∧
    (dictGet kvs "value" = none →
      extract_action_value (.direct (.list (pre ++ .dict kvs :: post))) target =
        .ok 0) := by
  have hloop := extractLoop_first_match target pre kvs post hpre hmatch
  have hmain : extract_action_value (.direct (.list (pre ++ .dict kvs :: post))) target =
      .ok (floatOr0 ((dictGet kvs "value").getD (.num 0))) := by
    show (match extractLoop target (pre ++ .dict kvs :: post) with
      | .ok q => Except.ok q
      | .error PErr.jsonDecodeError => Except.ok 0
      | .error PErr.typeError => Except.ok 0
      | .error PErr.valueError => Except.ok 0
      | .error e => Except.error e) = _
    rw [hloop]
    unfold floatOr0
    rcases pyFloat_shape ((dictGet kvs "value").getD (.num 0)) with ⟨q, hq⟩ | hq | hq
    all_goals rw [hq]
  refine ⟨hmain, fun hnone => ?_⟩
  rw [hmain, hnone]
  rfl

/-- C10 witness: with a non-matching entry, then a matching entry with
value 7, then another matching entry with value 100, extraction returns 7
(the first match), and the 0 default when the first match lacks a value. -/
theorem C10_witness :
    extract_action_value (.direct (.list (adC10pre ++ .dict adC10kvs :: adC10post)))
      "purchase" = .ok 7 ∧
    extract_action_value (.direct (.list
      (adC10pre ++ .dict [("action_type", JVal.str "purchase")] :: adC10post)))
      "purchase" = .ok 0 := by
  constructor
  · have h := (C10_first_match_wins "purchase" adC10pre adC10kvs adC10post
      (by decide) (by decide)).1
    rw [h]
    rfl
  · exact (C10_first_match_wins "purchase" adC10pre
      [("action_type", JVal.str "purchase")] adC10post
      (by decide) (by decide)).2 rfl

/-- C3 counterexample: the claim asserts every pipeline output row satisfies
`revenue > 0 → purchases ≥ 1`, including when the input has a revenue
column but no purchases column.  On exactly such an input (`exC3`, one row
with revenue 5), `_generate_missing_fields` runs after
`_validate_data_consistency` and fills `purchases = 0`, so the output row
has positive revenue and zero purchases. -/
theorem C3_counterexample_revenue_without_purchases :
    clean_and_normalize exC3 = .ok exC3out ∧
    (0, exC3row) ∈ exC3out.rows ∧
    cellGtNum (cellVal exC3out.cols "revenue" exC3row) 0 = true ∧
    cellVal exC3out.cols "purchases" exC3row = .num 0 := by
  refine ⟨by with_unfolding_all rfl, ?_, by rfl, by rfl⟩
  simp only [exC3out, exC3row]
  exact List.mem_singleton.mpr rfl

/-- C3 amended: the revenue-implies-purchase invariant holds for inputs
whose normalized table carries both a `purchases` and a `revenue` column,
provided the purchases column holds natural numbers once coerced and
null-filled (the canonical situation): every output row with
`revenue > 0` then has `purchases ≥ 1`.  When revenue is present but
purchases is absent, the field synthesizer sets `purchases = 0` after the
repair stage has already run, and the invariant can fail. -/
theorem C3_revenue_implies_purchases_when_both_present (t : Table)
    (hwf : WF t)
    (hp : (colIdx (normalize_column_names t).cols "purchases").isSome)
    (hr : (colIdx (normalize_column_names t).cols "revenue").isSome)
    (hnat : ColProp (handle_missing_values (clean_data_types
      (normalize_column_names t))) "purchases" NatNum)
    (out : Table) (h : clean_and_normalize t = .ok out) :
    ∀ r ∈ out.rows, cellGtNum (cellVal out.cols "revenue" r.2) 0 = true →
      ∃ n : ℕ, cellVal out.cols "purchases" r.2 = .num n ∧ 1 ≤ n := by
  obtain ⟨p4, p6, h4, h6, hsort⟩ := clean_and_normalize_decomp h
  have w1 : WF (normalize_column_names t) := WF_normalize hwf
  have w2 : WF (clean_data_types (normalize_column_names t)) :=
    WF_clean_data_types w1
  have w3 : WF (handle_missing_values (clean_data_types
      (normalize_column_names t))) := WF_handle_missing_values w2
  have w4 : WF p4 := WF_remove_duplicates h4 w3
  have hcolsp4 : p4.cols = (normalize_column_names t).cols := by
    rw [(remove_duplicates_ok h4).1, handle_missing_values_cols,
      clean_data_types_cols]
  have hp4p : (colIdx p4.cols "purchases").isSome := by rw [hcolsp4]; exact hp
  have hp4r : (colIdx p4.cols "revenue").isSome := by rw [hcolsp4]; exact hr
  have hnat4 : ColProp p4 "purchases" NatNum := ColProp_remove_duplicates h4 hnat
  have w5 : WF (fixClicksImpressions p4) := WF_fixClicksImpressions w4
  have hnatA : ColProp (fixClicksImpressions p4) "purchases" NatNum :=
    ColProp_fixClicksImpressions w4 (by decide) hnat4
  have w6 : WF (fixNegativeSpend (fixClicksImpressions p4)) :=
    WF_fixNegativeSpend w5
  have hColsB : (fixNegativeSpend (fixClicksImpressions p4)).cols = p4.cols := by
    rw [fixNegativeSpend_cols, fixClicksImpressions_cols]
  have hnatB : ColProp (fixNegativeSpend (fixClicksImpressions p4))
      "purchases" NatNum := ColProp_fixNegativeSpend w5 (by decide) hnatA
  have hbp : (colIdx (fixNegativeSpend (fixClicksImpressions p4)).cols
      "purchases").isSome := by rw [hColsB]; exact hp4p
  have hbr : (colIdx (fixNegativeSpend (fixClicksImpressions p4)).cols
      "revenue").isSome := by rw [hColsB]; exact hp4r
  have hinv : Col2Prop (validate_data_consistency p4) "revenue" "purchases"
      (fun rev p => cellGtNum rev 0 = true → ∃ n : ℕ, p = .num n ∧ 1 ≤ n) :=
    fixRevenuePurchases_inv w6 hbp hbr hnatB
  have w7 : WF (validate_data_consistency p4) :=
    WF_fixRevenuePurchases w6
  have hColsP5 : (validate_data_consistency p4).cols = p4.cols := by
    show (fixRevenuePurchases (fixNegativeSpend (fixClicksImpressions p4))).cols = _
    rw [fixRevenuePurchases_cols, hColsB]
  obtain ⟨t5, h5, hname⟩ := generate_decomp h6
  have s1 := genAccountId_shape (validate_data_consistency p4)
  have w8 := WF_of_shape s1 w7
  have hinv1 := Col2Prop_of_shape s1 w7 (by decide) (by decide) hinv
  have hX1p : (colIdx (genAccountId (validate_data_consistency p4)).cols
      "purchases").isSome := by
    rw [colIdx_of_shape s1 (by decide), hColsP5]; exact hp4p
  have hX1r : (colIdx (genAccountId (validate_data_consistency p4)).cols
      "revenue").isSome := by
    rw [colIdx_of_shape s1 (by decide), hColsP5]; exact hp4r
  have s2 := genCampaignId_shape (genAccountId (validate_data_consistency p4))
  have w9 := WF_of_shape s2 w8
  have hinv2 := Col2Prop_of_shape s2 w8 (by decide) (by decide) hinv1
  have hX2p : (colIdx (genCampaignId (genAccountId
      (validate_data_consistency p4))).cols "purchases").isSome := by
    rw [colIdx_of_shape s2 (by decide)]; exact hX1p
  have hX2r : (colIdx (genCampaignId (genAccountId
      (validate_data_consistency p4))).cols "revenue").isSome := by
    rw [colIdx_of_shape s2 (by decide)]; exact hX1r
  rw [genPurchases_of_present hX2p, genRevenue_of_present hX2r] at h5
  have s5 := genAdId_shape h5
  have w10 := WF_of_shape s5 w9
  have hinv5 := Col2Prop_of_shape s5 w9 (by decide) (by decide) hinv2
  have s6 := genAdName_shape hname
  have hinv6 := Col2Prop_of_shape s6 w10 (by decide) (by decide) hinv5
  exact Col2Prop_sort_and_reset hsort hinv6

/-- C3 witness: on a table that does carry both columns (`exC3b`, one row
with revenue 7 and purchases 0), the pipeline repairs purchases to 1,
satisfying the amended invariant at the output row. -/
theorem C3_witness :
    ∃ n : ℕ, cellVal exC3bOut.cols "purchases" exC3bRow = .num n ∧ 1 ≤ n := by
  have hnat : ColProp (handle_missing_values (clean_data_types
      (normalize_column_names exC3b))) "purchases" NatNum := by
    have hcomp : handle_missing_values (clean_data_types
        (normalize_column_names exC3b)) =
      { cols := ["campaign_name", "date", "purchases", "revenue"],
        rows := [(0, [Cell.str "A", Cell.date 20240101, Cell.num 0,
          Cell.num 7])] } := by with_unfolding_all rfl
    rw [hcomp]
    intro r hr
    simp only [List.mem_singleton] at hr
    subst hr
    exact ⟨0, by with_unfolding_all rfl⟩
  have h := C3_revenue_implies_purchases_when_both_present exC3b
    (by intro r hr; simp only [exC3b, List.mem_singleton] at hr; subst hr; rfl)
    (by with_unfolding_all rfl) (by with_unfolding_all rfl) hnat
    exC3bOut (by with_unfolding_all rfl)
  refine h (0, exC3bRow) ?_ (by rfl)
  simp only [exC3bOut, exC3bRow]
  exact List.mem_singleton.mpr rfl

/-- C6: for every raw input table the pipeline output satisfies, row-wise,
`spend ≥ 0` (when a spend column is present) and `clicks ≤ impressions`
(when both columns are present) — violations are repaired, never rejected;
and on the concrete repair scenario `{clicks: 120, impressions: 100,
spend: 50}` the pipeline plus KPI derivation yields `clicks = 100`,
`ctr = 1` and `cpc = 1/2`. -/
theorem C6_invariants_and_repair_scenario :
    (∀ (t out : Table), WF t → clean_and_normalize t = .ok out →
      ((colIdx out.cols "spend").isSome →
        ∀ r ∈ out.rows, ∃ q : ℚ,
          cellVal out.cols "spend" r.2 = .num q ∧ 0 ≤ q) ∧
      ((colIdx out.cols "clicks").isSome →
        (colIdx out.cols "impressions").isSome →
        ∀ r ∈ out.rows, ∃ qc qi : ℚ,
          cellVal out.cols "clicks" r.2 = .num qc ∧
          cellVal out.cols "impressions" r.2 = .num qi ∧ qc ≤ qi)) ∧
    ((clean_and_normalize exC6).bind calculate_all_kpis = .ok exC6kpi ∧
      cellVal exC6kpi.cols "clicks" exC6krow = .num 100 ∧
      cellVal exC6kpi.cols "ctr" exC6krow = .num 1 ∧
      cellVal exC6kpi.cols "cpc" exC6krow = .num (1/2)) := by
  constructor
  · intro t out hwf h
    obtain ⟨p4, p6, h4, h6, hsort⟩ := clean_and_normalize_decomp h
    have w1 : WF (normalize_column_names t) := WF_normalize hwf
    have w2 : WF (clean_data_types (normalize_column_names t)) :=
      WF_clean_data_types w1
    have w3 : WF (handle_missing_values (clean_data_types
        (normalize_column_names t))) := WF_handle_missing_values w2
    have w4 : WF p4 := WF_remove_duplicates h4 w3
    have w5 : WF (fixClicksImpressions p4) := WF_fixClicksImpressions w4
    have w6 : WF (fixNegativeSpend (fixClicksImpressions p4)) :=
      WF_fixNegativeSpend w5
    have w7 : WF (validate_data_consistency p4) := WF_fixRevenuePurchases w6
    have hcolsp4 : p4.cols = (normalize_column_names t).cols := by
      rw [(remove_duplicates_ok h4).1, handle_missing_values_cols,
        clean_data_types_cols]
    have hcolsc2 : (clean_data_types (normalize_column_names t)).cols =
        (normalize_column_names t).cols := clean_data_types_cols _
    have hColsP5 : (validate_data_consistency p4).cols = p4.cols := by
      show (fixRevenuePurchases (fixNegativeSpend
        (fixClicksImpressions p4))).cols = _
      rw [fixRevenuePurchases_cols, fixNegativeSpend_cols,
        fixClicksImpressions_cols]
    have hsortcols : out.cols = p6.cols := (sort_and_reset_ok_spec hsort).1
    have htrans : ∀ c : String, c ∉ genWritten →
        colIdx out.cols c = colIdx (normalize_column_names t).cols c := by
      intro c hnc
      rw [hsortcols, colIdx_generate_ne h6 hnc, hColsP5, hcolsp4]
    constructor
    · intro hs
      have hsn1 : (colIdx (normalize_column_names t).cols "spend").isSome := by
        rw [← htrans "spend" (by decide)]
        exact hs
      have hnumna := ColProp_clean_data_types_numNa w1 (by decide) hsn1
      have hisnum := ColProp_handle_missing_values_isNum w2 (by decide)
        (by rw [hcolsc2]; exact hsn1) hnumna
      have hnum4 := ColProp_remove_duplicates h4 hisnum
      have hnumA := ColProp_fixClicksImpressions w4 (by decide) hnum4
      have hsA : (colIdx (fixClicksImpressions p4).cols "spend").isSome := by
        rw [fixClicksImpressions_cols, hcolsp4]
        exact hsn1
      have hB := fixNegativeSpend_nonneg w5 hsA hnumA
      have hC : ColProp (validate_data_consistency p4) "spend" IsNumNN :=
        ColProp_fixRevenuePurchases w6 (by decide) hB
      have hP6 := ColProp_generate_ne w7 h6 (by decide) hC
      have hout := ColProp_sort_and_reset hsort hP6
      exact fun r hr => hout r hr
    · intro hc hi
      have hcn1 : (colIdx (normalize_column_names t).cols "clicks").isSome := by
        rw [← htrans "clicks" (by decide)]
        exact hc
      have hin1 : (colIdx (normalize_column_names t).cols "impressions").isSome := by
        rw [← htrans "impressions" (by decide)]
        exact hi
      have hcnumna := ColProp_clean_data_types_numNa w1 (by decide) hcn1
      have hinumna := ColProp_clean_data_types_numNa w1 (by decide) hin1
      have hcnum := ColProp_handle_missing_values_isNum w2 (by decide)
        (by rw [hcolsc2]; exact hcn1) hcnumna
      have hinum := ColProp_handle_missing_values_isNum w2 (by decide)
        (by rw [hcolsc2]; exact hin1) hinumna
      have hcnum4 := ColProp_remove_duplicates h4 hcnum
      have hinum4 := ColProp_remove_duplicates h4 hinum
      have hcp4 : (colIdx p4.cols "clicks").isSome := by
        rw [hcolsp4]; exact hcn1
      have hip4 : (colIdx p4.cols "impressions").isSome := by
        rw [hcolsp4]; exact hin1
      have hle := fixClicksImpressions_le w4 hcp4 hip4 hcnum4 hinum4
      have hle2 := Col2Prop_fixNegativeSpend w5 (by decide) (by decide) hle
      have hle3 : Col2Prop (validate_data_consistency p4) "clicks" "impressions"
          (fun cc ic => ∃ qc qi : ℚ, cc = .num qc ∧ ic = .num qi ∧ qc ≤ qi) :=
        Col2Prop_fixRevenuePurchases w6 (by decide) (by decide) hle2
      have hle4 := Col2Prop_generate_ne w7 h6 (by decide) (by decide) hle3
      have hout := Col2Prop_sort_and_reset hsort hle4
      exact fun r hr => hout r hr
  · exact ⟨by with_unfolding_all rfl, by rfl, by rfl, by rfl⟩

/-- C6 witness: on the concrete scenario table the invariants hold at the
output row. -/
theorem C6_witness :
    ∃ q : ℚ, cellVal exC6out.cols "spend" exC6row = .num q ∧ 0 ≤ q := by
  have hwf : WF exC6 := by
    intro r hr
    simp only [exC6, List.mem_singleton] at hr
    subst hr
    rfl
  have hok : clean_and_normalize exC6 = .ok exC6out := by with_unfolding_all rfl
  have h := (C6_invariants_and_repair_scenario.1 exC6 exC6out hwf hok).1 (by rfl)
  refine h (0, exC6row) ?_
  simp only [exC6out, exC6row]
  exact List.mem_singleton.mpr rfl

/-! ### KPI-engine lemmas: the write-set discipline of `calculate_all_kpis` -/

theorem except_ok_bind {α β : Type} (a : α) (f : α → Except PErr β) :
    (Except.ok a >>= f) = f a := rfl

theorem preservesOutside_refl (t : Table) (ws : List String) :
    PreservesOutside t t ws :=
  ⟨id, (List.map_id t.rows).symm, fun _ _ => rfl, fun _ _ _ _ => rfl⟩

theorem preservesOutside_mono {t u : Table} {ws ws2 : List String}
    (hsub : ∀ c ∈ ws, c ∈ ws2) (h : PreservesOutside t u ws) :
    PreservesOutside t u ws2 := by
  obtain ⟨Φ, hrows, hcols, hcells⟩ := h
  exact ⟨Φ, hrows, fun c hc => hcols c (fun hm => hc (hsub c hm)),
    fun r hr c hc => hcells r hr c (fun hm => hc (hsub c hm))⟩

theorem preservesOutside_comp {t u v : Table} {ws : List String}
    (h1 : PreservesOutside t u ws) (h2 : PreservesOutside u v ws) :
    PreservesOutside t v ws := by
  obtain ⟨Φ1, hr1, hc1, he1⟩ := h1
  obtain ⟨Φ2, hr2, hc2, he2⟩ := h2
  refine ⟨Φ2 ∘ Φ1, ?_, fun c hc => (hc2 c hc).trans (hc1 c hc), ?_⟩
  · rw [hr2, hr1, List.map_map]
  · intro r hr c hc
    have hm : Φ1 r ∈ u.rows := by
      rw [hr1]
      exact List.mem_map_of_mem Φ1 hr
    show cellVal v.cols c (Φ2 (Φ1 r)).2 = cellVal t.cols c r.2
    rw [he2 (Φ1 r) hm c hc, he1 r hr c hc]

theorem preservesOutside_assign {t : Table} (hwf : WF t) (w : String)
    (f : ℕ × List Cell → Cell) {ws : List String} (hw : w ∈ ws) :
    PreservesOutside t (assignCol t w f) ws := by
  refine ⟨assignRow t w f, assignCol_rows t w f, ?_, ?_⟩
  · intro c hc
    refine colIdx_assignCol_ne t w f ?_
    intro e
    exact hc (by rw [e]; exact hw)
  · intro r hr c hc
    refine cellVal_assignRow_ne ?_ (hwf r hr)
    intro e
    exact hc (by rw [e]; exact hw)

theorem colIdx_of_preserves {t u : Table} {ws : List String}
    (h : PreservesOutside t u ws) {c : String} (hc : c ∉ ws) :
    colIdx u.cols c = colIdx t.cols c := by
  obtain ⟨Φ, _, hcols, _⟩ := h
  exact hcols c hc

theorem ColProp_of_preserves {t u : Table} {ws : List String}
    (hpo : PreservesOutside t u ws) {c : String} (h1 : c ∉ ws)
    {P : Cell → Prop} (hp : ColProp t c P) : ColProp u c P := by
  obtain ⟨Φ, hrows, _, hcells⟩ := hpo
  intro r hr
  rw [hrows] at hr
  obtain ⟨r0, h0, rfl⟩ := List.mem_map.mp hr
  rw [hcells r0 h0 c h1]
  exact hp r0 h0

theorem Col3Prop_of_preserves {t u : Table} {ws : List String}
    (hpo : PreservesOutside t u ws) {c1 c2 c3 : String}
    (h1 : c1 ∉ ws) (h2 : c2 ∉ ws) (h3 : c3 ∉ ws)
    {P : Cell → Cell → Cell → Prop} (hp : Col3Prop t c1 c2 c3 P) :
    Col3Prop u c1 c2 c3 P := by
  obtain ⟨Φ, hrows, _, hcells⟩ := hpo
  intro r hr
  rw [hrows] at hr
  obtain ⟨r0, h0, rfl⟩ := List.mem_map.mp hr
  rw [hcells r0 h0 c1 h1, hcells r0 h0 c2 h2, hcells r0 h0 c3 h3]
  exact hp r0 h0

theorem calcRatio_ok_eq {t : Table} {target num den : String} {s : ℚ}
    (hd : (colIdx t.cols den).isSome) (hn : (colIdx t.cols num).isSome) :
    calcRatio t target num den s = .ok (assignCol t target (fun r =>
      kpiCell (cellVal t.cols num r.2) (cellVal t.cols den r.2) s)) := by
  obtain ⟨di, hdi⟩ := Option.isSome_iff_exists.mp hd
  obtain ⟨ni, hni⟩ := Option.isSome_iff_exists.mp hn
  have hfun : (fun r : ℕ × List Cell =>
      kpiCell (cellVal t.cols num r.2) (getAt r.2 di) s) = (fun r =>
      kpiCell (cellVal t.cols num r.2) (cellVal t.cols den r.2) s) := by
    funext r
    unfold cellVal
    rw [hdi]
  unfold calcRatio getColE
  simp only [hdi, hni]
  exact congrArg Except.ok (congrArg (assignCol t target) hfun)

theorem calcRatio_ok_shape {t v : Table} {target num den : String} {s : ℚ}
    (h : calcRatio t target num den s = .ok v) :
    ∃ f, v = assignCol t target f := by
  unfold calcRatio at h
  obtain ⟨di, hdi, h⟩ := except_bind_ok h
  obtain ⟨ni, hni, h⟩ := except_bind_ok h
  refine ⟨fun r => kpiCell (cellVal t.cols num r.2) (getAt r.2 di) s, ?_⟩
  have h2 : Except.ok (assignCol t target fun r =>
      kpiCell (cellVal t.cols num r.2) (getAt r.2 di) s) = Except.ok v := h
  exact (Except.ok.inj h2).symm

theorem calc_frequency_ok_eq {t : Table}
    (hc : (colIdx t.cols "clicks").isSome)
    (hi : (colIdx t.cols "impressions").isSome) :
    calc_frequency t = .ok (assignCol t "frequency" (fun r =>
      freqCell (cellVal t.cols "clicks" r.2)
        (cellVal t.cols "impressions" r.2))) := by
  obtain ⟨ci, hci⟩ := Option.isSome_iff_exists.mp hc
  obtain ⟨ii, hii⟩ := Option.isSome_iff_exists.mp hi
  unfold calc_frequency getColE
  simp only [hci, hii]
  rfl

theorem Col3Prop_calcRatio {t v : Table} {target num den : String} {s : ℚ}
    (hwf : WF t) (hd : (colIdx t.cols den).isSome)
    (hn : (colIdx t.cols num).isSome)
    (h : calcRatio t target num den s = .ok v)
    (htn : target ≠ num) (htd : target ≠ den) :
    Col3Prop v target num den (fun tv nv dv => tv = kpiCell nv dv s) := by
  rw [calcRatio_ok_eq hd hn] at h
  have hv := Except.ok.inj h
  subst hv
  intro r hr
  rw [assignCol_rows] at hr
  obtain ⟨r0, h0, rfl⟩ := List.mem_map.mp hr
  show cellVal _ target _ = kpiCell (cellVal _ num _) (cellVal _ den _) s
  rw [cellVal_assignRow_self (hwf r0 h0),
    cellVal_assignRow_ne (Ne.symm htn) (hwf r0 h0),
    cellVal_assignRow_ne (Ne.symm htd) (hwf r0 h0)]

theorem Col3Prop_calc_frequency {t v : Table} (hwf : WF t)
    (hc : (colIdx t.cols "clicks").isSome)
    (hi : (colIdx t.cols "impressions").isSome)
    (h : calc_frequency t = .ok v) :
    Col3Prop v "frequency" "clicks" "impressions"
      (fun tv cv iv => tv = freqCell cv iv) := by
  rw [calc_frequency_ok_eq hc hi] at h
  have hv := Except.ok.inj h
  subst hv
  intro r hr
  rw [assignCol_rows] at hr
  obtain ⟨r0, h0, rfl⟩ := List.mem_map.mp hr
  show cellVal _ "frequency" _ = freqCell (cellVal _ "clicks" _)
    (cellVal _ "impressions" _)
  rw [cellVal_assignRow_self (hwf r0 h0),
    cellVal_assignRow_ne (show "clicks" ≠ "frequency" by decide) (hwf r0 h0),
    cellVal_assignRow_ne (show "impressions" ≠ "frequency" by decide)
      (hwf r0 h0)]

theorem ifCalc_shape {t u : Table} {c : Prop} [Decidable c]
    {target num den : String} {s : ℚ}
    (h : (if c then calcRatio t target num den s else pure t) = .ok u) :
    u = t ∨ ∃ f, u = assignCol t target f := by
  split_ifs at h with hc
  · exact .inr (calcRatio_ok_shape h)
  · exact .inl (Except.ok.inj h).symm

theorem ifCalc2_shape {t u : Table} {c : Prop} [Decidable c]
    {t1 n1 d1 : String} {s1 : ℚ} {t2 n2 d2 : String} {s2 : ℚ}
    (h : (if c then do
        let v ← calcRatio t t1 n1 d1 s1
        calcRatio v t2 n2 d2 s2
      else pure t) = .ok u) :
    u = t ∨ ∃ v f g, v = assignCol t t1 f ∧ u = assignCol v t2 g := by
  split_ifs at h with hc
  · obtain ⟨v, hv, h2⟩ := except_bind_ok h
    obtain ⟨f, hf⟩ := calcRatio_ok_shape hv
    obtain ⟨g, hg⟩ := calcRatio_ok_shape h2
    exact .inr ⟨v, f, g, hf, hg⟩
  · exact .inl (Except.ok.inj h).symm

theorem WF_of_shape1 {t u : Table} {w : String}
    (hwf : WF t) (h : u = t ∨ ∃ f, u = assignCol t w f) : WF u := by
  rcases h with rfl | ⟨f, rfl⟩
  · exact hwf
  · exact WF_assignCol w f hwf

theorem WF_of_shape2 {t u : Table} {w1 w2 : String} (hwf : WF t)
    (h : u = t ∨ ∃ v f g, v = assignCol t w1 f ∧ u = assignCol v w2 g) :
    WF u := by
  rcases h with rfl | ⟨v, f, g, rfl, rfl⟩
  · exact hwf
  · exact WF_assignCol w2 g (WF_assignCol w1 f hwf)

theorem preservesOutside_of_shape1 {t u : Table} {w : String}
    {ws : List String} (hwf : WF t)
    (h : u = t ∨ ∃ f, u = assignCol t w f) (hm : w ∈ ws) :
    PreservesOutside t u ws := by
  rcases h with rfl | ⟨f, rfl⟩
  · exact preservesOutside_refl _ _
  · exact preservesOutside_assign hwf w f hm

theorem preservesOutside_of_shape2 {t u : Table} {w1 w2 : String}
    {ws : List String} (hwf : WF t)
    (h : u = t ∨ ∃ v f g, v = assignCol t w1 f ∧ u = assignCol v w2 g)
    (hm1 : w1 ∈ ws) (hm2 : w2 ∈ ws) : PreservesOutside t u ws := by
  rcases h with rfl | ⟨v, f, g, rfl, rfl⟩
  · exact preservesOutside_refl _ _
  · exact preservesOutside_comp (preservesOutside_assign hwf w1 f hm1)
      (preservesOutside_assign (WF_assignCol w1 f hwf) w2 g hm2)

theorem if_total {α : Type} {c : Prop} [Decidable c] {x : Except PErr α}
    {a : α} (h : c → ∃ u, x = .ok u) :
    ∃ u, (if c then x else pure a) = .ok u := by
  split_ifs with hc
  · exact h hc
  · exact ⟨a, rfl⟩

theorem bind_total {α β : Type} {x : Except PErr α} {k : α → Except PErr β}
    (hx : ∃ a, x = .ok a) (h : ∀ a, x = .ok a → ∃ b, k a = .ok b) :
    ∃ b, (x >>= k) = .ok b := by
  obtain ⟨a, ha⟩ := hx
  obtain ⟨b, hb⟩ := h a ha
  refine ⟨b, ?_⟩
  rw [ha, except_ok_bind]
  exact hb

theorem bind_if_total {α β : Type} {c : Prop} [Decidable c]
    {x : Except PErr α} {a : α} {k : α → Except PErr β}
    (h1 : c → ∃ u, x = .ok u)
    (h2 : ∀ u, (if c then x else pure a) = .ok u → ∃ b, k u = .ok b) :
    ∃ b, ((if c then x else pure a) >>= k) = .ok b :=
  bind_total (if_total h1) h2

theorem kpiCell_num (n d s : ℚ) :
    kpiCell (.num n) (.num d) s = .num (if 0 < d then n / d * s else 0) := by
  show (if 0 < d then Cell.num (n / d * s) else Cell.num 0) =
    Cell.num (if 0 < d then n / d * s else 0)
  split_ifs with h
  · rfl
  · rfl

theorem kpiCell_num_one (n d : ℚ) :
    kpiCell (.num n) (.num d) 1 = .num (if 0 < d then n / d else 0) := by
  rw [kpiCell_num, mul_one]

theorem freqCell_num (c i : ℚ) :
    freqCell (.num c) (.num i) = .num (if 0 < c then i / c else i) := by
  show (if 0 < c then cellDiv (Cell.num i) (Cell.num c)
      else Cell.num (i / 1)) = Cell.num (if 0 < c then i / c else i)
  split_ifs with h
  · show (if c = 0 then Cell.na else Cell.num (i / c)) = Cell.num (i / c)
    rw [if_neg (ne_of_gt h)]
  · rw [div_one]

/-- With `clicks`, `spend` and `impressions` present, the KPI engine never
raises: every `getColE` lookup it performs succeeds. -/
theorem calculate_all_kpis_isOk (t : Table)
    (hc : (colIdx t.cols "clicks").isSome)
    (hs : (colIdx t.cols "spend").isSome)
    (hi : (colIdx t.cols "impressions").isSome) :
    ∃ out, calculate_all_kpis t = .ok out := by
  unfold calculate_all_kpis
  refine bind_total ⟨_, calcRatio_ok_eq hc hs⟩ ?_
  intro t1 ht1
  obtain ⟨f1, e1⟩ := calcRatio_ok_shape ht1
  have hc1 : (colIdx t1.cols "clicks").isSome := by
    rw [e1, colIdx_assignCol_ne _ _ _ (by decide)]; exact hc
  have hs1 : (colIdx t1.cols "spend").isSome := by
    rw [e1, colIdx_assignCol_ne _ _ _ (by decide)]; exact hs
  have hi1 : (colIdx t1.cols "impressions").isSome := by
    rw [e1, colIdx_assignCol_ne _ _ _ (by decide)]; exact hi
  refine bind_total ⟨_, calcRatio_ok_eq hi1 hs1⟩ ?_
  intro t2 ht2
  obtain ⟨f2, e2⟩ := calcRatio_ok_shape ht2
  have hc2 : (colIdx t2.cols "clicks").isSome := by
    rw [e2, colIdx_assignCol_ne _ _ _ (by decide)]; exact hc1
  have hs2 : (colIdx t2.cols "spend").isSome := by
    rw [e2, colIdx_assignCol_ne _ _ _ (by decide)]; exact hs1
  have hi2 : (colIdx t2.cols "impressions").isSome := by
    rw [e2, colIdx_assignCol_ne _ _ _ (by decide)]; exact hi1
  refine bind_total ⟨_, calcRatio_ok_eq hi2 hc2⟩ ?_
  intro t3 ht3
  obtain ⟨f3, e3⟩ := calcRatio_ok_shape ht3
  have hc3 : (colIdx t3.cols "clicks").isSome := by
    rw [e3, colIdx_assignCol_ne _ _ _ (by decide)]; exact hc2
  have hs3 : (colIdx t3.cols "spend").isSome := by
    rw [e3, colIdx_assignCol_ne _ _ _ (by decide)]; exact hs2
  have hi3 : (colIdx t3.cols "impressions").isSome := by
    rw [e3, colIdx_assignCol_ne _ _ _ (by decide)]; exact hi2
  beta_reduce
  refine bind_if_total ?_ ?_
  · intro hp3
    refine bind_total ⟨_, calcRatio_ok_eq hp3 hs3⟩ ?_
    intro v hv
    obtain ⟨fv, ev⟩ := calcRatio_ok_shape hv
    have hpv : (colIdx v.cols "purchases").isSome := by
      rw [ev, colIdx_assignCol_ne _ _ _ (by decide)]; exact hp3
    have hcv : (colIdx v.cols "clicks").isSome := by
      rw [ev, colIdx_assignCol_ne _ _ _ (by decide)]; exact hc3
    exact ⟨_, calcRatio_ok_eq hcv hpv⟩
  intro t4 ht4
  have S4 := ifCalc2_shape ht4
  have hc4 : (colIdx t4.cols "clicks").isSome := by
    rcases S4 with rfl | ⟨v, f, g, rfl, rfl⟩
    · exact hc3
    · rw [colIdx_assignCol_ne _ _ _ (by decide),
        colIdx_assignCol_ne _ _ _ (by decide)]
      exact hc3
  have hs4 : (colIdx t4.cols "spend").isSome := by
    rcases S4 with rfl | ⟨v, f, g, rfl, rfl⟩
    · exact hs3
    · rw [colIdx_assignCol_ne _ _ _ (by decide),
        colIdx_assignCol_ne _ _ _ (by decide)]
      exact hs3
  have hi4 : (colIdx t4.cols "impressions").isSome := by
    rcases S4 with rfl | ⟨v, f, g, rfl, rfl⟩
    · exact hi3
    · rw [colIdx_assignCol_ne _ _ _ (by decide),
        colIdx_assignCol_ne _ _ _ (by decide)]
      exact hi3
  beta_reduce
  refine bind_if_total ?_ ?_
  · intro hr4
    exact ⟨_, calcRatio_ok_eq hs4 hr4⟩
  intro t5 ht5
  have S5 := ifCalc_shape ht5
  have hc5 : (colIdx t5.cols "clicks").isSome := by
    rcases S5 with rfl | ⟨f, rfl⟩
    · exact hc4
    · rw [colIdx_assignCol_ne _ _ _ (by decide)]; exact hc4
  have hs5 : (colIdx t5.cols "spend").isSome := by
    rcases S5 with rfl | ⟨f, rfl⟩
    · exact hs4
    · rw [colIdx_assignCol_ne _ _ _ (by decide)]; exact hs4
  have hi5 : (colIdx t5.cols "impressions").isSome := by
    rcases S5 with rfl | ⟨f, rfl⟩
    · exact hi4
    · rw [colIdx_assignCol_ne _ _ _ (by decide)]; exact hi4
  refine bind_total ⟨_, calc_frequency_ok_eq hc5 hi5⟩ ?_
  intro t6 ht6
  have e6 := Except.ok.inj ((calc_frequency_ok_eq hc5 hi5).symm.trans ht6)
  have hc6 : (colIdx t6.cols "clicks").isSome := by
    rw [← e6, colIdx_assignCol_ne _ _ _ (by decide)]; exact hc5
  have hs6 : (colIdx t6.cols "spend").isSome := by
    rw [← e6, colIdx_assignCol_ne _ _ _ (by decide)]; exact hs5
  have hi6 : (colIdx t6.cols "impressions").isSome := by
    rw [← e6, colIdx_assignCol_ne _ _ _ (by decide)]; exact hi5
  refine bind_total ⟨_, calcRatio_ok_eq hi6 hs6⟩ ?_
  intro t7 ht7
  obtain ⟨f7, e7⟩ := calcRatio_ok_shape ht7
  have hc7 : (colIdx t7.cols "clicks").isSome := by
    rw [e7, colIdx_assignCol_ne _ _ _ (by decide)]; exact hc6
  have hi7 : (colIdx t7.cols "impressions").isSome := by
    rw [e7, colIdx_assignCol_ne _ _ _ (by decide)]; exact hi6
  beta_reduce
  refine bind_if_total ?_ ?_
  · intro hr7
    refine bind_total ⟨_, calcRatio_ok_eq hi7 hr7⟩ ?_
    intro v8 hv8
    obtain ⟨fv8, ev8⟩ := calcRatio_ok_shape hv8
    have hrv8 : (colIdx v8.cols "revenue").isSome := by
      rw [ev8, colIdx_assignCol_ne _ _ _ (by decide)]; exact hr7
    have hcv8 : (colIdx v8.cols "clicks").isSome := by
      rw [ev8, colIdx_assignCol_ne _ _ _ (by decide)]; exact hc7
    exact ⟨_, calcRatio_ok_eq hcv8 hrv8⟩
  intro t8 ht8
  have S8 := ifCalc2_shape ht8
  have hi8 : (colIdx t8.cols "impressions").isSome := by
    rcases S8 with rfl | ⟨v, f, g, rfl, rfl⟩
    · exact hi7
    · rw [colIdx_assignCol_ne _ _ _ (by decide),
        colIdx_assignCol_ne _ _ _ (by decide)]
      exact hi7
  beta_reduce
  refine bind_if_total ?_ ?_
  · intro hp8
    exact ⟨_, calcRatio_ok_eq hi8 hp8⟩
  intro t9 ht9
  beta_reduce
  refine if_total ?_
  intro hcond
  exact ⟨_, calcRatio_ok_eq hcond.2 hcond.1⟩

theorem kpiStepConv_shape {t u : Table} (h : kpiStepConv t = .ok u) :
    u = t ∨ ∃ v f g, v = assignCol t "cpa" f ∧ u = assignCol v "cvr" g := by
  unfold kpiStepConv at h
  exact ifCalc2_shape h

theorem kpiStepRoas_shape {t u : Table} (h : kpiStepRoas t = .ok u) :
    u = t ∨ ∃ f, u = assignCol t "roas" f := by
  unfold kpiStepRoas at h
  exact ifCalc_shape h

theorem kpiStepRpiRpc_shape {t u : Table} (h : kpiStepRpiRpc t = .ok u) :
    u = t ∨ ∃ v f g, v = assignCol t "revenue_per_impression" f ∧
      u = assignCol v "revenue_per_click" g := by
  unfold kpiStepRpiRpc at h
  exact ifCalc2_shape h

theorem kpiStepPurchaseRate_shape {t u : Table}
    (h : kpiStepPurchaseRate t = .ok u) :
    u = t ∨ ∃ f, u = assignCol t "purchase_rate" f := by
  unfold kpiStepPurchaseRate at h
  exact ifCalc_shape h

theorem kpiStepAov_shape {t u : Table} (h : kpiStepAov t = .ok u) :
    u = t ∨ ∃ f, u = assignCol t "aov" f := by
  unfold kpiStepAov at h
  exact ifCalc_shape h

/-- Full dissection of a successful `calculate_all_kpis` run: the output is
well-formed, only KPI target columns are written (positions and values of
all other columns are unchanged row-wise), and every KPI column satisfies
its zero-guarded defining equation against the output's own base columns. -/
theorem calcKpis_master {t out : Table} (hwf : WF t)
    (hc : (colIdx t.cols "clicks").isSome)
    (hs : (colIdx t.cols "spend").isSome)
    (hi : (colIdx t.cols "impressions").isSome)
    (hok : calculate_all_kpis t = .ok out) :
    WF out ∧ PreservesOutside t out kpiTargets ∧
      Col3Prop out "cpc" "spend" "clicks"
        (fun tv nv dv => tv = kpiCell nv dv 1) ∧
      Col3Prop out "cpm" "spend" "impressions"
        (fun tv nv dv => tv = kpiCell nv dv 1000) ∧
      Col3Prop out "ctr" "clicks" "impressions"
        (fun tv nv dv => tv = kpiCell nv dv 1) ∧
      Col3Prop out "frequency" "clicks" "impressions"
        (fun tv cv iv => tv = freqCell cv iv) ∧
      Col3Prop out "cost_per_impression" "spend" "impressions"
        (fun tv nv dv => tv = kpiCell nv dv 1) ∧
      ((colIdx t.cols "purchases").isSome →
        Col3Prop out "cpa" "spend" "purchases"
          (fun tv nv dv => tv = kpiCell nv dv 1) ∧
        Col3Prop out "cvr" "purchases" "clicks"
          (fun tv nv dv => tv = kpiCell nv dv 1) ∧
        Col3Prop out "purchase_rate" "purchases" "impressions"
          (fun tv nv dv => tv = kpiCell nv dv 1)) ∧
      ((colIdx t.cols "revenue").isSome →
        Col3Prop out "roas" "revenue" "spend"
          (fun tv nv dv => tv = kpiCell nv dv 1) ∧
        Col3Prop out "revenue_per_impression" "revenue" "impressions"
          (fun tv nv dv => tv = kpiCell nv dv 1) ∧
        Col3Prop out "revenue_per_click" "revenue" "clicks"
          (fun tv nv dv => tv = kpiCell nv dv 1)) ∧
      ((colIdx t.cols "revenue").isSome → (colIdx t.cols "purchases").isSome →
        Col3Prop out "aov" "revenue" "purchases"
          (fun tv nv dv => tv = kpiCell nv dv 1)) := by
  unfold calculate_all_kpis at hok
  obtain ⟨t1, h1, hok⟩ := except_bind_ok hok
  obtain ⟨t2, h2, hok⟩ := except_bind_ok hok
  obtain ⟨t3, h3, hok⟩ := except_bind_ok hok
  obtain ⟨t4, h4, hok⟩ := except_bind_ok hok
  obtain ⟨t5, h5, hok⟩ := except_bind_ok hok
  obtain ⟨t6, h6, hok⟩ := except_bind_ok hok
  obtain ⟨t7, h7, hok⟩ := except_bind_ok hok
  obtain ⟨t8, h8, hok⟩ := except_bind_ok hok
  obtain ⟨t9, h9, hok⟩ := except_bind_ok hok
  have e1 := Except.ok.inj ((calcRatio_ok_eq hc hs).symm.trans h1)
  have W1 : WF t1 := by rw [← e1]; exact WF_assignCol _ _ hwf
  have P1 : PreservesOutside t t1 kpiTargets := by
    rw [← e1]; exact preservesOutside_assign hwf _ _ (by decide)
  have hc1 : (colIdx t1.cols "clicks").isSome := by
    rw [colIdx_of_preserves P1 (by decide)]; exact hc
  have hs1 : (colIdx t1.cols "spend").isSome := by
    rw [colIdx_of_preserves P1 (by decide)]; exact hs
  have hi1 : (colIdx t1.cols "impressions").isSome := by
    rw [colIdx_of_preserves P1 (by decide)]; exact hi
  have Ecpc : Col3Prop t1 "cpc" "spend" "clicks"
      (fun tv nv dv => tv = kpiCell nv dv 1) :=
    Col3Prop_calcRatio hwf hc hs h1 (by decide) (by decide)
  have e2 := Except.ok.inj ((calcRatio_ok_eq hi1 hs1).symm.trans h2)
  have W2 : WF t2 := by rw [← e2]; exact WF_assignCol _ _ W1
  have P2 : PreservesOutside t t2 kpiTargets :=
    preservesOutside_comp P1 (by
      rw [← e2]; exact preservesOutside_assign W1 _ _ (by decide))
  have hc2 : (colIdx t2.cols "clicks").isSome := by
    rw [colIdx_of_preserves P2 (by decide)]; exact hc
  have hs2 : (colIdx t2.cols "spend").isSome := by
    rw [colIdx_of_preserves P2 (by decide)]; exact hs
  have hi2 : (colIdx t2.cols "impressions").isSome := by
    rw [colIdx_of_preserves P2 (by decide)]; exact hi
  have Ecpm : Col3Prop t2 "cpm" "spend" "impressions"
      (fun tv nv dv => tv = kpiCell nv dv 1000) :=
    Col3Prop_calcRatio W1 hi1 hs1 h2 (by decide) (by decide)
  have e3 := Except.ok.inj ((calcRatio_ok_eq hi2 hc2).symm.trans h3)
  have W3 : WF t3 := by rw [← e3]; exact WF_assignCol _ _ W2
  have P3 : PreservesOutside t t3 kpiTargets :=
    preservesOutside_comp P2 (by
      rw [← e3]; exact preservesOutside_assign W2 _ _ (by decide))
  have hc3 : (colIdx t3.cols "clicks").isSome := by
    rw [colIdx_of_preserves P3 (by decide)]; exact hc
  have hs3 : (colIdx t3.cols "spend").isSome := by
    rw [colIdx_of_preserves P3 (by decide)]; exact hs
  have hi3 : (colIdx t3.cols "impressions").isSome := by
    rw [colIdx_of_preserves P3 (by decide)]; exact hi
  have Ectr : Col3Prop t3 "ctr" "clicks" "impressions"
      (fun tv nv dv => tv = kpiCell nv dv 1) :=
    Col3Prop_calcRatio W2 hi2 hc2 h3 (by decide) (by decide)
  have S4 := kpiStepConv_shape h4
  have W4 : WF t4 := WF_of_shape2 W3 S4
  have P4 : PreservesOutside t t4 kpiTargets :=
    preservesOutside_comp P3
      (preservesOutside_of_shape2 W3 S4 (by decide) (by decide))
  have hc4 : (colIdx t4.cols "clicks").isSome := by
    rw [colIdx_of_preserves P4 (by decide)]; exact hc
  have hs4 : (colIdx t4.cols "spend").isSome := by
    rw [colIdx_of_preserves P4 (by decide)]; exact hs
  have hi4 : (colIdx t4.cols "impressions").isSome := by
    rw [colIdx_of_preserves P4 (by decide)]; exact hi
  have S5 := kpiStepRoas_shape h5
  have W5 : WF t5 := WF_of_shape1 W4 S5
  have P5 : PreservesOutside t t5 kpiTargets :=
    preservesOutside_comp P4 (preservesOutside_of_shape1 W4 S5 (by decide))
  have hc5 : (colIdx t5.cols "clicks").isSome := by
    rw [colIdx_of_preserves P5 (by decide)]; exact hc
  have hi5 : (colIdx t5.cols "impressions").isSome := by
    rw [colIdx_of_preserves P5 (by decide)]; exact hi
  have e6 := Except.ok.inj ((calc_frequency_ok_eq hc5 hi5).symm.trans h6)
  have W6 : WF t6 := by rw [← e6]; exact WF_assignCol _ _ W5
  have P6 : PreservesOutside t t6 kpiTargets :=
    preservesOutside_comp P5 (by
      rw [← e6]; exact preservesOutside_assign W5 _ _ (by decide))
  have hs6 : (colIdx t6.cols "spend").isSome := by
    rw [colIdx_of_preserves P6 (by decide)]; exact hs
  have hi6 : (colIdx t6.cols "impressions").isSome := by
    rw [colIdx_of_preserves P6 (by decide)]; exact hi
  have Efreq : Col3Prop t6 "frequency" "clicks" "impressions"
      (fun tv cv iv => tv = freqCell cv iv) :=
    Col3Prop_calc_frequency W5 hc5 hi5 h6
  have e7 := Except.ok.inj ((calcRatio_ok_eq hi6 hs6).symm.trans h7)
  have W7 : WF t7 := by rw [← e7]; exact WF_assignCol _ _ W6
  have P7 : PreservesOutside t t7 kpiTargets :=
    preservesOutside_comp P6 (by
      rw [← e7]; exact preservesOutside_assign W6 _ _ (by decide))
  have hc7 : (colIdx t7.cols "clicks").isSome := by
    rw [colIdx_of_preserves P7 (by decide)]; exact hc
  have hi7 : (colIdx t7.cols "impressions").isSome := by
    rw [colIdx_of_preserves P7 (by decide)]; exact hi
  have Ecpi : Col3Prop t7 "cost_per_impression" "spend" "impressions"
      (fun tv nv dv => tv = kpiCell nv dv 1) :=
    Col3Prop_calcRatio W6 hi6 hs6 h7 (by decide) (by decide)
  have S8 := kpiStepRpiRpc_shape h8
  have W8 : WF t8 := WF_of_shape2 W7 S8
  have P8 : PreservesOutside t t8 kpiTargets :=
    preservesOutside_comp P7
      (preservesOutside_of_shape2 W7 S8 (by decide) (by decide))
  have hi8 : (colIdx t8.cols "impressions").isSome := by
    rw [colIdx_of_preserves P8 (by decide)]; exact hi
  have S9 := kpiStepPurchaseRate_shape h9
  have W9 : WF t9 := WF_of_shape1 W8 S9
  have P9 : PreservesOutside t t9 kpiTargets :=
    preservesOutside_comp P8 (preservesOutside_of_shape1 W8 S9 (by decide))
  have S10 := kpiStepAov_shape hok
  have Wout : WF out := WF_of_shape1 W9 S10
  have Pout : PreservesOutside t out kpiTargets :=
    preservesOutside_comp P9 (preservesOutside_of_shape1 W9 S10 (by decide))
  have Q9 : PreservesOutside t9 out ["aov"] :=
    preservesOutside_of_shape1 W9 S10 (by decide)
  have Q8 : PreservesOutside t8 out ["purchase_rate", "aov"] :=
    preservesOutside_comp (preservesOutside_of_shape1 W8 S9 (by decide))
      (preservesOutside_mono (by decide) Q9)
  have Q7 : PreservesOutside t7 out ["revenue_per_impression",
      "revenue_per_click", "purchase_rate", "aov"] :=
    preservesOutside_comp
      (preservesOutside_of_shape2 W7 S8 (by decide) (by decide))
      (preservesOutside_mono (by decide) Q8)
  have Q6 : PreservesOutside t6 out ["cost_per_impression",
      "revenue_per_impression", "revenue_per_click", "purchase_rate",
      "aov"] :=
    preservesOutside_comp (by
        rw [← e7]; exact preservesOutside_assign W6 _ _ (by decide))
      (preservesOutside_mono (by decide) Q7)
  have Q5 : PreservesOutside t5 out ["frequency", "cost_per_impression",
      "revenue_per_impression", "revenue_per_click", "purchase_rate",
      "aov"] :=
    preservesOutside_comp (by
        rw [← e6]; exact preservesOutside_assign W5 _ _ (by decide))
      (preservesOutside_mono (by decide) Q6)
  have Q4 : PreservesOutside t4 out ["roas", "frequency",
      "cost_per_impression", "revenue_per_impression", "revenue_per_click",
      "purchase_rate", "aov"] :=
    preservesOutside_comp (preservesOutside_of_shape1 W4 S5 (by decide))
      (preservesOutside_mono (by decide) Q5)
  have Q3 : PreservesOutside t3 out ["cpa", "cvr", "roas", "frequency",
      "cost_per_impression", "revenue_per_impression", "revenue_per_click",
      "purchase_rate", "aov"] :=
    preservesOutside_comp
      (preservesOutside_of_shape2 W3 S4 (by decide) (by decide))
      (preservesOutside_mono (by decide) Q4)
  have Q2 : PreservesOutside t2 out ["ctr", "cpa", "cvr", "roas",
      "frequency", "cost_per_impression", "revenue_per_impression",
      "revenue_per_click", "purchase_rate", "aov"] :=
    preservesOutside_comp (by
        rw [← e3]; exact preservesOutside_assign W2 _ _ (by decide))
      (preservesOutside_mono (by decide) Q3)
  have Q1 : PreservesOutside t1 out ["cpm", "ctr", "cpa", "cvr", "roas",
      "frequency", "cost_per_impression", "revenue_per_impression",
      "revenue_per_click", "purchase_rate", "aov"] :=
    preservesOutside_comp (by
        rw [← e2]; exact preservesOutside_assign W1 _ _ (by decide))
      (preservesOutside_mono (by decide) Q2)
  have Fcpc := Col3Prop_of_preserves Q1 (by decide) (by decide) (by decide)
    Ecpc
  have Fcpm := Col3Prop_of_preserves Q2 (by decide) (by decide) (by decide)
    Ecpm
  have Fctr := Col3Prop_of_preserves Q3 (by decide) (by decide) (by decide)
    Ectr
  have Ffreq := Col3Prop_of_preserves Q6 (by decide) (by decide) (by decide)
    Efreq
  have Fcpi := Col3Prop_of_preserves Q7 (by decide) (by decide) (by decide)
    Ecpi
  refine ⟨Wout, Pout, Fcpc, Fcpm, Fctr, Ffreq, Fcpi, ?_, ?_, ?_⟩
  · intro hp
    have hp3 : (colIdx t3.cols "purchases").isSome := by
      rw [colIdx_of_preserves P3 (by decide)]; exact hp
    unfold kpiStepConv at h4
    rw [if_pos hp3] at h4
    obtain ⟨v, hcpa, hcvr⟩ := except_bind_ok h4
    have ev := Except.ok.inj ((calcRatio_ok_eq hp3 hs3).symm.trans hcpa)
    have Wv : WF v := by rw [← ev]; exact WF_assignCol _ _ W3
    have hpv : (colIdx v.cols "purchases").isSome := by
      rw [← ev, colIdx_assignCol_ne _ _ _ (by decide)]; exact hp3
    have hcv : (colIdx v.cols "clicks").isSome := by
      rw [← ev, colIdx_assignCol_ne _ _ _ (by decide)]; exact hc3
    have Ecpa : Col3Prop v "cpa" "spend" "purchases"
        (fun tv nv dv => tv = kpiCell nv dv 1) :=
      Col3Prop_calcRatio W3 hp3 hs3 hcpa (by decide) (by decide)
    have Ecvr : Col3Prop t4 "cvr" "purchases" "clicks"
        (fun tv nv dv => tv = kpiCell nv dv 1) :=
      Col3Prop_calcRatio Wv hcv hpv hcvr (by decide) (by decide)
    have ev4 := Except.ok.inj ((calcRatio_ok_eq hcv hpv).symm.trans hcvr)
    have Qv : PreservesOutside v out ["cvr", "roas", "frequency",
        "cost_per_impression", "revenue_per_impression",
        "revenue_per_click", "purchase_rate", "aov"] :=
      preservesOutside_comp (by
          rw [← ev4]; exact preservesOutside_assign Wv _ _ (by decide))
        (preservesOutside_mono (by decide) Q4)
    have hp8 : (colIdx t8.cols "purchases").isSome := by
      rw [colIdx_of_preserves P8 (by decide)]; exact hp
    unfold kpiStepPurchaseRate at h9
    rw [if_pos hp8] at h9
    have Epr : Col3Prop t9 "purchase_rate" "purchases" "impressions"
        (fun tv nv dv => tv = kpiCell nv dv 1) :=
      Col3Prop_calcRatio W8 hi8 hp8 h9 (by decide) (by decide)
    exact ⟨Col3Prop_of_preserves Qv (by decide) (by decide) (by decide) Ecpa,
      Col3Prop_of_preserves Q4 (by decide) (by decide) (by decide) Ecvr,
      Col3Prop_of_preserves Q9 (by decide) (by decide) (by decide) Epr⟩
  · intro hr
    have hr4 : (colIdx t4.cols "revenue").isSome := by
      rw [colIdx_of_preserves P4 (by decide)]; exact hr
    unfold kpiStepRoas at h5
    rw [if_pos hr4] at h5
    have Eroas : Col3Prop t5 "roas" "revenue" "spend"
        (fun tv nv dv => tv = kpiCell nv dv 1) :=
      Col3Prop_calcRatio W4 hs4 hr4 h5 (by decide) (by decide)
    have hr7 : (colIdx t7.cols "revenue").isSome := by
      rw [colIdx_of_preserves P7 (by decide)]; exact hr
    unfold kpiStepRpiRpc at h8
    rw [if_pos hr7] at h8
    obtain ⟨v8, hrpi, hrpc⟩ := except_bind_ok h8
    have ev8 := Except.ok.inj ((calcRatio_ok_eq hi7 hr7).symm.trans hrpi)
    have Wv8 : WF v8 := by rw [← ev8]; exact WF_assignCol _ _ W7
    have hrv8 : (colIdx v8.cols "revenue").isSome := by
      rw [← ev8, colIdx_assignCol_ne _ _ _ (by decide)]; exact hr7
    have hcv8 : (colIdx v8.cols "clicks").isSome := by
      rw [← ev8, colIdx_assignCol_ne _ _ _ (by decide)]; exact hc7
    have Erpi : Col3Prop v8 "revenue_per_impression" "revenue" "impressions"
        (fun tv nv dv => tv = kpiCell nv dv 1) :=
      Col3Prop_calcRatio W7 hi7 hr7 hrpi (by decide) (by decide)
    have Erpc : Col3Prop t8 "revenue_per_click" "revenue" "clicks"
        (fun tv nv dv => tv = kpiCell nv dv 1) :=
      Col3Prop_calcRatio Wv8 hcv8 hrv8 hrpc (by decide) (by decide)
    have ev8b := Except.ok.inj ((calcRatio_ok_eq hcv8 hrv8).symm.trans hrpc)
    have Qv8 : PreservesOutside v8 out ["revenue_per_click",
        "purchase_rate", "aov"] :=
      preservesOutside_comp (by
          rw [← ev8b]; exact preservesOutside_assign Wv8 _ _ (by decide))
        (preservesOutside_mono (by decide) Q8)
    exact ⟨Col3Prop_of_preserves Q5 (by decide) (by decide) (by decide)
        Eroas,
      Col3Prop_of_preserves Qv8 (by decide) (by decide) (by decide) Erpi,
      Col3Prop_of_preserves Q8 (by decide) (by decide) (by decide) Erpc⟩
  · intro hr hp
    have hr9 : (colIdx t9.cols "revenue").isSome := by
      rw [colIdx_of_preserves P9 (by decide)]; exact hr
    have hp9 : (colIdx t9.cols "purchases").isSome := by
      rw [colIdx_of_preserves P9 (by decide)]; exact hp
    unfold kpiStepAov at hok
    have hcond : (colIdx t9.cols "revenue").isSome ∧
        (colIdx t9.cols "purchases").isSome := ⟨hr9, hp9⟩
    rw [if_pos hcond] at hok
    exact Col3Prop_calcRatio W9 hp9 hr9 hok (by decide) (by decide)

/-- C9: `calculate_all_kpis` unconditionally recomputes `frequency`.  For a
table that already carries a `frequency` column (as mapped from the Excel
header by `column_mapping`), the run succeeds, every output row is the
image of its input row, the base columns `spend`, `impressions`, `clicks`,
`purchases` and `revenue` keep their input values, and the output
`frequency` cell equals `impressions / clicks` (or `impressions` when
`clicks = 0`) computed from the input base columns — the input frequency
values are never consulted. -/
theorem C9_frequency_always_recomputed (t : Table) (hwf : WF t)
    (hc : (colIdx t.cols "clicks").isSome)
    (hs : (colIdx t.cols "spend").isSome)
    (hi : (colIdx t.cols "impressions").isSome)
    (hf : (colIdx t.cols "frequency").isSome) :
    ∃ out, calculate_all_kpis t = .ok out ∧
      ∃ Φ : ℕ × List Cell → ℕ × List Cell, out.rows = t.rows.map Φ ∧
        ∀ r ∈ t.rows,
          cellVal out.cols "spend" (Φ r).2 = cellVal t.cols "spend" r.2 ∧
          cellVal out.cols "impressions" (Φ r).2 =
            cellVal t.cols "impressions" r.2 ∧
          cellVal out.cols "clicks" (Φ r).2 = cellVal t.cols "clicks" r.2 ∧
          cellVal out.cols "purchases" (Φ r).2 =
            cellVal t.cols "purchases" r.2 ∧
          cellVal out.cols "revenue" (Φ r).2 =
            cellVal t.cols "revenue" r.2 ∧
          cellVal out.cols "frequency" (Φ r).2 =
            freqCell (cellVal t.cols "clicks" r.2)
              (cellVal t.cols "impressions" r.2) ∧
          ∀ qc qi : ℚ, cellVal t.cols "clicks" r.2 = .num qc →
            cellVal t.cols "impressions" r.2 = .num qi →
            cellVal out.cols "frequency" (Φ r).2 =
              .num (if 0 < qc then qi / qc else qi) := by
  obtain ⟨out, hok⟩ := calculate_all_kpis_isOk t hc hs hi
  obtain ⟨_, Pout, _, _, _, Ffreq, _, _, _, _⟩ :=
    calcKpis_master hwf hc hs hi hok
  obtain ⟨Φ, hrows, _, hcells⟩ := Pout
  refine ⟨out, hok, Φ, hrows, ?_⟩
  intro r hr
  have hmem : Φ r ∈ out.rows := by
    rw [hrows]
    exact List.mem_map_of_mem Φ hr
  have hfr : cellVal out.cols "frequency" (Φ r).2 =
      freqCell (cellVal t.cols "clicks" r.2)
        (cellVal t.cols "impressions" r.2) := by
    have h := Ffreq (Φ r) hmem
    rw [hcells r hr "clicks" (by decide), hcells r hr "impressions"
      (by decide)] at h
    exact h
  refine ⟨hcells r hr "spend" (by decide), hcells r hr "impressions"
    (by decide), hcells r hr "clicks" (by decide),
    hcells r hr "purchases" (by decide), hcells r hr "revenue" (by decide),
    hfr, ?_⟩
  intro qc qi hqc hqi
  rw [hfr, hqc, hqi, freqCell_num]

/-- C9 witness: the concrete table with `frequency = 99` comes out with
`frequency = impressions / clicks = 5`. -/
theorem C9_witness :
    WF exC9 ∧ (colIdx exC9.cols "frequency").isSome ∧
      (∃ out, calculate_all_kpis exC9 = .ok out ∧
        ∃ Φ : ℕ × List Cell → ℕ × List Cell, out.rows = exC9.rows.map Φ ∧
          ∀ r ∈ exC9.rows,
            cellVal out.cols "spend" (Φ r).2 =
              cellVal exC9.cols "spend" r.2 ∧
            cellVal out.cols "impressions" (Φ r).2 =
              cellVal exC9.cols "impressions" r.2 ∧
            cellVal out.cols "clicks" (Φ r).2 =
              cellVal exC9.cols "clicks" r.2 ∧
            cellVal out.cols "purchases" (Φ r).2 =
              cellVal exC9.cols "purchases" r.2 ∧
            cellVal out.cols "revenue" (Φ r).2 =
              cellVal exC9.cols "revenue" r.2 ∧
            cellVal out.cols "frequency" (Φ r).2 =
              freqCell (cellVal exC9.cols "clicks" r.2)
                (cellVal exC9.cols "impressions" r.2) ∧
            ∀ qc qi : ℚ, cellVal exC9.cols "clicks" r.2 = .num qc →
              cellVal exC9.cols "impressions" r.2 = .num qi →
              cellVal out.cols "frequency" (Φ r).2 =
                .num (if 0 < qc then qi / qc else qi)) := by
  have hwf : WF exC9 := by
    intro r hr
    simp only [exC9, List.mem_singleton] at hr
    subst hr
    rfl
  exact ⟨hwf, rfl, C9_frequency_always_recomputed exC9 hwf rfl rfl rfl rfl⟩

/-- C5: every KPI written by `calculate_all_kpis` obeys the zero-guard
rule — numerator over denominator when the denominator is strictly
positive, `0` otherwise — the run never raises, and on numeric base
columns every KPI cell is a defined number.  In particular a row with
`impressions = 0` gets `ctr = 0` and `cpm = 0`, and a row with
`clicks = 0` gets `frequency = impressions`. -/
theorem C5_zero_guarded_kpis (t : Table) (hwf : WF t)
    (hc : (colIdx t.cols "clicks").isSome)
    (hs : (colIdx t.cols "spend").isSome)
    (hi : (colIdx t.cols "impressions").isSome)
    (hsn : ColProp t "spend" IsNum) (hcn : ColProp t "clicks" IsNum)
    (hin : ColProp t "impressions" IsNum)
    (hpn : (colIdx t.cols "purchases").isSome →
      ColProp t "purchases" IsNum)
    (hrn : (colIdx t.cols "revenue").isSome → ColProp t "revenue" IsNum) :
    ∃ out, calculate_all_kpis t = .ok out ∧
      (∀ r ∈ out.rows, ∀ qs qc qi : ℚ,
        cellVal out.cols "spend" r.2 = .num qs →
        cellVal out.cols "clicks" r.2 = .num qc →
        cellVal out.cols "impressions" r.2 = .num qi →
        cellVal out.cols "cpc" r.2 = .num (if 0 < qc then qs / qc else 0) ∧
        cellVal out.cols "cpm" r.2 =
          .num (if 0 < qi then qs / qi * 1000 else 0) ∧
        cellVal out.cols "ctr" r.2 = .num (if 0 < qi then qc / qi else 0) ∧
        cellVal out.cols "frequency" r.2 =
          .num (if 0 < qc then qi / qc else qi) ∧
        cellVal out.cols "cost_per_impression" r.2 =
          .num (if 0 < qi then qs / qi else 0) ∧
        (qi = 0 → cellVal out.cols "ctr" r.2 = .num 0 ∧
          cellVal out.cols "cpm" r.2 = .num 0) ∧
        (qc = 0 → cellVal out.cols "frequency" r.2 = .num qi)) ∧
      ((colIdx t.cols "purchases").isSome → ∀ r ∈ out.rows,
        ∀ qs qc qi qp : ℚ,
        cellVal out.cols "spend" r.2 = .num qs →
        cellVal out.cols "clicks" r.2 = .num qc →
        cellVal out.cols "impressions" r.2 = .num qi →
        cellVal out.cols "purchases" r.2 = .num qp →
        cellVal out.cols "cpa" r.2 = .num (if 0 < qp then qs / qp else 0) ∧
        cellVal out.cols "cvr" r.2 = .num (if 0 < qc then qp / qc else 0) ∧
        cellVal out.cols "purchase_rate" r.2 =
          .num (if 0 < qi then qp / qi else 0)) ∧
      ((colIdx t.cols "revenue").isSome → ∀ r ∈ out.rows,
        ∀ qs qc qi qr : ℚ,
        cellVal out.cols "spend" r.2 = .num qs →
        cellVal out.cols "clicks" r.2 = .num qc →
        cellVal out.cols "impressions" r.2 = .num qi →
        cellVal out.cols "revenue" r.2 = .num qr →
        cellVal out.cols "roas" r.2 = .num (if 0 < qs then qr / qs else 0) ∧
        cellVal out.cols "revenue_per_impression" r.2 =
          .num (if 0 < qi then qr / qi else 0) ∧
        cellVal out.cols "revenue_per_click" r.2 =
          .num (if 0 < qc then qr / qc else 0)) ∧
      ((colIdx t.cols "revenue").isSome →
        (colIdx t.cols "purchases").isSome → ∀ r ∈ out.rows, ∀ qr qp : ℚ,
        cellVal out.cols "revenue" r.2 = .num qr →
        cellVal out.cols "purchases" r.2 = .num qp →
        cellVal out.cols "aov" r.2 =
          .num (if 0 < qp then qr / qp else 0)) ∧
      ColProp out "cpc" IsNum ∧ ColProp out "cpm" IsNum ∧
      ColProp out "ctr" IsNum ∧ ColProp out "frequency" IsNum ∧
      ColProp out "cost_per_impression" IsNum ∧
      ((colIdx t.cols "purchases").isSome → ColProp out "cpa" IsNum ∧
        ColProp out "cvr" IsNum ∧ ColProp out "purchase_rate" IsNum) ∧
      ((colIdx t.cols "revenue").isSome → ColProp out "roas" IsNum ∧
        ColProp out "revenue_per_impression" IsNum ∧
        ColProp out "revenue_per_click" IsNum) ∧
      ((colIdx t.cols "revenue").isSome →
        (colIdx t.cols "purchases").isSome → ColProp out "aov" IsNum) := by
  obtain ⟨out, hok⟩ := calculate_all_kpis_isOk t hc hs hi
  obtain ⟨Wout, Pout, Fcpc, Fcpm, Fctr, Ffreq, Fcpi, Fp, Fr, Fa⟩ :=
    calcKpis_master hwf hc hs hi hok
  have hsn2 : ColProp out "spend" IsNum :=
    ColProp_of_preserves Pout (by decide) hsn
  have hcn2 : ColProp out "clicks" IsNum :=
    ColProp_of_preserves Pout (by decide) hcn
  have hin2 : ColProp out "impressions" IsNum :=
    ColProp_of_preserves Pout (by decide) hin
  refine ⟨out, hok, ?_, ?_, ?_, ?_, ?_, ?_, ?_, ?_, ?_, ?_, ?_, ?_⟩
  · intro r hr qs qc qi hqs hqc hqi
    have h1 : cellVal out.cols "cpc" r.2 =
        kpiCell (cellVal out.cols "spend" r.2)
          (cellVal out.cols "clicks" r.2) 1 := Fcpc r hr
    rw [hqs, hqc, kpiCell_num_one] at h1
    have h2 : cellVal out.cols "cpm" r.2 =
        kpiCell (cellVal out.cols "spend" r.2)
          (cellVal out.cols "impressions" r.2) 1000 := Fcpm r hr
    rw [hqs, hqi, kpiCell_num] at h2
    have h3 : cellVal out.cols "ctr" r.2 =
        kpiCell (cellVal out.cols "clicks" r.2)
          (cellVal out.cols "impressions" r.2) 1 := Fctr r hr
    rw [hqc, hqi, kpiCell_num_one] at h3
    have h4 : cellVal out.cols "frequency" r.2 =
        freqCell (cellVal out.cols "clicks" r.2)
          (cellVal out.cols "impressions" r.2) := Ffreq r hr
    rw [hqc, hqi, freqCell_num] at h4
    have h5 : cellVal out.cols "cost_per_impression" r.2 =
        kpiCell (cellVal out.cols "spend" r.2)
          (cellVal out.cols "impressions" r.2) 1 := Fcpi r hr
    rw [hqs, hqi, kpiCell_num_one] at h5
    refine ⟨h1, h2, h3, h4, h5, ?_, ?_⟩
    · intro h0
      subst h0
      exact ⟨by rw [h3, if_neg (lt_irrefl (0 : ℚ))],
        by rw [h2, if_neg (lt_irrefl (0 : ℚ))]⟩
    · intro h0
      subst h0
      rw [h4, if_neg (lt_irrefl (0 : ℚ))]
  · intro hp r hr qs qc qi qp hqs hqc hqi hqp
    obtain ⟨Fcpa, Fcvr, Fpr⟩ := Fp hp
    have h1 : cellVal out.cols "cpa" r.2 =
        kpiCell (cellVal out.cols "spend" r.2)
          (cellVal out.cols "purchases" r.2) 1 := Fcpa r hr
    rw [hqs, hqp, kpiCell_num_one] at h1
    have h2 : cellVal out.cols "cvr" r.2 =
        kpiCell (cellVal out.cols "purchases" r.2)
          (cellVal out.cols "clicks" r.2) 1 := Fcvr r hr
    rw [hqp, hqc, kpiCell_num_one] at h2
    have h3 : cellVal out.cols "purchase_rate" r.2 =
        kpiCell (cellVal out.cols "purchases" r.2)
          (cellVal out.cols "impressions" r.2) 1 := Fpr r hr
    rw [hqp, hqi, kpiCell_num_one] at h3
    exact ⟨h1, h2, h3⟩
  · intro hr0 r hr qs qc qi qr hqs hqc hqi hqr
    obtain ⟨Froas, Frpi, Frpc⟩ := Fr hr0
    have h1 : cellVal out.cols "roas" r.2 =
        kpiCell (cellVal out.cols "revenue" r.2)
          (cellVal out.cols "spend" r.2) 1 := Froas r hr
    rw [hqr, hqs, kpiCell_num_one] at h1
    have h2 : cellVal out.cols "revenue_per_impression" r.2 =
        kpiCell (cellVal out.cols "revenue" r.2)
          (cellVal out.cols "impressions" r.2) 1 := Frpi r hr
    rw [hqr, hqi, kpiCell_num_one] at h2
    have h3 : cellVal out.cols "revenue_per_click" r.2 =
        kpiCell (cellVal out.cols "revenue" r.2)
          (cellVal out.cols "clicks" r.2) 1 := Frpc r hr
    rw [hqr, hqc, kpiCell_num_one] at h3
    exact ⟨h1, h2, h3⟩
  · intro hr0 hp r hr qr qp hqr hqp
    have h1 : cellVal out.cols "aov" r.2 =
        kpiCell (cellVal out.cols "revenue" r.2)
          (cellVal out.cols "purchases" r.2) 1 := Fa hr0 hp r hr
    rw [hqr, hqp, kpiCell_num_one] at h1
    exact h1
  · intro r hr
    obtain ⟨qs, hqs⟩ := hsn2 r hr
    obtain ⟨qc, hqc⟩ := hcn2 r hr
    have h1 : cellVal out.cols "cpc" r.2 =
        kpiCell (cellVal out.cols "spend" r.2)
          (cellVal out.cols "clicks" r.2) 1 := Fcpc r hr
    rw [hqs, hqc, kpiCell_num_one] at h1
    exact ⟨_, h1⟩
  · intro r hr
    obtain ⟨qs, hqs⟩ := hsn2 r hr
    obtain ⟨qi, hqi⟩ := hin2 r hr
    have h1 : cellVal out.cols "cpm" r.2 =
        kpiCell (cellVal out.cols "spend" r.2)
          (cellVal out.cols "impressions" r.2) 1000 := Fcpm r hr
    rw [hqs, hqi, kpiCell_num] at h1
    exact ⟨_, h1⟩
  · intro r hr
    obtain ⟨qc, hqc⟩ := hcn2 r hr
    obtain ⟨qi, hqi⟩ := hin2 r hr
    have h1 : cellVal out.cols "ctr" r.2 =
        kpiCell (cellVal out.cols "clicks" r.2)
          (cellVal out.cols "impressions" r.2) 1 := Fctr r hr
    rw [hqc, hqi, kpiCell_num_one] at h1
    exact ⟨_, h1⟩
  · intro r hr
    obtain ⟨qc, hqc⟩ := hcn2 r hr
    obtain ⟨qi, hqi⟩ := hin2 r hr
    have h1 : cellVal out.cols "frequency" r.2 =
        freqCell (cellVal out.cols "clicks" r.2)
          (cellVal out.cols "impressions" r.2) := Ffreq r hr
    rw [hqc, hqi, freqCell_num] at h1
    exact ⟨_, h1⟩
  · intro r hr
    obtain ⟨qs, hqs⟩ := hsn2 r hr
    obtain ⟨qi, hqi⟩ := hin2 r hr
    have h1 : cellVal out.cols "cost_per_impression" r.2 =
        kpiCell (cellVal out.cols "spend" r.2)
          (cellVal out.cols "impressions" r.2) 1 := Fcpi r hr
    rw [hqs, hqi, kpiCell_num_one] at h1
    exact ⟨_, h1⟩
  · intro hp
    have hpn2 : ColProp out "purchases" IsNum :=
      ColProp_of_preserves Pout (by decide) (hpn hp)
    obtain ⟨Fcpa, Fcvr, Fpr⟩ := Fp hp
    refine ⟨?_, ?_, ?_⟩
    · intro r hr
      obtain ⟨qs, hqs⟩ := hsn2 r hr
      obtain ⟨qp, hqp⟩ := hpn2 r hr
      have h1 : cellVal out.cols "cpa" r.2 =
          kpiCell (cellVal out.cols "spend" r.2)
            (cellVal out.cols "purchases" r.2) 1 := Fcpa r hr
      rw [hqs, hqp, kpiCell_num_one] at h1
      exact ⟨_, h1⟩
    · intro r hr
      obtain ⟨qp, hqp⟩ := hpn2 r hr
      obtain ⟨qc, hqc⟩ := hcn2 r hr
      have h1 : cellVal out.cols "cvr" r.2 =
          kpiCell (cellVal out.cols "purchases" r.2)
            (cellVal out.cols "clicks" r.2) 1 := Fcvr r hr
      rw [hqp, hqc, kpiCell_num_one] at h1
      exact ⟨_, h1⟩
    · intro r hr
      obtain ⟨qp, hqp⟩ := hpn2 r hr
      obtain ⟨qi, hqi⟩ := hin2 r hr
      have h1 : cellVal out.cols "purchase_rate" r.2 =
          kpiCell (cellVal out.cols "purchases" r.2)
            (cellVal out.cols "impressions" r.2) 1 := Fpr r hr
      rw [hqp, hqi, kpiCell_num_one] at h1
      exact ⟨_, h1⟩
  · intro hr0
    have hrn2 : ColProp out "revenue" IsNum :=
      ColProp_of_preserves Pout (by decide) (hrn hr0)
    obtain ⟨Froas, Frpi, Frpc⟩ := Fr hr0
    refine ⟨?_, ?_, ?_⟩
    · intro r hr
      obtain ⟨qr, hqr⟩ := hrn2 r hr
      obtain ⟨qs, hqs⟩ := hsn2 r hr
      have h1 : cellVal out.cols "roas" r.2 =
          kpiCell (cellVal out.cols "revenue" r.2)
            (cellVal out.cols "spend" r.2) 1 := Froas r hr
      rw [hqr, hqs, kpiCell_num_one] at h1
      exact ⟨_, h1⟩
    · intro r hr
      obtain ⟨qr, hqr⟩ := hrn2 r hr
      obtain ⟨qi, hqi⟩ := hin2 r hr
      have h1 : cellVal out.cols "revenue_per_impression" r.2 =
          kpiCell (cellVal out.cols "revenue" r.2)
            (cellVal out.cols "impressions" r.2) 1 := Frpi r hr
      rw [hqr, hqi, kpiCell_num_one] at h1
      exact ⟨_, h1⟩
    · intro r hr
      obtain ⟨qr, hqr⟩ := hrn2 r hr
      obtain ⟨qc, hqc⟩ := hcn2 r hr
      have h1 : cellVal out.cols "revenue_per_click" r.2 =
          kpiCell (cellVal out.cols "revenue" r.2)
            (cellVal out.cols "clicks" r.2) 1 := Frpc r hr
      rw [hqr, hqc, kpiCell_num_one] at h1
      exact ⟨_, h1⟩
  · intro hr0 hp
    have hrn2 : ColProp out "revenue" IsNum :=
      ColProp_of_preserves Pout (by decide) (hrn hr0)
    have hpn2 : ColProp out "purchases" IsNum :=
      ColProp_of_preserves Pout (by decide) (hpn hp)
    intro r hr
    obtain ⟨qr, hqr⟩ := hrn2 r hr
    obtain ⟨qp, hqp⟩ := hpn2 r hr
    have h1 : cellVal out.cols "aov" r.2 =
        kpiCell (cellVal out.cols "revenue" r.2)
          (cellVal out.cols "purchases" r.2) 1 := Fa hr0 hp r hr
    rw [hqr, hqp, kpiCell_num_one] at h1
    exact ⟨_, h1⟩

/-- C5 witness: the zero-guard theorem applied to the concrete two-row
table whose first row has `impressions = 0` and `clicks = 0`. -/
theorem C5_witness :
    WF exC5 ∧ (colIdx exC5.cols "clicks").isSome ∧
      ColProp exC5 "spend" IsNum ∧
      (∃ out, calculate_all_kpis exC5 = .ok out ∧
        (∀ r ∈ out.rows, ∀ qs qc qi : ℚ,
          cellVal out.cols "spend" r.2 = .num qs →
          cellVal out.cols "clicks" r.2 = .num qc →
          cellVal out.cols "impressions" r.2 = .num qi →
          cellVal out.cols "cpc" r.2 =
            .num (if 0 < qc then qs / qc else 0) ∧
          cellVal out.cols "cpm" r.2 =
            .num (if 0 < qi then qs / qi * 1000 else 0) ∧
          cellVal out.cols "ctr" r.2 =
            .num (if 0 < qi then qc / qi else 0) ∧
          cellVal out.cols "frequency" r.2 =
            .num (if 0 < qc then qi / qc else qi) ∧
          cellVal out.cols "cost_per_impression" r.2 =
            .num (if 0 < qi then qs / qi else 0) ∧
          (qi = 0 → cellVal out.cols "ctr" r.2 = .num 0 ∧
            cellVal out.cols "cpm" r.2 = .num 0) ∧
          (qc = 0 → cellVal out.cols "frequency" r.2 = .num qi)) ∧
        ((colIdx exC5.cols "purchases").isSome → ∀ r ∈ out.rows,
          ∀ qs qc qi qp : ℚ,
          cellVal out.cols "spend" r.2 = .num qs →
          cellVal out.cols "clicks" r.2 = .num qc →
          cellVal out.cols "impressions" r.2 = .num qi →
          cellVal out.cols "purchases" r.2 = .num qp →
          cellVal out.cols "cpa" r.2 =
            .num (if 0 < qp then qs / qp else 0) ∧
          cellVal out.cols "cvr" r.2 =
            .num (if 0 < qc then qp / qc else 0) ∧
          cellVal out.cols "purchase_rate" r.2 =
            .num (if 0 < qi then qp / qi else 0)) ∧
        ((colIdx exC5.cols "revenue").isSome → ∀ r ∈ out.rows,
          ∀ qs qc qi qr : ℚ,
          cellVal out.cols "spend" r.2 = .num qs →
          cellVal out.cols "clicks" r.2 = .num qc →
          cellVal out.cols "impressions" r.2 = .num qi →
          cellVal out.cols "revenue" r.2 = .num qr →
          cellVal out.cols "roas" r.2 =
            .num (if 0 < qs then qr / qs else 0) ∧
          cellVal out.cols "revenue_per_impression" r.2 =
            .num (if 0 < qi then qr / qi else 0) ∧
          cellVal out.cols "revenue_per_click" r.2 =
            .num (if 0 < qc then qr / qc else 0)) ∧
        ((colIdx exC5.cols "revenue").isSome →
          (colIdx exC5.cols "purchases").isSome → ∀ r ∈ out.rows,
          ∀ qr qp : ℚ,
          cellVal out.cols "revenue" r.2 = .num qr →
          cellVal out.cols "purchases" r.2 = .num qp →
          cellVal out.cols "aov" r.2 =
            .num (if 0 < qp then qr / qp else 0)) ∧
        ColProp out "cpc" IsNum ∧ ColProp out "cpm" IsNum ∧
        ColProp out "ctr" IsNum ∧ ColProp out "frequency" IsNum ∧
        ColProp out "cost_per_impression" IsNum ∧
        ((colIdx exC5.cols "purchases").isSome → ColProp out "cpa" IsNum ∧
          ColProp out "cvr" IsNum ∧ ColProp out "purchase_rate" IsNum) ∧
        ((colIdx exC5.cols "revenue").isSome → ColProp out "roas" IsNum ∧
          ColProp out "revenue_per_impression" IsNum ∧
          ColProp out "revenue_per_click" IsNum) ∧
        ((colIdx exC5.cols "revenue").isSome →
          (colIdx exC5.cols "purchases").isSome →
          ColProp out "aov" IsNum)) := by
  have hwf : WF exC5 := by
    intro r hr
    simp only [exC5, List.mem_cons, List.not_mem_nil, or_false] at hr
    rcases hr with rfl | rfl
    · rfl
    · rfl
  have hsn : ColProp exC5 "spend" IsNum := by
    intro r hr
    simp only [exC5, List.mem_cons, List.not_mem_nil, or_false] at hr
    rcases hr with rfl | rfl
    · exact ⟨10, rfl⟩
    · exact ⟨6, rfl⟩
  have hcn : ColProp exC5 "clicks" IsNum := by
    intro r hr
    simp only [exC5, List.mem_cons, List.not_mem_nil, or_false] at hr
    rcases hr with rfl | rfl
    · exact ⟨0, rfl⟩
    · exact ⟨2, rfl⟩
  have hin : ColProp exC5 "impressions" IsNum := by
    intro r hr
    simp only [exC5, List.mem_cons, List.not_mem_nil, or_false] at hr
    rcases hr with rfl | rfl
    · exact ⟨0, rfl⟩
    · exact ⟨4, rfl⟩
  exact ⟨hwf, rfl, hsn, C5_zero_guarded_kpis exC5 hwf rfl rfl rfl hsn hcn
    hin (fun h => absurd h (by decide)) (fun h => absurd h (by decide))⟩

end MetaAds
